import Mathlib

/-!
# DriveScheduler (chrome/browser/chromeos/drive/drive_scheduler.cc)

A shallow embedding of the Drive job scheduler: two priority queues with a
per-queue cap on running jobs, a network/preference gate, and a throttle
counter with exponential backoff.

The scheduler object and the collaborators it talks to (the Drive service and
uploader that hold in-flight jobs, the message loop that holds posted tasks)
are one explicit state; every member function is a function on that state.
Values the scheduler pulls from outside (preferences, network state, the
random jitter, the error-code conversion helpers) are parameters.
-/

namespace drive

/-! ## Data model -/

/-- Job kinds (`JobType`), one per scheduling entry point. -/
inductive JobType
  | TYPE_GET_ABOUT_RESOURCE
  | TYPE_GET_ACCOUNT_METADATA
  | TYPE_GET_APP_LIST
  | TYPE_GET_ALL_RESOURCE_LIST
  | TYPE_GET_RESOURCE_LIST_IN_DIRECTORY
  | TYPE_SEARCH
  | TYPE_GET_CHANGE_LIST
  | TYPE_CONTINUE_GET_RESOURCE_LIST
  | TYPE_GET_RESOURCE_ENTRY
  | TYPE_DELETE_RESOURCE
  | TYPE_COPY_HOSTED_DOCUMENT
  | TYPE_RENAME_RESOURCE
  | TYPE_ADD_RESOURCE_TO_DIRECTORY
  | TYPE_REMOVE_RESOURCE_FROM_DIRECTORY
  | TYPE_ADD_NEW_DIRECTORY
  | TYPE_DOWNLOAD_FILE
  | TYPE_UPLOAD_NEW_FILE
  | TYPE_UPLOAD_EXISTING_FILE
  deriving DecidableEq

/-- The two queues (`QueueType`); `NUM_QUEUES` is 2. -/
inductive QueueType
  | METADATA_QUEUE
  | FILE_QUEUE
  deriving DecidableEq

/-- Priority class of a job (`ContextType`, carried by `DriveClientContext`). -/
inductive ContextType
  | USER_INITIATED
  | BACKGROUND
  | PREFETCH
  deriving DecidableEq

/-- Modelled from the spec: the numeric values of the `ContextType` enumerators
(the enum is declared in a header that is not among the sources). The spec
orders a queue "by priorityClass (UserInitiated first)"; the enumerators are
numbered in the order the `switch` of `ShouldStopJobLoop` lists them. -/
def ContextType.value : ContextType → Nat
  | .USER_INITIATED => 0
  | .BACKGROUND => 1
  | .PREFETCH => 2

/-- Job states (`JobState`) used by the scheduler. -/
inductive JobState
  | STATE_NONE
  | STATE_RUNNING
  | STATE_RETRY
  deriving DecidableEq

/-- Modelled from the spec: `DriveFileError` is declared in a header that is
not among the sources. The scheduler only tells the "throttled" code apart
from every other code, so the other enumerators are kept as their number. -/
inductive DriveFileError
  | DRIVE_FILE_ERROR_THROTTLED
  | other (code : Int)
  deriving DecidableEq

/-- The record `JobInfo`. -/
structure JobInfo where
  job_type : JobType
  job_id : Int
  completed_bytes : Int
  total_bytes : Int
  state : JobState
  deriving DecidableEq

/-- The record `DriveClientContext`: the priority class supplied by the caller. -/
structure DriveClientContext where
  type : ContextType
  deriving DecidableEq

/-- The record `QueueEntry`. `params` stands for the operation-specific fields
of the entry (resource ids, paths, urls, the completion callback), which the
scheduler stores and passes on but never inspects. -/
structure QueueEntry where
  job_info : JobInfo
  context : DriveClientContext
  params : Nat
  deriving DecidableEq

/-- The constructor `JobInfo::JobInfo(JobType)`. -/
def JobInfo.new (in_job_type : JobType) : JobInfo :=
  { job_type := in_job_type, job_id := -1, completed_bytes := 0, total_bytes := 0,
    state := .STATE_NONE }

/-- The constructor `QueueEntry::QueueEntry(JobType)`: the context defaults to
`USER_INITIATED`. -/
def QueueEntry.new (in_job_type : JobType) : QueueEntry :=
  { job_info := JobInfo.new in_job_type, context := { type := .USER_INITIATED }, params := 0 }

/-- The comparator `QueueEntry::Compare`: `left->context.type < right->context.type`. -/
def QueueEntry.Compare (left right : QueueEntry) : Bool :=
  decide (left.context.type.value < right.context.type.value)

/-- A C array with one slot per `QueueType`. -/
structure QueueArray (α : Type) where
  metadata : α
  file : α
  deriving DecidableEq

/-- Array read `a[q]`. -/
def QueueArray.get {α : Type} (a : QueueArray α) : QueueType → α
  | .METADATA_QUEUE => a.metadata
  | .FILE_QUEUE => a.file

/-- Array write `a[q] = v`. -/
def QueueArray.set {α : Type} (a : QueueArray α) (q : QueueType) (v : α) : QueueArray α :=
  match q with
  | .METADATA_QUEUE => { a with metadata := v }
  | .FILE_QUEUE => { a with file := v }

/-- The constant `kMaxThrottleCount`. -/
def kMaxThrottleCount : Int := 5

/-- The table `DriveScheduler::kMaxJobCount`. -/
def kMaxJobCount : QueueType → Int
  | .METADATA_QUEUE => 5
  | .FILE_QUEUE => 1

/-- The completion handlers that `DoJobLoop` binds to the external calls. -/
inductive Handler
  | OnGetResourceListJobDone
  | OnGetResourceEntryJobDone
  | OnGetAboutResourceJobDone
  | OnGetAccountMetadataJobDone
  | OnGetAppListJobDone
  | OnEntryActionJobDone
  | OnDownloadActionJobDone
  | OnUploadCompletionJobDone
  deriving DecidableEq

/-- A task sitting in the message loop. `DoJobLoop q delay` is the bound call
`DoJobLoop(q)` posted with `delay` milliseconds (`PostTask` is delay 0);
`RunCallback e error payload` is a caller's completion callback bound to the
result it will be run with. -/
inductive Task
  | DoJobLoop (queue_type : QueueType) (delay : Int)
  | RunCallback (entry : QueueEntry) (error : Int) (payload : Nat)
  deriving DecidableEq

/-- What the scheduler reads from its collaborators each time it asks:
`prefs::kDisableDrive`, `NetworkChangeNotifier::IsOffline()`,
`prefs::kDisableDriveOverCellular` and
`IsConnectionCellular(GetConnectionType())`. -/
structure Env where
  kDisableDrive : Bool
  IsOffline : Bool
  kDisableDriveOverCellular : Bool
  IsConnectionCellular : Bool
  deriving DecidableEq

/-- The error conversions `util::GDataToDriveFileError` and
`DriveUploadErrorToDriveFileError`; both are defined outside the sources and
are taken as parameters. -/
structure Util where
  GDataToDriveFileError : Int → DriveFileError
  DriveUploadErrorToDriveFileError : Int → DriveFileError

/-- The scheduler together with the collaborators it hands work to.

The first six fields are the data members of `DriveScheduler`. `in_flight`
holds the calls issued to `drive_service_` / `uploader_` whose completion
callback has not run yet (each with the handler bound to it and the entry the
callback owns); `dispatched` is the history of all calls issued, oldest
first; `tasks` is the message loop; `callbacks_run` is the history of caller
callbacks run, with the status code and payload passed. -/
structure DriveScheduler where
  queue_ : QueueArray (List QueueEntry)
  jobs_running_ : QueueArray Int
  next_job_id_ : Int
  throttle_count_ : Int
  disable_throttling_ : Bool
  initialized_ : Bool
  in_flight : List (Handler × QueueEntry)
  dispatched : List QueueEntry
  tasks : List Task
  callbacks_run : List (QueueEntry × Int × Nat)
  deriving DecidableEq

/-- The constructor `DriveScheduler::DriveScheduler`. -/
def DriveScheduler.new : DriveScheduler :=
  { queue_ := { metadata := [], file := [] },
    jobs_running_ := { metadata := 0, file := 0 },
    next_job_id_ := 0,
    throttle_count_ := 0,
    disable_throttling_ := false,
    initialized_ := false,
    in_flight := [],
    dispatched := [],
    tasks := [],
    callbacks_run := [] }

/-- Modelled from the spec: the setter of the test/bypass flag
`disable_throttling_`. The member is initialised to `false` by the constructor
and only read in the sources; its setter lives in the class header, which is
not among them. The spec: "A `disableThrottling` test/bypass flag, when set,
forces delay to zero regardless of count." -/
def SetDisableThrottling (disable : Bool) (s : DriveScheduler) : DriveScheduler :=
  { s with disable_throttling_ := disable }

/-! ## Queue handling -/

/-- The function `DriveScheduler::GetJobQueueType`. -/
def GetJobQueueType : JobType → QueueType
  | .TYPE_GET_ABOUT_RESOURCE => .METADATA_QUEUE
  | .TYPE_GET_ACCOUNT_METADATA => .METADATA_QUEUE
  | .TYPE_GET_APP_LIST => .METADATA_QUEUE
  | .TYPE_GET_ALL_RESOURCE_LIST => .METADATA_QUEUE
  | .TYPE_GET_RESOURCE_LIST_IN_DIRECTORY => .METADATA_QUEUE
  | .TYPE_SEARCH => .METADATA_QUEUE
  | .TYPE_GET_CHANGE_LIST => .METADATA_QUEUE
  | .TYPE_CONTINUE_GET_RESOURCE_LIST => .METADATA_QUEUE
  | .TYPE_GET_RESOURCE_ENTRY => .METADATA_QUEUE
  | .TYPE_DELETE_RESOURCE => .METADATA_QUEUE
  | .TYPE_COPY_HOSTED_DOCUMENT => .METADATA_QUEUE
  | .TYPE_RENAME_RESOURCE => .METADATA_QUEUE
  | .TYPE_ADD_RESOURCE_TO_DIRECTORY => .METADATA_QUEUE
  | .TYPE_REMOVE_RESOURCE_FROM_DIRECTORY => .METADATA_QUEUE
  | .TYPE_ADD_NEW_DIRECTORY => .METADATA_QUEUE
  | .TYPE_DOWNLOAD_FILE => .FILE_QUEUE
  | .TYPE_UPLOAD_NEW_FILE => .FILE_QUEUE
  | .TYPE_UPLOAD_EXISTING_FILE => .FILE_QUEUE

/-- One insertion step of the stable sort: `x` goes behind every element that
`comp` puts strictly before it, and in front of the first element that it does
not. -/
def list_sort_insert {α : Type} (comp : α → α → Bool) (x : α) : List α → List α
  | [] => [x]
  | y :: ys => if comp y x then y :: list_sort_insert comp x ys else x :: y :: ys

/-- The call `std::list::sort(comp)`: a stable sort by the strict comparator
`comp`. Elements are inserted from the back of the list to the front, so an
element that is equal under `comp` to a later one stays ahead of it. -/
def list_sort {α : Type} (comp : α → α → Bool) : List α → List α
  | [] => []
  | x :: xs => list_sort_insert comp x (list_sort comp xs)

/-- The function `DriveScheduler::QueueJob`: `push_back` the job on the queue
of its type, then sort that queue with `QueueEntry::Compare`. -/
def QueueJob (job : QueueEntry) (s : DriveScheduler) : DriveScheduler :=
  let queue_type := GetJobQueueType job.job_info.job_type
  let queue := s.queue_.get queue_type
  let queue := queue ++ [job]
  let queue := list_sort QueueEntry.Compare queue
  { s with queue_ := s.queue_.set queue_type queue }

/-! ## The network gate -/

/-- The function `DriveScheduler::ShouldStopJobLoop`. -/
def ShouldStopJobLoop (env : Env) (queue_type : QueueType) (context : DriveClientContext) :
    Bool :=
  if env.kDisableDrive then true
  else if env.IsOffline then true
  else
    let should_stop_on_cellular_network : Bool :=
      match context.type with
      | .USER_INITIATED => false
      | .BACKGROUND => decide (queue_type = .FILE_QUEUE)
      | .PREFETCH => decide (queue_type = .FILE_QUEUE)
    if should_stop_on_cellular_network && env.kDisableDriveOverCellular &&
        env.IsConnectionCellular then true
    else false

/-! ## The job loop -/

/-- The completion handler bound in each `case` of the `switch` in `DoJobLoop`. -/
def boundHandler : JobType → Handler
  | .TYPE_GET_ABOUT_RESOURCE => .OnGetAboutResourceJobDone
  | .TYPE_GET_ACCOUNT_METADATA => .OnGetAccountMetadataJobDone
  | .TYPE_GET_APP_LIST => .OnGetAppListJobDone
  | .TYPE_GET_ALL_RESOURCE_LIST => .OnGetResourceListJobDone
  | .TYPE_GET_RESOURCE_LIST_IN_DIRECTORY => .OnGetResourceListJobDone
  | .TYPE_SEARCH => .OnGetResourceListJobDone
  | .TYPE_GET_CHANGE_LIST => .OnGetResourceListJobDone
  | .TYPE_CONTINUE_GET_RESOURCE_LIST => .OnGetResourceListJobDone
  | .TYPE_GET_RESOURCE_ENTRY => .OnGetResourceEntryJobDone
  | .TYPE_DELETE_RESOURCE => .OnEntryActionJobDone
  | .TYPE_COPY_HOSTED_DOCUMENT => .OnGetResourceEntryJobDone
  | .TYPE_RENAME_RESOURCE => .OnEntryActionJobDone
  | .TYPE_ADD_RESOURCE_TO_DIRECTORY => .OnEntryActionJobDone
  | .TYPE_REMOVE_RESOURCE_FROM_DIRECTORY => .OnEntryActionJobDone
  | .TYPE_ADD_NEW_DIRECTORY => .OnGetResourceEntryJobDone
  | .TYPE_DOWNLOAD_FILE => .OnDownloadActionJobDone
  | .TYPE_UPLOAD_NEW_FILE => .OnUploadCompletionJobDone
  | .TYPE_UPLOAD_EXISTING_FILE => .OnUploadCompletionJobDone

/-- The function `DriveScheduler::DoJobLoop`. Returns at once on an empty
queue or when the gate stops on the head job; otherwise counts the job as
running, pops it, marks it `STATE_RUNNING` and issues the external call for its
job type, which takes over the entry. -/
def DoJobLoop (env : Env) (queue_type : QueueType) (s : DriveScheduler) : DriveScheduler :=
  match s.queue_.get queue_type with
  | [] => s
  | front :: rest =>
    if ShouldStopJobLoop env queue_type front.context then s
    else
      let s := { s with jobs_running_ :=
        s.jobs_running_.set queue_type (s.jobs_running_.get queue_type + 1) }
      let s := { s with queue_ := s.queue_.set queue_type rest }
      let queue_entry : QueueEntry :=
        { front with job_info := { front.job_info with state := .STATE_RUNNING } }
      { s with
        in_flight := s.in_flight ++ [(boundHandler queue_entry.job_info.job_type, queue_entry)],
        dispatched := s.dispatched ++ [queue_entry] }

/-- The function `DriveScheduler::StartJobLoop`. -/
def StartJobLoop (env : Env) (queue_type : QueueType) (s : DriveScheduler) : DriveScheduler :=
  if s.jobs_running_.get queue_type < kMaxJobCount queue_type then DoJobLoop env queue_type s
  else s

/-! ## Throttling -/

/-- The expression `base::TimeDelta::FromSeconds(pow(2, e))`, in whole seconds:
`pow` yields the double `2^e`, which the `int64` parameter of `FromSeconds`
truncates, so a negative exponent gives 0. -/
def FromSeconds_pow2 (e : Int) : Int :=
  if e < 0 then 0 else 2 ^ e.toNat

/-- The function `DriveScheduler::ThrottleAndContinueJobLoop`. `rand` is the
value `base::RandInt(0, 1000)` returns when it is called; the delay of the
posted `DoJobLoop` task is in milliseconds. -/
def ThrottleAndContinueJobLoop (rand : Int) (queue_type : QueueType) (s : DriveScheduler) :
    DriveScheduler :=
  let s := if s.throttle_count_ < kMaxThrottleCount
    then { s with throttle_count_ := s.throttle_count_ + 1 } else s
  let delay : Int :=
    if s.disable_throttling_ then 0
    else 1000 * FromSeconds_pow2 (s.throttle_count_ - 1) + rand
  { s with tasks := s.tasks ++ [Task.DoJobLoop queue_type delay] }

/-- The function `DriveScheduler::ResetThrottleAndContinueJobLoop`. -/
def ResetThrottleAndContinueJobLoop (queue_type : QueueType) (s : DriveScheduler) :
    DriveScheduler :=
  let s := { s with throttle_count_ := 0 }
  { s with tasks := s.tasks ++ [Task.DoJobLoop queue_type 0] }

/-! ## Completions -/

/-- The function `DriveScheduler::OnJobDone`. The second component is the
returned `scoped_ptr`: `none` when the job was put back for a retry, the entry
itself otherwise. -/
def OnJobDone (rand : Int) (queue_entry : QueueEntry) (error : DriveFileError)
    (s : DriveScheduler) : DriveScheduler × Option QueueEntry :=
  let queue_type := GetJobQueueType queue_entry.job_info.job_type
  let s := { s with jobs_running_ :=
    s.jobs_running_.set queue_type (s.jobs_running_.get queue_type - 1) }
  if error = .DRIVE_FILE_ERROR_THROTTLED then
    let queue_entry : QueueEntry :=
      { queue_entry with job_info := { queue_entry.job_info with state := .STATE_RETRY } }
    let s := QueueJob queue_entry s
    let s := ThrottleAndContinueJobLoop rand queue_type s
    (s, none)
  else
    let s := ResetThrottleAndContinueJobLoop queue_type s
    (s, some queue_entry)

/-- The function `DriveScheduler::OnGetResourceListJobDone`: the caller's
callback is posted as a task. -/
def OnGetResourceListJobDone (u : Util) (rand : Int) (queue_entry : QueueEntry) (error : Int)
    (payload : Nat) (s : DriveScheduler) : DriveScheduler :=
  let drive_error := u.GDataToDriveFileError error
  match OnJobDone rand queue_entry drive_error s with
  | (s, none) => s
  | (s, some job_info) => { s with tasks := s.tasks ++ [Task.RunCallback job_info error payload] }

/-- The function `DriveScheduler::OnGetResourceEntryJobDone`: the caller's
callback is posted as a task. -/
def OnGetResourceEntryJobDone (u : Util) (rand : Int) (queue_entry : QueueEntry) (error : Int)
    (payload : Nat) (s : DriveScheduler) : DriveScheduler :=
  let drive_error := u.GDataToDriveFileError error
  match OnJobDone rand queue_entry drive_error s with
  | (s, none) => s
  | (s, some job_info) => { s with tasks := s.tasks ++ [Task.RunCallback job_info error payload] }

/-- The function `DriveScheduler::OnGetAboutResourceJobDone`: the caller's
callback is run directly. -/
def OnGetAboutResourceJobDone (u : Util) (rand : Int) (queue_entry : QueueEntry) (error : Int)
    (payload : Nat) (s : DriveScheduler) : DriveScheduler :=
  let drive_error := u.GDataToDriveFileError error
  match OnJobDone rand queue_entry drive_error s with
  | (s, none) => s
  | (s, some job_info) => { s with callbacks_run := s.callbacks_run ++ [(job_info, error, payload)] }

/-- The function `DriveScheduler::OnGetAccountMetadataJobDone`. -/
def OnGetAccountMetadataJobDone (u : Util) (rand : Int) (queue_entry : QueueEntry) (error : Int)
    (payload : Nat) (s : DriveScheduler) : DriveScheduler :=
  let drive_error := u.GDataToDriveFileError error
  match OnJobDone rand queue_entry drive_error s with
  | (s, none) => s
  | (s, some job_info) => { s with callbacks_run := s.callbacks_run ++ [(job_info, error, payload)] }

/-- The function `DriveScheduler::OnGetAppListJobDone`. -/
def OnGetAppListJobDone (u : Util) (rand : Int) (queue_entry : QueueEntry) (error : Int)
    (payload : Nat) (s : DriveScheduler) : DriveScheduler :=
  let drive_error := u.GDataToDriveFileError error
  match OnJobDone rand queue_entry drive_error s with
  | (s, none) => s
  | (s, some job_info) => { s with callbacks_run := s.callbacks_run ++ [(job_info, error, payload)] }

/-- The function `DriveScheduler::OnEntryActionJobDone`. -/
def OnEntryActionJobDone (u : Util) (rand : Int) (queue_entry : QueueEntry) (error : Int)
    (payload : Nat) (s : DriveScheduler) : DriveScheduler :=
  let drive_error := u.GDataToDriveFileError error
  match OnJobDone rand queue_entry drive_error s with
  | (s, none) => s
  | (s, some job_info) => { s with callbacks_run := s.callbacks_run ++ [(job_info, error, payload)] }

/-- The function `DriveScheduler::OnDownloadActionJobDone`. -/
def OnDownloadActionJobDone (u : Util) (rand : Int) (queue_entry : QueueEntry) (error : Int)
    (payload : Nat) (s : DriveScheduler) : DriveScheduler :=
  let drive_error := u.GDataToDriveFileError error
  match OnJobDone rand queue_entry drive_error s with
  | (s, none) => s
  | (s, some job_info) => { s with callbacks_run := s.callbacks_run ++ [(job_info, error, payload)] }

/-- The function `DriveScheduler::OnUploadCompletionJobDone`: the error is a
`DriveUploadError`, converted by `DriveUploadErrorToDriveFileError`. -/
def OnUploadCompletionJobDone (u : Util) (rand : Int) (queue_entry : QueueEntry) (error : Int)
    (payload : Nat) (s : DriveScheduler) : DriveScheduler :=
  let drive_error := u.DriveUploadErrorToDriveFileError error
  match OnJobDone rand queue_entry drive_error s with
  | (s, none) => s
  | (s, some job_info) => { s with callbacks_run := s.callbacks_run ++ [(job_info, error, payload)] }

/-- Runs the completion callback that `DoJobLoop` bound for an in-flight job. -/
def runHandler (u : Util) (rand : Int) (h : Handler) (queue_entry : QueueEntry) (error : Int)
    (payload : Nat) (s : DriveScheduler) : DriveScheduler :=
  match h with
  | .OnGetResourceListJobDone => OnGetResourceListJobDone u rand queue_entry error payload s
  | .OnGetResourceEntryJobDone => OnGetResourceEntryJobDone u rand queue_entry error payload s
  | .OnGetAboutResourceJobDone => OnGetAboutResourceJobDone u rand queue_entry error payload s
  | .OnGetAccountMetadataJobDone => OnGetAccountMetadataJobDone u rand queue_entry error payload s
  | .OnGetAppListJobDone => OnGetAppListJobDone u rand queue_entry error payload s
  | .OnEntryActionJobDone => OnEntryActionJobDone u rand queue_entry error payload s
  | .OnDownloadActionJobDone => OnDownloadActionJobDone u rand queue_entry error payload s
  | .OnUploadCompletionJobDone => OnUploadCompletionJobDone u rand queue_entry error payload s

/-- The function `DriveScheduler::OnConnectionTypeChanged`: when the network
is not offline, `StartJobLoop` for `METADATA_QUEUE` and then `FILE_QUEUE`. -/
def OnConnectionTypeChanged (env : Env) (s : DriveScheduler) : DriveScheduler :=
  if !env.IsOffline then
    StartJobLoop env .FILE_QUEUE (StartJobLoop env .METADATA_QUEUE s)
  else s

/-! ## Entry points -/

/-- The entry point `DriveScheduler::GetAccountMetadata`. -/
def GetAccountMetadata (env : Env) (params : Nat) (s : DriveScheduler) : DriveScheduler :=
  let new_job := { QueueEntry.new .TYPE_GET_ACCOUNT_METADATA with params := params }
  StartJobLoop env (GetJobQueueType .TYPE_GET_ACCOUNT_METADATA) (QueueJob new_job s)

/-- The entry point `DriveScheduler::GetAboutResource`. -/
def GetAboutResource (env : Env) (params : Nat) (s : DriveScheduler) : DriveScheduler :=
  let new_job := { QueueEntry.new .TYPE_GET_ABOUT_RESOURCE with params := params }
  StartJobLoop env (GetJobQueueType .TYPE_GET_ABOUT_RESOURCE) (QueueJob new_job s)

/-- The entry point `DriveScheduler::GetAppList`. -/
def GetAppList (env : Env) (params : Nat) (s : DriveScheduler) : DriveScheduler :=
  let new_job := { QueueEntry.new .TYPE_GET_APP_LIST with params := params }
  StartJobLoop env (GetJobQueueType .TYPE_GET_APP_LIST) (QueueJob new_job s)

/-- The entry point `DriveScheduler::GetAllResourceList`. -/
def GetAllResourceList (env : Env) (params : Nat) (s : DriveScheduler) : DriveScheduler :=
  let new_job := { QueueEntry.new .TYPE_GET_ALL_RESOURCE_LIST with params := params }
  StartJobLoop env (GetJobQueueType .TYPE_GET_ALL_RESOURCE_LIST) (QueueJob new_job s)

/-- The entry point `DriveScheduler::GetResourceListInDirectory`. -/
def GetResourceListInDirectory (env : Env) (params : Nat) (s : DriveScheduler) :
    DriveScheduler :=
  let new_job := { QueueEntry.new .TYPE_GET_RESOURCE_LIST_IN_DIRECTORY with params := params }
  StartJobLoop env (GetJobQueueType .TYPE_GET_RESOURCE_LIST_IN_DIRECTORY) (QueueJob new_job s)

/-- The entry point `DriveScheduler::Search`. -/
def Search (env : Env) (params : Nat) (s : DriveScheduler) : DriveScheduler :=
  let new_job := { QueueEntry.new .TYPE_SEARCH with params := params }
  StartJobLoop env (GetJobQueueType .TYPE_SEARCH) (QueueJob new_job s)

/-- The entry point `DriveScheduler::GetChangeList`. -/
def GetChangeList (env : Env) (params : Nat) (s : DriveScheduler) : DriveScheduler :=
  let new_job := { QueueEntry.new .TYPE_GET_CHANGE_LIST with params := params }
  StartJobLoop env (GetJobQueueType .TYPE_GET_CHANGE_LIST) (QueueJob new_job s)

/-- The entry point `DriveScheduler::ContinueGetResourceList`. -/
def ContinueGetResourceList (env : Env) (params : Nat) (s : DriveScheduler) : DriveScheduler :=
  let new_job := { QueueEntry.new .TYPE_CONTINUE_GET_RESOURCE_LIST with params := params }
  StartJobLoop env (GetJobQueueType .TYPE_CONTINUE_GET_RESOURCE_LIST) (QueueJob new_job s)

/-- The entry point `DriveScheduler::GetResourceEntry`: stores the caller's
context. -/
def GetResourceEntry (env : Env) (params : Nat) (context : DriveClientContext)
    (s : DriveScheduler) : DriveScheduler :=
  let new_job :=
    { QueueEntry.new .TYPE_GET_RESOURCE_ENTRY with params := params, context := context }
  StartJobLoop env (GetJobQueueType .TYPE_GET_RESOURCE_ENTRY) (QueueJob new_job s)

/-- The entry point `DriveScheduler::DeleteResource`. -/
def DeleteResource (env : Env) (params : Nat) (s : DriveScheduler) : DriveScheduler :=
  let new_job := { QueueEntry.new .TYPE_DELETE_RESOURCE with params := params }
  StartJobLoop env (GetJobQueueType .TYPE_DELETE_RESOURCE) (QueueJob new_job s)

/-- The entry point `DriveScheduler::CopyHostedDocument`. -/
def CopyHostedDocument (env : Env) (params : Nat) (s : DriveScheduler) : DriveScheduler :=
  let new_job := { QueueEntry.new .TYPE_COPY_HOSTED_DOCUMENT with params := params }
  StartJobLoop env (GetJobQueueType .TYPE_COPY_HOSTED_DOCUMENT) (QueueJob new_job s)

/-- The entry point `DriveScheduler::RenameResource`. -/
def RenameResource (env : Env) (params : Nat) (s : DriveScheduler) : DriveScheduler :=
  let new_job := { QueueEntry.new .TYPE_RENAME_RESOURCE with params := params }
  StartJobLoop env (GetJobQueueType .TYPE_RENAME_RESOURCE) (QueueJob new_job s)

/-- The entry point `DriveScheduler::AddResourceToDirectory`. -/
def AddResourceToDirectory (env : Env) (params : Nat) (s : DriveScheduler) : DriveScheduler :=
  let new_job := { QueueEntry.new .TYPE_ADD_RESOURCE_TO_DIRECTORY with params := params }
  StartJobLoop env (GetJobQueueType .TYPE_ADD_RESOURCE_TO_DIRECTORY) (QueueJob new_job s)

/-- The entry point `DriveScheduler::RemoveResourceFromDirectory`. -/
def RemoveResourceFromDirectory (env : Env) (params : Nat) (s : DriveScheduler) :
    DriveScheduler :=
  let new_job := { QueueEntry.new .TYPE_REMOVE_RESOURCE_FROM_DIRECTORY with params := params }
  StartJobLoop env (GetJobQueueType .TYPE_REMOVE_RESOURCE_FROM_DIRECTORY) (QueueJob new_job s)

/-- The entry point `DriveScheduler::AddNewDirectory`. -/
def AddNewDirectory (env : Env) (params : Nat) (s : DriveScheduler) : DriveScheduler :=
  let new_job := { QueueEntry.new .TYPE_ADD_NEW_DIRECTORY with params := params }
  StartJobLoop env (GetJobQueueType .TYPE_ADD_NEW_DIRECTORY) (QueueJob new_job s)

/-- The entry point `DriveScheduler::DownloadFile`: stores the caller's context. -/
def DownloadFile (env : Env) (params : Nat) (context : DriveClientContext)
    (s : DriveScheduler) : DriveScheduler :=
  let new_job := { QueueEntry.new .TYPE_DOWNLOAD_FILE with params := params, context := context }
  StartJobLoop env (GetJobQueueType .TYPE_DOWNLOAD_FILE) (QueueJob new_job s)

/-- The entry point `DriveScheduler::UploadNewFile`: stores the caller's context. -/
def UploadNewFile (env : Env) (params : Nat) (context : DriveClientContext)
    (s : DriveScheduler) : DriveScheduler :=
  let new_job := { QueueEntry.new .TYPE_UPLOAD_NEW_FILE with params := params, context := context }
  StartJobLoop env (GetJobQueueType .TYPE_UPLOAD_NEW_FILE) (QueueJob new_job s)

/-- The entry point `DriveScheduler::UploadExistingFile`: stores the caller's
context. -/
def UploadExistingFile (env : Env) (params : Nat) (context : DriveClientContext)
    (s : DriveScheduler) : DriveScheduler :=
  let new_job :=
    { QueueEntry.new .TYPE_UPLOAD_EXISTING_FILE with params := params, context := context }
  StartJobLoop env (GetJobQueueType .TYPE_UPLOAD_EXISTING_FILE) (QueueJob new_job s)

/-! ## Event sequences -/

/-- What can happen to a scheduler on its thread.

* `Submit t c p`: the entry point for job type `t` is called with parameters
  `p` and, for the four entry points that take one, context `c`;
* `ConnectionTypeChanged`: the network observer notification;
* `Completion i error payload rand`: the external call `in_flight[i]` reports
  `error` and `payload` to its bound handler (`rand` is what `RandInt` returns
  should the handler ask);
* `RunTask i`: the message loop runs the posted task `tasks[i]`. -/
inductive Event
  | Submit (job_type : JobType) (context : DriveClientContext) (params : Nat)
  | ConnectionTypeChanged
  | Completion (i : Nat) (error : Int) (payload : Nat) (rand : Int)
  | RunTask (i : Nat)

/-- Calls the entry point that creates jobs of type `job_type`. -/
def callEntryPoint (env : Env) (job_type : JobType) (context : DriveClientContext)
    (params : Nat) (s : DriveScheduler) : DriveScheduler :=
  match job_type with
  | .TYPE_GET_ABOUT_RESOURCE => GetAboutResource env params s
  | .TYPE_GET_ACCOUNT_METADATA => GetAccountMetadata env params s
  | .TYPE_GET_APP_LIST => GetAppList env params s
  | .TYPE_GET_ALL_RESOURCE_LIST => GetAllResourceList env params s
  | .TYPE_GET_RESOURCE_LIST_IN_DIRECTORY => GetResourceListInDirectory env params s
  | .TYPE_SEARCH => Search env params s
  | .TYPE_GET_CHANGE_LIST => GetChangeList env params s
  | .TYPE_CONTINUE_GET_RESOURCE_LIST => ContinueGetResourceList env params s
  | .TYPE_GET_RESOURCE_ENTRY => GetResourceEntry env params context s
  | .TYPE_DELETE_RESOURCE => DeleteResource env params s
  | .TYPE_COPY_HOSTED_DOCUMENT => CopyHostedDocument env params s
  | .TYPE_RENAME_RESOURCE => RenameResource env params s
  | .TYPE_ADD_RESOURCE_TO_DIRECTORY => AddResourceToDirectory env params s
  | .TYPE_REMOVE_RESOURCE_FROM_DIRECTORY => RemoveResourceFromDirectory env params s
  | .TYPE_ADD_NEW_DIRECTORY => AddNewDirectory env params s
  | .TYPE_DOWNLOAD_FILE => DownloadFile env params context s
  | .TYPE_UPLOAD_NEW_FILE => UploadNewFile env params context s
  | .TYPE_UPLOAD_EXISTING_FILE => UploadExistingFile env params context s

/-- Runs the message-loop task `t`. A caller's callback is recorded as run. -/
def runTask (env : Env) (t : Task) (s : DriveScheduler) : DriveScheduler :=
  match t with
  | .DoJobLoop queue_type _ => DoJobLoop env queue_type s
  | .RunCallback entry error payload =>
    { s with callbacks_run := s.callbacks_run ++ [(entry, error, payload)] }

/-- One event, observed under the environment `env`. A completion or task
index that names nothing is ignored. -/
def step (u : Util) (env : Env) (ev : Event) (s : DriveScheduler) : DriveScheduler :=
  match ev with
  | .Submit job_type context params => callEntryPoint env job_type context params s
  | .ConnectionTypeChanged => OnConnectionTypeChanged env s
  | .Completion i error payload rand =>
    match s.in_flight.get? i with
    | none => s
    | some (h, queue_entry) =>
      runHandler u rand h queue_entry error payload { s with in_flight := s.in_flight.eraseIdx i }
  | .RunTask i =>
    match s.tasks.get? i with
    | none => s
    | some t => runTask env t { s with tasks := s.tasks.eraseIdx i }

/-- Runs a sequence of events, each with the environment observed during it. -/
def run (u : Util) : List (Env × Event) → DriveScheduler → DriveScheduler
  | [], s => s
  | (env, ev) :: rest, s => run u rest (step u env ev s)

/-- States reachable from the freshly constructed scheduler. -/
def Reachable (u : Util) (s : DriveScheduler) : Prop :=
  ∃ evs : List (Env × Event), run u evs DriveScheduler.new = s

/-! ## Vocabulary of the properties -/

/-- Priority class of an entry as a number: a lower number runs first. -/
def QueueEntry.priority (e : QueueEntry) : Nat := e.context.type.value

/-- A queue is sorted when the priority number never decreases from the front
to the back. -/
def QueueSorted (l : List QueueEntry) : Prop :=
  l.Pairwise (fun a b => a.priority ≤ b.priority)

instance (l : List QueueEntry) : Decidable (QueueSorted l) := by
  unfold QueueSorted; infer_instance

/-- The entry points that take a `DriveClientContext` argument. -/
def takesContext : JobType → Bool
  | .TYPE_GET_RESOURCE_ENTRY => true
  | .TYPE_DOWNLOAD_FILE => true
  | .TYPE_UPLOAD_NEW_FILE => true
  | .TYPE_UPLOAD_EXISTING_FILE => true
  | _ => false

/-- The entry that the entry point for `job_type` builds before it calls
`QueueJob`. -/
def createdEntry (job_type : JobType) (context : DriveClientContext) (params : Nat) :
    QueueEntry :=
  { QueueEntry.new job_type with
    params := params,
    context := if takesContext job_type then context else { type := .USER_INITIATED } }

/-- An entry as `DoJobLoop` hands it to the external call: state `STATE_RUNNING`. -/
def QueueEntry.running (e : QueueEntry) : QueueEntry :=
  { e with job_info := { e.job_info with state := .STATE_RUNNING } }

/-- A run of `DoJobLoop(queue_type)` invocations, one per observed environment. -/
def doJobLoops (queue_type : QueueType) : List Env → DriveScheduler → DriveScheduler
  | [], s => s
  | env :: rest, s => doJobLoops queue_type rest (DoJobLoop env queue_type s)

/-- Every queue is sorted and holds only jobs whose type maps to it. -/
def QueuesWellFormed (qs : QueueArray (List QueueEntry)) : Prop :=
  ∀ q, QueueSorted (qs.get q) ∧ ∀ e ∈ qs.get q, GetJobQueueType e.job_info.job_type = q

/-- The queues of a scheduler state are well formed. -/
def WellFormed (s : DriveScheduler) : Prop := QueuesWellFormed s.queue_

/-- The queues and the dispatch history of a scheduler state. -/
def view (s : DriveScheduler) : QueueArray (List QueueEntry) × List QueueEntry :=
  (s.queue_, s.dispatched)

/-- The queues after `QueueJob(job)`. -/
def pushQueue (job : QueueEntry) (qs : QueueArray (List QueueEntry)) :
    QueueArray (List QueueEntry) :=
  qs.set (GetJobQueueType job.job_info.job_type)
    (list_sort QueueEntry.Compare (qs.get (GetJobQueueType job.job_info.job_type) ++ [job]))

/-- Sequences of the two elementary moves on queues and dispatch history:
`push` is the effect of `QueueJob`, `pop` is the dispatch of the head of a
queue by `DoJobLoop`. -/
inductive Moves :
    QueueArray (List QueueEntry) × List QueueEntry →
    QueueArray (List QueueEntry) × List QueueEntry → Prop
  | refl (v) : Moves v v
  | push (job : QueueEntry) {qs d w} : Moves (pushQueue job qs, d) w → Moves (qs, d) w
  | pop (q : QueueType) (front : QueueEntry) (rest : List QueueEntry) {qs d w} :
      qs.get q = front :: rest → Moves (qs.set q rest, d ++ [front.running]) w → Moves (qs, d) w

/-- The `DriveFileError` that the handler `h` computes from the reported code. -/
def convertedError (u : Util) (h : Handler) (error : Int) : DriveFileError :=
  match h with
  | .OnUploadCompletionJobDone => u.DriveUploadErrorToDriveFileError error
  | _ => u.GDataToDriveFileError error

/-- Whether the handler posts the caller's callback as a task (the two
resource handlers) instead of running it directly. -/
def postsCallback : Handler → Bool
  | .OnGetResourceListJobDone => true
  | .OnGetResourceEntryJobDone => true
  | _ => false

/-- Hands the result to the caller's callback, the way handler `h` does. -/
def deliver (h : Handler) (job_info : QueueEntry) (error : Int) (payload : Nat)
    (s : DriveScheduler) : DriveScheduler :=
  if postsCallback h then { s with tasks := s.tasks ++ [Task.RunCallback job_info error payload] }
  else { s with callbacks_run := s.callbacks_run ++ [(job_info, error, payload)] }

/-- The claim's wording of `QueueJob` on one queue: the new job goes behind
every queued job of the same or a more urgent priority class and ahead of
every job of a less urgent class. -/
def insertBehindBand (job : QueueEntry) (q : List QueueEntry) : List QueueEntry :=
  q.filter (fun e => decide (e.priority ≤ job.priority)) ++ job ::
    q.filter (fun e => decide (job.priority < e.priority))

/-- The invariant behind "B is dispatched before A". Relative to the dispatch
history `base`: either `B` still waits in queue `q` of well-formed queues and
no `A` has been dispatched since, or `B` has been dispatched since and no `A`
was dispatched before it. -/
def BeforeInv (A B : QueueEntry) (q : QueueType) (base : List QueueEntry)
    (v : QueueArray (List QueueEntry) × List QueueEntry) : Prop :=
  ∃ L, v.2 = base ++ L ∧
    ((B ∈ v.1.get q ∧ QueuesWellFormed v.1 ∧ A.running ∉ L) ∨
     (∃ L0 L1, L = L0 ++ B.running :: L1 ∧ A.running ∉ L0))

/-- Modelled from the spec: the random source `base::RandInt(min, max)`
(`base/rand_util` is not among the sources). The spec speaks of a "uniformly
random jitter" and names no helper; the helper's contract is a random integer
in the range `[min, max]` with both bounds included, and the one call is
`RandInt(0, 1000)`. `RandInt_returns min max r` says that `r` is a value the
call `RandInt(min, max)` can return. -/
def RandInt_returns (min max r : Int) : Prop := min ≤ r ∧ r ≤ max

/-- What event `ev` means for the throttle counter in state `s`: `some true`
for the completion of a job in flight whose converted error is
`DRIVE_FILE_ERROR_THROTTLED`, `some false` for the completion of a job in
flight with any other converted error, `none` for every other event (a
completion index that names no job in flight included). -/
def completionKind (u : Util) (s : DriveScheduler) : Event → Option Bool
  | .Completion i error _ _ =>
    match s.in_flight.get? i with
    | none => none
    | some (h, _) => some (decide (convertedError u h error = .DRIVE_FILE_ERROR_THROTTLED))
  | _ => none

/-- The number of throttled completions in a sequence of events run from `s`. -/
def throttledCompletions (u : Util) : List (Env × Event) → DriveScheduler → Nat
  | [], _ => 0
  | (env, ev) :: rest, s =>
    (if completionKind u s ev = some true then 1 else 0) +
      throttledCompletions u rest (step u env ev s)

/-- No job completes with a result other than the throttled error in a
sequence of events run from `s`. -/
def noOtherCompletion (u : Util) : List (Env × Event) → DriveScheduler → Prop
  | [], _ => True
  | (env, ev) :: rest, s =>
    completionKind u s ev ≠ some false ∧ noOtherCompletion u rest (step u env ev s)

/-- The jitter-free backoff delay, in seconds, of the `n`-th consecutive
throttled completion as the claim gives it: `2^(min(n,5) - 1)`. -/
def backoffSeconds (n : Nat) : Nat := 2 ^ (min n 5 - 1)

/-- The counter after `ThrottleAndContinueJobLoop`: one more, up to
`kMaxThrottleCount`. -/
def bump (c : Int) : Int := if c < kMaxThrottleCount then c + 1 else c

/-- The delay, in milliseconds, that `ThrottleAndContinueJobLoop` computes
from the counter it has just incremented. -/
def throttleDelay (disable_throttling : Bool) (count rand : Int) : Int :=
  if disable_throttling then 0 else 1000 * FromSeconds_pow2 (count - 1) + rand

/-- The callback members of `QueueEntry`. -/
inductive CallbackField
  | get_resource_list_callback
  | get_resource_entry_callback
  | get_about_resource_callback
  | get_account_metadata_callback
  | get_app_list_callback
  | entry_action_callback
  | download_action_callback
  | upload_completion_callback
  deriving DecidableEq

/-- The member in which the entry point for each job type stores the caller's
completion callback. -/
def storedCallback : JobType → CallbackField
  | .TYPE_GET_ABOUT_RESOURCE => .get_about_resource_callback
  | .TYPE_GET_ACCOUNT_METADATA => .get_account_metadata_callback
  | .TYPE_GET_APP_LIST => .get_app_list_callback
  | .TYPE_GET_ALL_RESOURCE_LIST => .get_resource_list_callback
  | .TYPE_GET_RESOURCE_LIST_IN_DIRECTORY => .get_resource_list_callback
  | .TYPE_SEARCH => .get_resource_list_callback
  | .TYPE_GET_CHANGE_LIST => .get_resource_list_callback
  | .TYPE_CONTINUE_GET_RESOURCE_LIST => .get_resource_list_callback
  | .TYPE_GET_RESOURCE_ENTRY => .get_resource_entry_callback
  | .TYPE_DELETE_RESOURCE => .entry_action_callback
  | .TYPE_COPY_HOSTED_DOCUMENT => .get_resource_entry_callback
  | .TYPE_RENAME_RESOURCE => .entry_action_callback
  | .TYPE_ADD_RESOURCE_TO_DIRECTORY => .entry_action_callback
  | .TYPE_REMOVE_RESOURCE_FROM_DIRECTORY => .entry_action_callback
  | .TYPE_ADD_NEW_DIRECTORY => .get_resource_entry_callback
  | .TYPE_DOWNLOAD_FILE => .download_action_callback
  | .TYPE_UPLOAD_NEW_FILE => .upload_completion_callback
  | .TYPE_UPLOAD_EXISTING_FILE => .upload_completion_callback

/-- The member of the returned entry that each completion handler runs (or
posts). -/
def invokedCallback : Handler → CallbackField
  | .OnGetResourceListJobDone => .get_resource_list_callback
  | .OnGetResourceEntryJobDone => .get_resource_entry_callback
  | .OnGetAboutResourceJobDone => .get_about_resource_callback
  | .OnGetAccountMetadataJobDone => .get_account_metadata_callback
  | .OnGetAppListJobDone => .get_app_list_callback
  | .OnEntryActionJobDone => .entry_action_callback
  | .OnDownloadActionJobDone => .download_action_callback
  | .OnUploadCompletionJobDone => .upload_completion_callback

/-- Every call in flight carries the handler that `DoJobLoop` binds for the
type of its job. -/
def InFlightBound (l : List (Handler × QueueEntry)) : Prop :=
  ∀ p ∈ l, p.1 = boundHandler p.2.job_info.job_type


/-- A direct invocation of the job loop or of the connection observer. -/
inductive LoopCall
  | StartJobLoop (queue_type : QueueType)
  | DoJobLoop (queue_type : QueueType)
  | OnConnectionTypeChanged
  deriving DecidableEq

/-- Performs one invocation under the observed environment. -/
def LoopCall.apply (env : Env) : LoopCall → DriveScheduler → DriveScheduler
  | .StartJobLoop q, s => drive.StartJobLoop env q s
  | .DoJobLoop q, s => drive.DoJobLoop env q s
  | .OnConnectionTypeChanged, s => drive.OnConnectionTypeChanged env s

/-- Performs a sequence of invocations, each under its own environment. -/
def applyLoopCalls : List (Env × LoopCall) → DriveScheduler → DriveScheduler
  | [], s => s
  | (env, c) :: rest, s => applyLoopCalls rest (c.apply env s)

/-- All eighteen job types. -/
def allJobTypes : List JobType :=
  [ .TYPE_GET_ABOUT_RESOURCE, .TYPE_GET_ACCOUNT_METADATA, .TYPE_GET_APP_LIST,
    .TYPE_GET_ALL_RESOURCE_LIST, .TYPE_GET_RESOURCE_LIST_IN_DIRECTORY, .TYPE_SEARCH,
    .TYPE_GET_CHANGE_LIST, .TYPE_CONTINUE_GET_RESOURCE_LIST, .TYPE_GET_RESOURCE_ENTRY,
    .TYPE_DELETE_RESOURCE, .TYPE_COPY_HOSTED_DOCUMENT, .TYPE_RENAME_RESOURCE,
    .TYPE_ADD_RESOURCE_TO_DIRECTORY, .TYPE_REMOVE_RESOURCE_FROM_DIRECTORY,
    .TYPE_ADD_NEW_DIRECTORY, .TYPE_DOWNLOAD_FILE, .TYPE_UPLOAD_NEW_FILE,
    .TYPE_UPLOAD_EXISTING_FILE ]

/-- An entry as `OnJobDone` puts it back for a retry: state `STATE_RETRY`. -/
def QueueEntry.retry (e : QueueEntry) : QueueEntry :=
  { e with job_info := { e.job_info with state := .STATE_RETRY } }


/-! ### Timed runs -/

/-- The delay, in milliseconds, a task was posted with. -/
def Task.delay : Task → Int
  | .DoJobLoop _ d => d
  | .RunCallback _ _ _ => 0

/-- Modelled from the spec: the clock of the message loop (`PostTask`,
`PostDelayedTask` and the loop itself are outside the sources; the spec calls
the delay of the throttled branch "a timed future activation, not a blocking
sleep"). `now` is the time in milliseconds. `due` gives, position by position,
the earliest time at which each task of `sched.tasks` may run: the time it was
posted plus its delay. `started` gives, position by position, the time at
which each call of `sched.dispatched` was issued. -/
structure Timed where
  sched : DriveScheduler
  now : Int
  due : List Int
  started : List Int
  deriving DecidableEq

/-- A freshly constructed scheduler at time 0. -/
def Timed.new : Timed :=
  { sched := DriveScheduler.new, now := 0, due := [], started := [] }

/-- Stamps what an event did at time `t`: the tasks it posted become due at
`t` plus their delay, the calls it issued are started at `t`. `kept` are the
due times of the tasks that were there before and still are. -/
def Timed.record (ts : Timed) (t : Int) (kept : List Int) (s : DriveScheduler) : Timed :=
  { sched := s,
    now := t,
    due := kept ++ (s.tasks.drop kept.length).map (fun k => t + k.delay),
    started := ts.started ++ (s.dispatched.drop ts.started.length).map (fun _ => t) }

/-- Modelled from the spec: one event at time `t` on the message loop, which
is outside the sources. Time does not run backwards (an event stamped before
`now` is ignored), and the loop runs no task before it is due; what the event
does to the scheduler is `step`. -/
def timedStep (u : Util) (t : Int) (env : Env) (ev : Event) (ts : Timed) : Timed :=
  if t < ts.now then ts
  else
    match ev with
    | .RunTask i =>
      match ts.due.get? i with
      | none => { ts with now := t }
      | some d =>
        if t < d then { ts with now := t }
        else ts.record t (ts.due.eraseIdx i) (step u env (.RunTask i) ts.sched)
    | ev => ts.record t ts.due (step u env ev ts.sched)

/-- Runs a sequence of timed events. -/
def runTimed (u : Util) : List (Int × Env × Event) → Timed → Timed
  | [], ts => ts
  | (t, env, ev) :: rest, ts => runTimed u rest (timedStep u t env ev ts)

/-- The events that can start a job: a submission, a connection-change
notification, or the run of a posted `DoJobLoop` task. -/
def isLoopTrigger (s : DriveScheduler) : Event → Bool
  | .Submit _ _ _ => true
  | .ConnectionTypeChanged => true
  | .RunTask i =>
    match s.tasks.get? i with
    | some (.DoJobLoop _ _) => true
    | _ => false
  | .Completion _ _ _ _ => false

/-- The bookkeeping of a timed state is in step with the scheduler: one due
time per posted task, one start time per issued call. -/
def Timed.wf (ts : Timed) : Prop :=
  ts.due.length = ts.sched.tasks.length ∧ ts.started.length = ts.sched.dispatched.length

instance (ts : Timed) : Decidable ts.wf :=
  inferInstanceAs (Decidable (_ ∧ _))

/-- The number of calls in flight (issued, completion not yet delivered)
whose job belongs to queue `q`. -/
def inFlightCount (q : QueueType) (l : List (Handler × QueueEntry)) : Nat :=
  (l.filter (fun p => decide (GetJobQueueType p.2.job_info.job_type = q))).length

/-- Each running count is the number of calls in flight of its queue. -/
def RunningCountInv (s : DriveScheduler) : Prop :=
  ∀ q, s.jobs_running_.get q = (inFlightCount q s.in_flight : Int)

/-! ### Life of the scheduler object -/

/-- The function `DriveScheduler::Initialize`. The registration as a
connection-type observer is what makes `OnConnectionTypeChanged` events
arrive; it is not recorded in the state. -/
def Initialize (s : DriveScheduler) : DriveScheduler :=
  if s.initialized_ then s else { s with initialized_ := true }

/-- The destructor `DriveScheduler::~DriveScheduler`: `STLDeleteElements`
deletes the entries of both queues, with the callbacks they hold, and leaves
the queues empty. Nothing is run or posted. -/
def DriveScheduler.destructor (s : DriveScheduler) : DriveScheduler :=
  { s with queue_ := { metadata := [], file := [] } }

/-- Modelled from the spec: the scheduler object with the validity of the weak
pointers that `weak_ptr_factory_` has handed out (`base::WeakPtrFactory` and
`base::Bind` are outside the sources). Every completion handler and every
posted `DoJobLoop` is bound to such a weak pointer; the spec asks for "an
explicit liveness token (weak reference / generation counter) captured at
dispatch time and checked before any state mutation in `onCompletion`". After
destruction `sched` is what is left of the members. -/
structure Lifetime where
  sched : DriveScheduler
  weak_ptrs_valid : Bool
  deriving DecidableEq

/-- Destroys the object: the body of the destructor runs, then the member
`weak_ptr_factory_` is destroyed, which invalidates the weak pointers. -/
def Lifetime.destroy (l : Lifetime) : Lifetime :=
  { sched := l.sched.destructor, weak_ptrs_valid := false }

/-- Modelled from the spec: one event in the life of the object. While the
object lives the event is `step`. After destruction a callback bound to a weak
pointer does nothing when it fires: a completion only ends the external call,
a `DoJobLoop` task only leaves the message loop. A caller's callback that a
handler had already posted is bound to no weak pointer and still runs. Entry
points and the observer notification cannot be called on a destroyed object. -/
def Lifetime.step (u : Util) (env : Env) (ev : Event) (l : Lifetime) : Lifetime :=
  if l.weak_ptrs_valid then { l with sched := drive.step u env ev l.sched }
  else
    match ev with
    | .Completion i _ _ _ =>
      { l with sched := { l.sched with in_flight := l.sched.in_flight.eraseIdx i } }
    | .RunTask i =>
      match l.sched.tasks.get? i with
      | none => l
      | some (.DoJobLoop _ _) =>
        { l with sched := { l.sched with tasks := l.sched.tasks.eraseIdx i } }
      | some (.RunCallback entry error payload) =>
        { l with sched := { l.sched with
            tasks := l.sched.tasks.eraseIdx i,
            callbacks_run := l.sched.callbacks_run ++ [(entry, error, payload)] } }
    | .Submit _ _ _ => l
    | .ConnectionTypeChanged => l

/-- Runs a sequence of events in the life of the object. -/
def Lifetime.run (u : Util) : List (Env × Event) → Lifetime → Lifetime
  | [], l => l
  | (env, ev) :: rest, l => Lifetime.run u rest (Lifetime.step u env ev l)

/-- An entry carries a priority class other than `USER_INITIATED` only if its
job type is one of the four whose entry point takes a context. -/
def ContextFromEntryPoint (e : QueueEntry) : Prop :=
  e.context.type ≠ .USER_INITIATED → takesContext e.job_info.job_type = true

/-- Every entry the scheduler holds or has handed out satisfies
`ContextFromEntryPoint`. -/
def ContextInv (s : DriveScheduler) : Prop :=
  (∀ q, ∀ e ∈ s.queue_.get q, ContextFromEntryPoint e) ∧
  (∀ p ∈ s.in_flight, ContextFromEntryPoint p.2) ∧
  (∀ e ∈ s.dispatched, ContextFromEntryPoint e)

/-! ## Sample values -/

/-- Feature enabled, network online and not cellular. -/
def envOnline : Env :=
  { kDisableDrive := false, IsOffline := false, kDisableDriveOverCellular := false,
    IsConnectionCellular := false }

/-- Feature enabled, network offline. -/
def envOffline : Env :=
  { kDisableDrive := false, IsOffline := true, kDisableDriveOverCellular := false,
    IsConnectionCellular := false }

/-- Feature enabled, online over a cellular connection, with the
disable-over-cellular preference set. -/
def envCellular : Env :=
  { kDisableDrive := false, IsOffline := false, kDisableDriveOverCellular := true,
    IsConnectionCellular := true }

/-- A sample error conversion: code 503 is the throttled error, every other
code is kept as it is. -/
def sampleUtil : Util :=
  { GDataToDriveFileError := fun e => if e = 503 then .DRIVE_FILE_ERROR_THROTTLED else .other e,
    DriveUploadErrorToDriveFileError :=
      fun e => if e = 503 then .DRIVE_FILE_ERROR_THROTTLED else .other e }

/-- The context `DriveClientContext(USER_INITIATED)`. -/
def ctxUser : DriveClientContext := { type := .USER_INITIATED }

/-- The context `DriveClientContext(BACKGROUND)`. -/
def ctxBackground : DriveClientContext := { type := .BACKGROUND }

/-- Five events on the file queue: a download is started and completes, two
more are submitted before the `DoJobLoop` task posted by the completion runs,
then that task runs. -/
def fileCapTrace : List (Env × Event) :=
  [ (envOnline, .Submit .TYPE_DOWNLOAD_FILE ctxUser 1),
    (envOnline, .Completion 0 200 0 0),
    (envOnline, .Submit .TYPE_DOWNLOAD_FILE ctxUser 2),
    (envOnline, .Submit .TYPE_DOWNLOAD_FILE ctxUser 3),
    (envOnline, .RunTask 0) ]

/-- The same pattern on the metadata queue: five searches are started, one
completes, two more are submitted, then the posted `DoJobLoop` task runs. -/
def metadataCapTrace : List (Env × Event) :=
  [ (envOnline, .Submit .TYPE_SEARCH ctxUser 1),
    (envOnline, .Submit .TYPE_SEARCH ctxUser 2),
    (envOnline, .Submit .TYPE_SEARCH ctxUser 3),
    (envOnline, .Submit .TYPE_SEARCH ctxUser 4),
    (envOnline, .Submit .TYPE_SEARCH ctxUser 5),
    (envOnline, .Completion 0 200 0 0),
    (envOnline, .Submit .TYPE_SEARCH ctxUser 6),
    (envOnline, .Submit .TYPE_SEARCH ctxUser 7),
    (envOnline, .RunTask 0) ]

/-- A download submitted while offline, then a second one: both are queued. -/
def twoQueuedTrace : List (Env × Event) :=
  [ (envOffline, .Submit .TYPE_DOWNLOAD_FILE ctxBackground 1),
    (envOffline, .Submit .TYPE_DOWNLOAD_FILE ctxUser 2) ]

/-- A fresh scheduler whose file queue holds `l`. -/
def withFileQueue (l : List QueueEntry) : DriveScheduler :=
  { DriveScheduler.new with queue_ := { metadata := [], file := l } }

/-- Three queued downloads, one of each priority class. -/
def threeQueued : List QueueEntry :=
  [ createdEntry .TYPE_DOWNLOAD_FILE ctxUser 1,
    createdEntry .TYPE_DOWNLOAD_FILE ctxBackground 2,
    createdEntry .TYPE_DOWNLOAD_FILE { type := .PREFETCH } 3 ]

/-- A reachable state with one `BACKGROUND` download waiting: it was submitted
while the network was offline. -/
def backgroundQueued : DriveScheduler :=
  run sampleUtil [(envOffline, .Submit .TYPE_DOWNLOAD_FILE ctxBackground 1)] DriveScheduler.new

/-- A download submitted to a fresh scheduler while the network is offline. -/
def offlineSubmitted : DriveScheduler :=
  callEntryPoint envOffline .TYPE_DOWNLOAD_FILE ctxUser 1 DriveScheduler.new

/-- A second download of the same priority class, submitted after the network
came back. -/
def thenOnlineSubmitted : DriveScheduler :=
  callEntryPoint envOnline .TYPE_DOWNLOAD_FILE ctxUser 2 offlineSubmitted

/-- A fresh scheduler on which `disable_throttling_` has been set. -/
def throttlingDisabled : DriveScheduler :=
  SetDisableThrottling true DriveScheduler.new

/-- A download is started and its call reports the throttled error (503),
with jitter 0. -/
def oneThrottledTrace : List (Env × Event) :=
  [ (envOnline, .Submit .TYPE_DOWNLOAD_FILE ctxUser 1),
    (envOnline, .Completion 0 503 0 0) ]

/-- A download is started and succeeds; a second one is started. -/
def oneSuccessTrace : List (Env × Event) :=
  [ (envOnline, .Submit .TYPE_DOWNLOAD_FILE ctxUser 1),
    (envOnline, .Completion 0 200 0 0),
    (envOnline, .Submit .TYPE_DOWNLOAD_FILE ctxUser 2) ]

/-- A download is started, throttled once and started again by the delayed
`DoJobLoop` task: it is in flight and the counter stands at 1. -/
def retriedDownload : DriveScheduler :=
  run sampleUtil
    [ (envOnline, .Submit .TYPE_DOWNLOAD_FILE ctxUser 1),
      (envOnline, .Completion 0 503 0 0),
      (envOnline, .RunTask 0) ]
    DriveScheduler.new

/-- A `GetResourceEntry` job is started, throttled once and started again by
the delayed `DoJobLoop` task: it is in flight and the counter stands at 1. -/
def retriedGetResourceEntry : DriveScheduler :=
  run sampleUtil
    [ (envOnline, .Submit .TYPE_GET_RESOURCE_ENTRY ctxUser 1),
      (envOnline, .Completion 0 503 0 0),
      (envOnline, .RunTask 0) ]
    DriveScheduler.new

/-- A `GetResourceEntry` job has been started on a fresh scheduler. -/
def getResourceEntryInFlight : DriveScheduler :=
  run sampleUtil [(envOnline, .Submit .TYPE_GET_RESOURCE_ENTRY ctxUser 1)] DriveScheduler.new

/-- A download has been started on a fresh scheduler. -/
def downloadInFlight : DriveScheduler :=
  run sampleUtil [(envOnline, .Submit .TYPE_DOWNLOAD_FILE ctxUser 1)] DriveScheduler.new


/-- One download submitted and started at time 0. -/
def throttledAt0 : Timed :=
  runTimed sampleUtil [(0, envOnline, .Submit .TYPE_DOWNLOAD_FILE ctxUser 1)] Timed.new

/-- A download is started at time 0 and throttled at time 10 (jitter 0, so
the `DoJobLoop` task is due at 1010); a second download is submitted at time
11. -/
def throttledThenSubmit : List (Int × Env × Event) :=
  [ (0, envOnline, .Submit .TYPE_DOWNLOAD_FILE ctxUser 1),
    (10, envOnline, .Completion 0 503 0 0),
    (11, envOnline, .Submit .TYPE_DOWNLOAD_FILE ctxUser 2) ]

/-- A download is started at time 0 and throttled at time 10; a
connection-change notification arrives at time 11. -/
def throttledThenNotified : List (Int × Env × Event) :=
  [ (0, envOnline, .Submit .TYPE_DOWNLOAD_FILE ctxUser 1),
    (10, envOnline, .Completion 0 503 0 0),
    (11, envOnline, .ConnectionTypeChanged) ]

/-- A `BACKGROUND` download and a `USER_INITIATED` one queued while offline:
the file queue is `[user, background]`. -/
def twoQueued : DriveScheduler :=
  run sampleUtil twoQueuedTrace DriveScheduler.new

/-- Two searches submitted while offline: both wait in the metadata queue. -/
def twoSearchesQueued : DriveScheduler :=
  run sampleUtil
    [ (envOffline, .Submit .TYPE_SEARCH ctxUser 1),
      (envOffline, .Submit .TYPE_SEARCH ctxUser 2) ]
    DriveScheduler.new

/-- A download is started on a scheduler with `disable_throttling_` set and
throttled five times over, each time restarted by the posted task. -/
def fiveThrottlesDisabled : List (Env × Event) :=
  [ (envOnline, .Submit .TYPE_DOWNLOAD_FILE ctxUser 1),
    (envOnline, .Completion 0 503 0 0), (envOnline, .RunTask 0),
    (envOnline, .Completion 0 503 0 0), (envOnline, .RunTask 0),
    (envOnline, .Completion 0 503 0 0), (envOnline, .RunTask 0),
    (envOnline, .Completion 0 503 0 0), (envOnline, .RunTask 0),
    (envOnline, .Completion 0 503 0 0), (envOnline, .RunTask 0) ]

/-- An initialised scheduler with one download in flight and a second one
waiting behind it at the cap. -/
def oneRunningOneQueued : Lifetime :=
  { sched := run sampleUtil
      [ (envOnline, .Submit .TYPE_DOWNLOAD_FILE ctxUser 1),
        (envOnline, .Submit .TYPE_DOWNLOAD_FILE ctxUser 2) ]
      (Initialize DriveScheduler.new),
    weak_ptrs_valid := true }

/-- Five searches are started (the cap of the metadata queue), a
`USER_INITIATED` `GetResourceEntry` job is submitted and waits, then the first
search is throttled and put back. -/
def searchRetriedTrace : List (Env × Event) :=
  [ (envOnline, .Submit .TYPE_SEARCH ctxUser 1),
    (envOnline, .Submit .TYPE_SEARCH ctxUser 2),
    (envOnline, .Submit .TYPE_SEARCH ctxUser 3),
    (envOnline, .Submit .TYPE_SEARCH ctxUser 4),
    (envOnline, .Submit .TYPE_SEARCH ctxUser 5),
    (envOnline, .Submit .TYPE_GET_RESOURCE_ENTRY ctxUser 6),
    (envOnline, .Completion 0 503 0 0) ]

/-- A download is throttled five times in a row, each time restarted by the
posted task: the counter stands at 5. -/
def atMaxThrottle : DriveScheduler :=
  run sampleUtil fiveThrottlesDisabled DriveScheduler.new

/-! ## Theorems -/

/-! ### The stable sort -/

theorem Compare_iff (a b : QueueEntry) :
    QueueEntry.Compare a b = true ↔ a.priority < b.priority := by
  simp [QueueEntry.Compare, QueueEntry.priority]

theorem list_sort_insert_perm {α : Type} (comp : α → α → Bool) (x : α) (l : List α) :
    (list_sort_insert comp x l).Perm (x :: l) := by
  induction l with
  | nil => simp [list_sort_insert]
  | cons y ys ih =>
    simp only [list_sort_insert]
    split
    · exact (List.Perm.cons y ih).trans (List.Perm.swap x y ys)
    · exact List.Perm.refl _

theorem list_sort_perm {α : Type} (comp : α → α → Bool) (l : List α) :
    (list_sort comp l).Perm l := by
  induction l with
  | nil => simp [list_sort]
  | cons x xs ih =>
    simp only [list_sort]
    exact (list_sort_insert_perm comp x _).trans (List.Perm.cons x ih)

theorem list_sort_insert_sorted (x : QueueEntry) (l : List QueueEntry) (h : QueueSorted l) :
    QueueSorted (list_sort_insert QueueEntry.Compare x l) := by
  induction l with
  | nil => simp [list_sort_insert, QueueSorted]
  | cons y ys ih =>
    have hy := List.pairwise_cons.mp h
    simp only [list_sort_insert]
    split
    · rename_i hc
      rw [Compare_iff] at hc
      refine List.pairwise_cons.mpr ⟨?_, ih hy.2⟩
      intro z hz
      have hz2 := (List.Perm.mem_iff (list_sort_insert_perm _ x ys)).mp hz
      rcases List.mem_cons.mp hz2 with hzx | hzy
      · rw [hzx]; omega
      · exact hy.1 z hzy
    · rename_i hc
      rw [Compare_iff] at hc
      refine List.pairwise_cons.mpr ⟨?_, h⟩
      intro z hz
      rcases List.mem_cons.mp hz with rfl | hz
      · omega
      · have := hy.1 z hz
        omega

theorem list_sort_sorted (l : List QueueEntry) :
    QueueSorted (list_sort QueueEntry.Compare l) := by
  induction l with
  | nil => simp [list_sort, QueueSorted]
  | cons x xs ih => exact list_sort_insert_sorted x _ ih

/-- Inserting into a list whose members all come no earlier than `x` puts `x`
at the head. -/
theorem list_sort_insert_head (x : QueueEntry) (l : List QueueEntry)
    (h : ∀ e ∈ l, x.priority ≤ e.priority) :
    list_sort_insert QueueEntry.Compare x l = x :: l := by
  cases l with
  | nil => rfl
  | cons y ys =>
    have hy := h y (List.mem_cons_self _ _)
    have hc : QueueEntry.Compare y x = false := by
      rw [Bool.eq_false_iff, Ne, Compare_iff]; omega
    simp [list_sort_insert, hc]

theorem list_sort_of_sorted (l : List QueueEntry) (h : QueueSorted l) :
    list_sort QueueEntry.Compare l = l := by
  induction l with
  | nil => rfl
  | cons x xs ih =>
    have hx := List.pairwise_cons.mp h
    simp only [list_sort]
    rw [ih hx.2]
    exact list_sort_insert_head x xs hx.1

/-- Sorting a sorted queue with one job appended: the job lands behind
everything of its own or a more urgent class and ahead of the rest. -/
theorem list_sort_append_singleton (q : List QueueEntry) (job : QueueEntry)
    (h : QueueSorted q) :
    ∃ pre post, q = pre ++ post ∧
      (∀ e ∈ pre, e.priority ≤ job.priority) ∧
      (∀ e ∈ post, job.priority < e.priority) ∧
      list_sort QueueEntry.Compare (q ++ [job]) = pre ++ job :: post := by
  induction q with
  | nil => exact ⟨[], [], rfl, by simp, by simp, rfl⟩
  | cons a q ih =>
    have ha := List.pairwise_cons.mp h
    obtain ⟨pre, post, hq, hpre, hpost, hs⟩ := ih ha.2
    by_cases hle : a.priority ≤ job.priority
    · refine ⟨a :: pre, post, by simp [hq], ?_, hpost, ?_⟩
      · intro e he
        rcases List.mem_cons.mp he with rfl | he
        · exact hle
        · exact hpre e he
      · show list_sort_insert QueueEntry.Compare a
          (list_sort QueueEntry.Compare (q ++ [job])) = _
        rw [hs]
        apply list_sort_insert_head
        intro e he
        rcases List.mem_append.mp he with he | he
        · exact ha.1 e (by rw [hq]; exact List.mem_append_left _ he)
        · rcases List.mem_cons.mp he with rfl | he
          · exact hle
          · exact ha.1 e (by rw [hq]; exact List.mem_append_right _ he)
    · have hpre_nil : pre = [] := by
        cases pre with
        | nil => rfl
        | cons p ps =>
          exfalso
          have h1 := hpre p (List.mem_cons_self _ _)
          have h2 := ha.1 p (by rw [hq]; simp)
          omega
      subst hpre_nil
      simp only [List.nil_append] at hq hs
      subst hq
      refine ⟨[], a :: q, rfl, by simp, ?_, ?_⟩
      · intro e he
        rcases List.mem_cons.mp he with rfl | he
        · omega
        · exact hpost e he
      · show list_sort_insert QueueEntry.Compare a
          (list_sort QueueEntry.Compare (q ++ [job])) = _
        rw [hs]
        have hc : QueueEntry.Compare job a = true := by rw [Compare_iff]; omega
        simp only [list_sort_insert, hc, if_true]
        rw [list_sort_insert_head a q ha.1]
        rfl

/-- The stable insertion sort that stands for `std::list::sort` agrees with
the merge sort of the core library run with the non-strict order derived from
`Compare`: the result does not depend on the sorting algorithm. -/
theorem list_sort_eq_mergeSort (l : List QueueEntry) :
    list_sort QueueEntry.Compare l = l.mergeSort (fun a b => !QueueEntry.Compare b a) := by
  have trans : ∀ a b c : QueueEntry, (!QueueEntry.Compare b a) = true →
      (!QueueEntry.Compare c b) = true → (!QueueEntry.Compare c a) = true := by
    intro a b c h1 h2
    simp only [Bool.not_eq_true', Bool.eq_false_iff, Ne, Compare_iff] at *
    omega
  have total : ∀ a b : QueueEntry,
      (!QueueEntry.Compare b a || !QueueEntry.Compare a b) = true := by
    intro a b
    by_cases h : QueueEntry.Compare b a = true
    · have : QueueEntry.Compare a b = false := by
        rw [Bool.eq_false_iff, Ne, Compare_iff]; rw [Compare_iff] at h; omega
      simp [this]
    · simp [h]
  induction l with
  | nil => simp [list_sort]
  | cons a l ih =>
    obtain ⟨l₁, l₂, h1, h2, h3⟩ := List.mergeSort_cons trans total a l
    have hs := List.sorted_mergeSort trans total (a :: l)
    rw [h1] at hs
    simp only [list_sort]
    rw [ih, h2, h1]
    clear h1 h2 ih
    induction l₁ with
    | nil =>
      simp only [List.nil_append] at hs ⊢
      apply list_sort_insert_head
      intro e he
      have := (List.pairwise_cons.mp hs).1 e he
      simp only [Bool.not_eq_true', Bool.eq_false_iff, Ne, Compare_iff] at this
      omega
    | cons b l₁ ih2 =>
      have hb := h3 b (List.mem_cons_self _ _)
      simp only [Bool.not_not] at hb
      show list_sort_insert QueueEntry.Compare a (b :: (l₁ ++ l₂)) = b :: (l₁ ++ a :: l₂)
      simp only [list_sort_insert, hb, if_true]
      rw [ih2]
      · intro c hc; exact h3 c (List.mem_cons_of_mem _ hc)
      · exact (List.pairwise_cons.mp hs).2

/-! ### C1: the cap on running jobs -/

/-- C1 (fails on the code). The claim says that in every reachable state
`jobs_running_[METADATA_QUEUE] <= 5` and `jobs_running_[FILE_QUEUE] <= 1`. The
`DoJobLoop` task that `OnJobDone` posts does not check the cap that
`StartJobLoop` checks: when a submission starts a job before that task runs,
the task starts one more. After `fileCapTrace` two downloads are in flight and
`jobs_running_[FILE_QUEUE]` is 2; after `metadataCapTrace` six metadata jobs
are in flight and `jobs_running_[METADATA_QUEUE]` is 6. -/
theorem job_cap_exceeded_by_posted_DoJobLoop :
    Reachable sampleUtil (run sampleUtil fileCapTrace DriveScheduler.new) ∧
    (run sampleUtil fileCapTrace DriveScheduler.new).jobs_running_.get .FILE_QUEUE = 2 ∧
    (run sampleUtil fileCapTrace DriveScheduler.new).in_flight.length = 2 ∧
    ¬ ((run sampleUtil fileCapTrace DriveScheduler.new).jobs_running_.get .FILE_QUEUE ≤ 1) ∧
    Reachable sampleUtil (run sampleUtil metadataCapTrace DriveScheduler.new) ∧
    (run sampleUtil metadataCapTrace DriveScheduler.new).jobs_running_.get .METADATA_QUEUE = 6 ∧
    ¬ ((run sampleUtil metadataCapTrace DriveScheduler.new).jobs_running_.get .METADATA_QUEUE
        ≤ 5) :=
  ⟨⟨fileCapTrace, rfl⟩, by decide, by decide, by decide,
   ⟨metadataCapTrace, rfl⟩, by decide, by decide⟩

/-! ### C6: the network gate -/

/-- C6. `ShouldStopJobLoop` returns true exactly when the feature is disabled,
or the network is offline, or the connection is cellular with the
disable-over-cellular preference set, the queue is `FILE_QUEUE` and the
priority class is `BACKGROUND` or `PREFETCH`. -/
theorem ShouldStopJobLoop_iff (env : Env) (queue_type : QueueType)
    (context : DriveClientContext) :
    ShouldStopJobLoop env queue_type context = true ↔
      (env.kDisableDrive = true ∨ env.IsOffline = true ∨
        (env.IsConnectionCellular = true ∧ env.kDisableDriveOverCellular = true ∧
          queue_type = .FILE_QUEUE ∧
          (context.type = .BACKGROUND ∨ context.type = .PREFETCH))) := by
  obtain ⟨d, o, c, m⟩ := env
  obtain ⟨t⟩ := context
  cases d <;> cases o <;> cases c <;> cases m <;> cases queue_type <;> cases t <;>
    simp [ShouldStopJobLoop]

/-! ### Moves of the queues and the well-formedness invariant -/

theorem QueueArray.get_set {α : Type} (a : QueueArray α) (q q' : QueueType) (v : α) :
    (a.set q v).get q' = if q' = q then v else a.get q' := by
  cases q <;> cases q' <;> simp [QueueArray.set, QueueArray.get]

theorem QueueArray.get_set_same {α : Type} (a : QueueArray α) (q : QueueType) (v : α) :
    (a.set q v).get q = v := by
  simp [QueueArray.get_set]

theorem QueueArray.set_get {α : Type} (a : QueueArray α) (q : QueueType) :
    a.set q (a.get q) = a := by
  cases q <;> rfl

theorem Moves.trans {a b c} (h1 : Moves a b) (h2 : Moves b c) : Moves a c := by
  induction h1 with
  | refl => exact h2
  | push job _ ih => exact Moves.push job (ih h2)
  | pop q front rest hq _ ih => exact Moves.pop q front rest hq (ih h2)

theorem view_QueueJob (job : QueueEntry) (s : DriveScheduler) :
    view (QueueJob job s) = (pushQueue job s.queue_, s.dispatched) := rfl

theorem Moves_QueueJob (job : QueueEntry) (s : DriveScheduler) :
    Moves (view s) (view (QueueJob job s)) :=
  Moves.push job (Moves.refl _)

theorem DoJobLoop_nil (env : Env) (q : QueueType) (s : DriveScheduler)
    (hq : s.queue_.get q = []) : DoJobLoop env q s = s := by
  simp [DoJobLoop, hq]

theorem DoJobLoop_stop (env : Env) (q : QueueType) (s : DriveScheduler)
    (front : QueueEntry) (rest : List QueueEntry) (hq : s.queue_.get q = front :: rest)
    (hg : ShouldStopJobLoop env q front.context = true) : DoJobLoop env q s = s := by
  simp [DoJobLoop, hq, hg]

theorem DoJobLoop_go (env : Env) (q : QueueType) (s : DriveScheduler)
    (front : QueueEntry) (rest : List QueueEntry) (hq : s.queue_.get q = front :: rest)
    (hg : ShouldStopJobLoop env q front.context = false) :
    DoJobLoop env q s =
      { s with
        jobs_running_ := s.jobs_running_.set q (s.jobs_running_.get q + 1),
        queue_ := s.queue_.set q rest,
        in_flight := s.in_flight ++ [(boundHandler front.job_info.job_type, front.running)],
        dispatched := s.dispatched ++ [front.running] } := by
  simp [DoJobLoop, hq, hg, QueueEntry.running]

/-- The two outcomes of `DoJobLoop`: nothing happens, or the head of the queue
is dispatched. -/
theorem DoJobLoop_cases (env : Env) (q : QueueType) (s : DriveScheduler) :
    DoJobLoop env q s = s ∨
    ∃ front rest, s.queue_.get q = front :: rest ∧
      ShouldStopJobLoop env q front.context = false ∧
      DoJobLoop env q s =
        { s with
          jobs_running_ := s.jobs_running_.set q (s.jobs_running_.get q + 1),
          queue_ := s.queue_.set q rest,
          in_flight := s.in_flight ++ [(boundHandler front.job_info.job_type, front.running)],
          dispatched := s.dispatched ++ [front.running] } := by
  cases hq : s.queue_.get q with
  | nil => left; exact DoJobLoop_nil env q s hq
  | cons front rest =>
    cases hg : ShouldStopJobLoop env q front.context with
    | true => left; exact DoJobLoop_stop env q s front rest hq hg
    | false => right; exact ⟨front, rest, rfl, hg, DoJobLoop_go env q s front rest hq hg⟩

theorem Moves_DoJobLoop (env : Env) (q : QueueType) (s : DriveScheduler) :
    Moves (view s) (view (DoJobLoop env q s)) := by
  rcases DoJobLoop_cases env q s with h | ⟨front, rest, hq, _, h⟩
  · rw [h]; exact Moves.refl _
  · rw [h]; exact Moves.pop q front rest hq (Moves.refl _)

theorem Moves_StartJobLoop (env : Env) (q : QueueType) (s : DriveScheduler) :
    Moves (view s) (view (StartJobLoop env q s)) := by
  unfold StartJobLoop
  split
  · exact Moves_DoJobLoop env q s
  · exact Moves.refl _

theorem view_ThrottleAndContinueJobLoop (rand : Int) (q : QueueType) (s : DriveScheduler) :
    view (ThrottleAndContinueJobLoop rand q s) = view s := by
  unfold ThrottleAndContinueJobLoop view
  split <;> rfl

theorem view_ResetThrottleAndContinueJobLoop (q : QueueType) (s : DriveScheduler) :
    view (ResetThrottleAndContinueJobLoop q s) = view s := rfl

theorem Moves_OnJobDone (rand : Int) (e : QueueEntry) (error : DriveFileError)
    (s : DriveScheduler) :
    Moves (view s) (view (OnJobDone rand e error s).1) := by
  unfold OnJobDone
  split
  · simp only [view_ThrottleAndContinueJobLoop]
    exact Moves.push _ (Moves.refl _)
  · exact Moves.refl _

theorem runHandler_eq (u : Util) (rand : Int) (h : Handler) (e : QueueEntry) (error : Int)
    (payload : Nat) (s : DriveScheduler) :
    runHandler u rand h e error payload s =
      match (OnJobDone rand e (convertedError u h error) s).2 with
      | none => (OnJobDone rand e (convertedError u h error) s).1
      | some job_info =>
        deliver h job_info error payload (OnJobDone rand e (convertedError u h error) s).1 := by
  cases h <;>
    simp only [runHandler, OnGetResourceListJobDone, OnGetResourceEntryJobDone,
      OnGetAboutResourceJobDone, OnGetAccountMetadataJobDone, OnGetAppListJobDone,
      OnEntryActionJobDone, OnDownloadActionJobDone, OnUploadCompletionJobDone,
      convertedError, deliver, postsCallback] <;>
    (rcases hr : OnJobDone rand e _ s with ⟨s', _ | j⟩ <;> simp)

theorem view_deliver (h : Handler) (j : QueueEntry) (error : Int) (payload : Nat)
    (s : DriveScheduler) : view (deliver h j error payload s) = view s := by
  unfold deliver; split <;> rfl

theorem view_runHandler (u : Util) (rand : Int) (h : Handler) (e : QueueEntry) (error : Int)
    (payload : Nat) (s : DriveScheduler) :
    view (runHandler u rand h e error payload s) =
      view (OnJobDone rand e (convertedError u h error) s).1 := by
  rw [runHandler_eq]
  split
  · rfl
  · exact view_deliver _ _ _ _ _

theorem callEntryPoint_eq (env : Env) (job_type : JobType) (context : DriveClientContext)
    (params : Nat) (s : DriveScheduler) :
    callEntryPoint env job_type context params s =
      StartJobLoop env (GetJobQueueType job_type)
        (QueueJob (createdEntry job_type context params) s) := by
  cases job_type <;> rfl

theorem Moves_step (u : Util) (env : Env) (ev : Event) (s : DriveScheduler) :
    Moves (view s) (view (step u env ev s)) := by
  cases ev with
  | Submit job_type context params =>
    simp only [step, callEntryPoint_eq]
    exact (Moves_QueueJob _ s).trans (Moves_StartJobLoop _ _ _)
  | ConnectionTypeChanged =>
    simp only [step, OnConnectionTypeChanged]
    split
    · exact (Moves_StartJobLoop _ _ s).trans (Moves_StartJobLoop _ _ _)
    · exact Moves.refl _
  | Completion i error payload rand =>
    simp only [step]
    split
    · exact Moves.refl _
    · rw [view_runHandler]
      exact Moves_OnJobDone rand _ _ { s with in_flight := s.in_flight.eraseIdx i }
  | RunTask i =>
    simp only [step]
    split
    · exact Moves.refl _
    · rename_i t _
      cases t with
      | DoJobLoop q d => exact Moves_DoJobLoop env q { s with tasks := s.tasks.eraseIdx i }
      | RunCallback e err p => exact Moves.refl _

theorem Moves_run (u : Util) (evs : List (Env × Event)) (s : DriveScheduler) :
    Moves (view s) (view (run u evs s)) := by
  induction evs generalizing s with
  | nil => exact Moves.refl _
  | cons ev evs ih =>
    obtain ⟨env, ev⟩ := ev
    exact (Moves_step u env ev s).trans (ih _)

theorem QueuesWellFormed_push (job : QueueEntry) (qs : QueueArray (List QueueEntry))
    (h : QueuesWellFormed qs) : QueuesWellFormed (pushQueue job qs) := by
  intro q
  unfold pushQueue
  rw [QueueArray.get_set]
  split
  · rename_i hq
    subst hq
    refine ⟨list_sort_sorted _, ?_⟩
    intro e he
    have he2 := (List.Perm.mem_iff (list_sort_perm _ _)).mp he
    rcases List.mem_append.mp he2 with he3 | he3
    · exact (h _).2 e he3
    · simp at he3; rw [he3]
  · exact h q

theorem QueuesWellFormed_pop (q : QueueType) (front : QueueEntry) (rest : List QueueEntry)
    (qs : QueueArray (List QueueEntry)) (hq : qs.get q = front :: rest)
    (h : QueuesWellFormed qs) : QueuesWellFormed (qs.set q rest) := by
  intro q'
  rw [QueueArray.get_set]
  split
  · rename_i hq'
    subst hq'
    have := h q'
    rw [hq] at this
    exact ⟨(List.pairwise_cons.mp this.1).2, fun e he => this.2 e (List.mem_cons_of_mem _ he)⟩
  · exact h q'

theorem QueuesWellFormed_of_Moves {v w} (hm : Moves v w) (h : QueuesWellFormed v.1) :
    QueuesWellFormed w.1 := by
  induction hm with
  | refl => exact h
  | push job _ ih => exact ih (QueuesWellFormed_push job _ h)
  | pop q front rest hq _ ih => exact ih (QueuesWellFormed_pop q front rest _ hq h)

theorem WellFormed_new : WellFormed DriveScheduler.new := by
  intro q; cases q <;> simp [DriveScheduler.new, QueueArray.get, QueueSorted]

theorem WellFormed_run (u : Util) (evs : List (Env × Event)) (s : DriveScheduler)
    (h : WellFormed s) : WellFormed (run u evs s) :=
  QueuesWellFormed_of_Moves (Moves_run u evs s) h

theorem WellFormed_of_Reachable (u : Util) (s : DriveScheduler) (h : Reachable u s) :
    WellFormed s := by
  obtain ⟨evs, rfl⟩ := h
  exact WellFormed_run u evs _ WellFormed_new


/-! ### C2, C3: the queue stays sorted; where `QueueJob` puts a job -/

/-- C2. After `QueueJob` the queue of the job's type is sorted by priority
class (`USER_INITIATED` before `BACKGROUND` before `PREFETCH`), whatever the
queue held before; and every queue of every state reachable from the freshly
constructed scheduler is sorted. -/
theorem QueueJob_sorted_and_reachable_sorted (u : Util) :
    (∀ (s : DriveScheduler) (job : QueueEntry),
      QueueSorted ((QueueJob job s).queue_.get (GetJobQueueType job.job_info.job_type))) ∧
    (∀ s : DriveScheduler, Reachable u s → ∀ q, QueueSorted (s.queue_.get q)) := by
  constructor
  · intro s job
    show QueueSorted ((pushQueue job s.queue_).get _)
    unfold pushQueue
    rw [QueueArray.get_set_same]
    exact list_sort_sorted _
  · intro s hs q
    exact (WellFormed_of_Reachable u s hs q).1

/-- C2 at a concrete reachable state: after two submissions made offline the
file queue holds both jobs, sorted. -/
theorem QueueJob_sorted_and_reachable_sorted_witness :
    Reachable sampleUtil (run sampleUtil twoQueuedTrace DriveScheduler.new) ∧
    (run sampleUtil twoQueuedTrace DriveScheduler.new).queue_.get .FILE_QUEUE =
      [createdEntry .TYPE_DOWNLOAD_FILE ctxUser 2,
       createdEntry .TYPE_DOWNLOAD_FILE ctxBackground 1] ∧
    QueueSorted ((run sampleUtil twoQueuedTrace DriveScheduler.new).queue_.get .FILE_QUEUE) :=
  ⟨⟨twoQueuedTrace, rfl⟩, by decide,
   (QueueJob_sorted_and_reachable_sorted sampleUtil).2 _ ⟨twoQueuedTrace, rfl⟩ .FILE_QUEUE⟩

theorem filter_band_eq (job : QueueEntry) (pre post : List QueueEntry)
    (hpre : ∀ e ∈ pre, e.priority ≤ job.priority)
    (hpost : ∀ e ∈ post, job.priority < e.priority) :
    insertBehindBand job (pre ++ post) = pre ++ job :: post := by
  unfold insertBehindBand
  rw [List.filter_append, List.filter_append]
  have h1 : pre.filter (fun e => decide (e.priority ≤ job.priority)) = pre :=
    List.filter_eq_self.mpr (fun e he => by simpa using hpre e he)
  have h2 : post.filter (fun e => decide (e.priority ≤ job.priority)) = [] :=
    List.filter_eq_nil_iff.mpr (fun e he => by have := hpost e he; simp; omega)
  have h3 : pre.filter (fun e => decide (job.priority < e.priority)) = [] :=
    List.filter_eq_nil_iff.mpr (fun e he => by have := hpre e he; simp; omega)
  have h4 : post.filter (fun e => decide (job.priority < e.priority)) = post :=
    List.filter_eq_self.mpr (fun e he => by simpa using hpost e he)
  rw [h1, h2, h3, h4]
  simp

/-- C3. On a queue that is sorted by priority class, `QueueJob` (push_back,
then the stable sort by `Compare`) yields exactly the old queue with the new
job inserted behind every queued job of the same or a more urgent class and
ahead of every job of a less urgent class: the old queue is `pre ++ post`, the
new one is `pre ++ job :: post`. So the old jobs keep their relative order
(the old queue is a sublist of the new one) and none is lost or duplicated
(the new queue is a permutation of the old one plus the job). -/
theorem QueueJob_inserts_behind_priority_band (s : DriveScheduler) (job : QueueEntry)
    (h : QueueSorted (s.queue_.get (GetJobQueueType job.job_info.job_type))) :
    (QueueJob job s).queue_.get (GetJobQueueType job.job_info.job_type) =
      insertBehindBand job (s.queue_.get (GetJobQueueType job.job_info.job_type)) ∧
    (∃ pre post,
      s.queue_.get (GetJobQueueType job.job_info.job_type) = pre ++ post ∧
      (∀ e ∈ pre, e.context.type.value ≤ job.context.type.value) ∧
      (∀ e ∈ post, job.context.type.value < e.context.type.value) ∧
      (QueueJob job s).queue_.get (GetJobQueueType job.job_info.job_type) =
        pre ++ job :: post) ∧
    (s.queue_.get (GetJobQueueType job.job_info.job_type)).Sublist
      ((QueueJob job s).queue_.get (GetJobQueueType job.job_info.job_type)) ∧
    ((QueueJob job s).queue_.get (GetJobQueueType job.job_info.job_type)).Perm
      (job :: s.queue_.get (GetJobQueueType job.job_info.job_type)) := by
  have hq : (QueueJob job s).queue_.get (GetJobQueueType job.job_info.job_type) =
      list_sort QueueEntry.Compare
        (s.queue_.get (GetJobQueueType job.job_info.job_type) ++ [job]) := by
    show (pushQueue job s.queue_).get _ = _
    unfold pushQueue
    rw [QueueArray.get_set_same]
  obtain ⟨pre, post, h1, h2, h3, h4⟩ := list_sort_append_singleton _ job h
  rw [hq, h4]
  refine ⟨?_, ⟨pre, post, h1, h2, h3, rfl⟩, ?_, ?_⟩
  · rw [h1]; exact (filter_band_eq job pre post h2 h3).symm
  · rw [h1]
    exact List.Sublist.append (List.Sublist.refl pre) (List.sublist_cons_self job post)
  · rw [h1]
    exact List.perm_middle

/-- C3 at a concrete queue: a `BACKGROUND` download is queued behind the
`USER_INITIATED` and the `BACKGROUND` download already there and ahead of the
`PREFETCH` one. -/
theorem QueueJob_inserts_behind_priority_band_witness :
    QueueSorted threeQueued ∧
    (QueueJob (createdEntry .TYPE_DOWNLOAD_FILE ctxBackground 4)
        (withFileQueue threeQueued)).queue_.get .FILE_QUEUE =
      insertBehindBand (createdEntry .TYPE_DOWNLOAD_FILE ctxBackground 4) threeQueued ∧
    insertBehindBand (createdEntry .TYPE_DOWNLOAD_FILE ctxBackground 4) threeQueued =
      [createdEntry .TYPE_DOWNLOAD_FILE ctxUser 1,
       createdEntry .TYPE_DOWNLOAD_FILE ctxBackground 2,
       createdEntry .TYPE_DOWNLOAD_FILE ctxBackground 4,
       createdEntry .TYPE_DOWNLOAD_FILE { type := .PREFETCH } 3] :=
  ⟨by decide,
   (QueueJob_inserts_behind_priority_band (withFileQueue threeQueued)
      (createdEntry .TYPE_DOWNLOAD_FILE ctxBackground 4) (by decide)).1,
   by decide⟩

/-! ### C4: a `USER_INITIATED` job overtakes a waiting `BACKGROUND` job -/

theorem priority_eq_zero_iff (e : QueueEntry) :
    e.priority = 0 ↔ e.context.type = .USER_INITIATED := by
  unfold QueueEntry.priority
  cases e.context.type <;> simp [ContextType.value]

theorem running_context (e : QueueEntry) : e.running.context = e.context := rfl

theorem running_job_type (e : QueueEntry) :
    e.running.job_info.job_type = e.job_info.job_type := rfl

theorem BeforeInv_push (A B : QueueEntry) (q : QueueType) (base : List QueueEntry)
    (job : QueueEntry) (qs : QueueArray (List QueueEntry)) (d : List QueueEntry)
    (h : BeforeInv A B q base (qs, d)) : BeforeInv A B q base (pushQueue job qs, d) := by
  obtain ⟨L, hL, h⟩ := h
  refine ⟨L, hL, ?_⟩
  rcases h with ⟨hB, hwf, hA⟩ | h
  · left
    refine ⟨?_, QueuesWellFormed_push job qs hwf, hA⟩
    show B ∈ (pushQueue job qs).get q
    unfold pushQueue
    rw [QueueArray.get_set]
    split
    · rename_i hq
      subst hq
      exact (List.Perm.mem_iff (list_sort_perm _ _)).mpr (List.mem_append_left _ hB)
    · exact hB
  · right; exact h

theorem BeforeInv_pop (A B : QueueEntry) (q : QueueType) (base : List QueueEntry)
    (hA : A.context.type = .BACKGROUND) (hB : B.context.type = .USER_INITIATED)
    (hAq : GetJobQueueType A.job_info.job_type = q)
    (q' : QueueType) (front : QueueEntry) (rest : List QueueEntry)
    (qs : QueueArray (List QueueEntry)) (d : List QueueEntry)
    (hq : qs.get q' = front :: rest)
    (h : BeforeInv A B q base (qs, d)) :
    BeforeInv A B q base (qs.set q' rest, d ++ [front.running]) := by
  obtain ⟨L, hL, h⟩ := h
  simp only at hL
  refine ⟨L ++ [front.running], by simp [hL], ?_⟩
  rcases h with ⟨hBq, hwf, hAL⟩ | ⟨L0, L1, hL01, hA0⟩
  · simp only at hBq
    by_cases hqq : q' = q
    · subst hqq
      rw [hq] at hBq
      rcases List.mem_cons.mp hBq with hBf | hBr
      · right
        exact ⟨L, [], by rw [hBf], hAL⟩
      · left
        have hs := (hwf q').1
        rw [hq] at hs
        have hle := (List.pairwise_cons.mp hs).1 B hBr
        have hB0 : B.priority = 0 := (priority_eq_zero_iff B).mpr hB
        have hf : front.context.type = .USER_INITIATED :=
          (priority_eq_zero_iff front).mp (by omega)
        refine ⟨?_, QueuesWellFormed_pop q' front rest qs hq hwf, ?_⟩
        · show B ∈ (qs.set q' rest).get q'
          rw [QueueArray.get_set_same]; exact hBr
        · intro hmem
          rcases List.mem_append.mp hmem with hm | hm
          · exact hAL hm
          · simp only [List.mem_singleton] at hm
            have := congrArg (fun e => e.context.type) hm
            simp only [running_context, hA, hf] at this
            exact absurd this (by decide)
    · left
      refine ⟨?_, QueuesWellFormed_pop q' front rest qs hq hwf, ?_⟩
      · show B ∈ (qs.set q' rest).get q
        rw [QueueArray.get_set, if_neg (fun h => hqq h.symm)]; exact hBq
      · intro hmem
        rcases List.mem_append.mp hmem with hm | hm
        · exact hAL hm
        · simp only [List.mem_singleton] at hm
          have hft := (hwf q').2 front (by rw [hq]; exact List.mem_cons_self _ _)
          have := congrArg (fun e => GetJobQueueType e.job_info.job_type) hm
          simp only [running_job_type, hAq, hft] at this
          exact hqq this.symm
  · right
    exact ⟨L0, L1 ++ [front.running], by simp [hL01], hA0⟩

theorem BeforeInv_of_Moves (A B : QueueEntry) (q : QueueType) (base : List QueueEntry)
    (hA : A.context.type = .BACKGROUND) (hB : B.context.type = .USER_INITIATED)
    (hAq : GetJobQueueType A.job_info.job_type = q) {v w}
    (hm : Moves v w) (h : BeforeInv A B q base v) : BeforeInv A B q base w := by
  induction hm with
  | refl => exact h
  | push job _ ih => exact ih (BeforeInv_push A B q base job _ _ h)
  | pop q' front rest hq _ ih =>
    exact ih (BeforeInv_pop A B q base hA hB hAq q' front rest _ _ hq h)

/-- What the invariant says about the dispatch history: every dispatch of `A`
has a dispatch of `B` before it. -/
theorem BeforeInv_order (A B : QueueEntry) (q : QueueType) (base : List QueueEntry)
    (hA : A.context.type = .BACKGROUND) (hB : B.context.type = .USER_INITIATED) {w}
    (h : BeforeInv A B q base w) (L1 L2 : List QueueEntry)
    (hw : w.2 = base ++ L1 ++ A.running :: L2) : B.running ∈ L1 := by
  obtain ⟨L, hL, h⟩ := h
  have hLe : L = L1 ++ A.running :: L2 := by
    rw [hw, List.append_assoc] at hL
    exact (List.append_cancel_left hL).symm
  have hne : B.running ≠ A.running := by
    intro he
    have := congrArg (fun e => e.context.type) he
    simp only [running_context, hA, hB] at this
    exact absurd this (by decide)
  rcases h with ⟨_, _, hAL⟩ | ⟨L0, L1', hL01, hA0⟩
  · exact absurd (by rw [hLe]; simp) hAL
  · rw [hLe] at hL01
    rcases List.append_eq_append_iff.mp hL01 with ⟨a', h1, h2⟩ | ⟨c', h1, h2⟩
    · cases a' with
      | nil =>
        simp only [List.nil_append, List.cons.injEq] at h2
        exact absurd h2.1.symm hne
      | cons y a'' =>
        simp only [List.cons_append, List.cons.injEq] at h2
        exact absurd (by rw [h1, h2.1]; simp) hA0
    · cases c' with
      | nil =>
        simp only [List.nil_append, List.cons.injEq] at h2
        exact absurd h2.1 hne
      | cons y c'' =>
        simp only [List.cons_append, List.cons.injEq] at h2
        rw [h1, h2.1]; simp

theorem Moves_doJobLoops (q : QueueType) (envs : List Env) (s : DriveScheduler) :
    Moves (view s) (view (doJobLoops q envs s)) := by
  induction envs generalizing s with
  | nil => exact Moves.refl _
  | cons env envs ih => exact (Moves_DoJobLoop env q s).trans (ih _)

/-- In a sorted queue that holds a `USER_INITIATED` job `B`, every occurrence
of a `BACKGROUND` job `A` has `B` in front of it. -/
theorem sorted_user_before_background (A B : QueueEntry) (l : List QueueEntry)
    (hA : A.context.type = .BACKGROUND) (hB : B.context.type = .USER_INITIATED)
    (hs : QueueSorted l) (hBl : B ∈ l) (l1 l2 : List QueueEntry) (hl : l = l1 ++ A :: l2) :
    B ∈ l1 := by
  subst hl
  rcases List.mem_append.mp hBl with h | h
  · exact h
  · exfalso
    have hA1 : A.priority = 1 := by simp [QueueEntry.priority, hA, ContextType.value]
    have hB0 : B.priority = 0 := by simp [QueueEntry.priority, hB, ContextType.value]
    rcases List.mem_cons.mp h with h | h
    · rw [h] at hB0; omega
    · have := (List.pairwise_cons.mp (List.pairwise_append.mp hs).2.1).1 B h
      omega

theorem createdEntry_ctxUser (job_type : JobType) (params : Nat) :
    (createdEntry job_type ctxUser params).context.type = .USER_INITIATED := by
  unfold createdEntry
  split <;> rfl

/-- C4. Let `A` be a `BACKGROUND` job of some queue, in a reachable state, and
let a `USER_INITIATED` job `B` be submitted to the same queue and still be
queued after its submission. Then (1) wherever `A` stands in that queue, `B`
stands in front of it; (2) over any later run of `DoJobLoop` invocations on
that queue, every dispatch of `A` has a dispatch of `B` before it; and (3) the
same holds over any later sequence of events whatsoever. -/
theorem user_initiated_dispatched_before_background (u : Util) (env : Env)
    (s1 : DriveScheduler) (A : QueueEntry) (job_type : JobType) (params : Nat)
    (hs1 : Reachable u s1)
    (hA : A.context.type = .BACKGROUND)
    (hq : GetJobQueueType A.job_info.job_type = GetJobQueueType job_type)
    (hBq : createdEntry job_type ctxUser params ∈
      (callEntryPoint env job_type ctxUser params s1).queue_.get (GetJobQueueType job_type)) :
    (∀ l1 l2, (callEntryPoint env job_type ctxUser params s1).queue_.get
        (GetJobQueueType job_type) = l1 ++ A :: l2 →
      createdEntry job_type ctxUser params ∈ l1) ∧
    (∀ (envs : List Env) (L1 L2 : List QueueEntry),
      (doJobLoops (GetJobQueueType job_type) envs
          (callEntryPoint env job_type ctxUser params s1)).dispatched =
        (callEntryPoint env job_type ctxUser params s1).dispatched ++ L1 ++ A.running :: L2 →
      (createdEntry job_type ctxUser params).running ∈ L1) ∧
    (∀ (evs : List (Env × Event)) (L1 L2 : List QueueEntry),
      (run u evs (callEntryPoint env job_type ctxUser params s1)).dispatched =
        (callEntryPoint env job_type ctxUser params s1).dispatched ++ L1 ++ A.running :: L2 →
      (createdEntry job_type ctxUser params).running ∈ L1) := by
  have hB := createdEntry_ctxUser job_type params
  have hwf1 : WellFormed s1 := WellFormed_of_Reachable u s1 hs1
  have hwf2 : WellFormed (callEntryPoint env job_type ctxUser params s1) := by
    have := Moves_step u env (.Submit job_type ctxUser params) s1
    exact QueuesWellFormed_of_Moves this hwf1
  have hinv : BeforeInv A (createdEntry job_type ctxUser params) (GetJobQueueType job_type)
      (callEntryPoint env job_type ctxUser params s1).dispatched
      (view (callEntryPoint env job_type ctxUser params s1)) :=
    ⟨[], by simp [view], Or.inl ⟨hBq, hwf2, by simp⟩⟩
  refine ⟨?_, ?_, ?_⟩
  · intro l1 l2 hl
    exact sorted_user_before_background A _ _ hA hB (hwf2 _).1 hBq l1 l2 hl
  · intro envs L1 L2 hd
    exact BeforeInv_order A _ _ _ hA hB
      (BeforeInv_of_Moves A _ _ _ hA hB hq (Moves_doJobLoops _ envs _) hinv) L1 L2 hd
  · intro evs L1 L2 hd
    exact BeforeInv_order A _ _ _ hA hB
      (BeforeInv_of_Moves A _ _ _ hA hB hq (Moves_run u evs _) hinv) L1 L2 hd

/-- C4 at a concrete state: a `BACKGROUND` download waits, a `USER_INITIATED`
download is submitted offline, the queue is `[B, A]`, and two later
`DoJobLoop` runs made online dispatch `B`, then `A`. -/
theorem user_initiated_dispatched_before_background_witness :
    Reachable sampleUtil backgroundQueued ∧
    (callEntryPoint envOffline .TYPE_DOWNLOAD_FILE ctxUser 2 backgroundQueued).queue_.get
        .FILE_QUEUE =
      [createdEntry .TYPE_DOWNLOAD_FILE ctxUser 2,
       createdEntry .TYPE_DOWNLOAD_FILE ctxBackground 1] ∧
    (doJobLoops .FILE_QUEUE [envOnline, envOnline]
        (callEntryPoint envOffline .TYPE_DOWNLOAD_FILE ctxUser 2 backgroundQueued)).dispatched =
      [(createdEntry .TYPE_DOWNLOAD_FILE ctxUser 2).running,
       (createdEntry .TYPE_DOWNLOAD_FILE ctxBackground 1).running] ∧
    (createdEntry .TYPE_DOWNLOAD_FILE ctxUser 2).running ∈
      [(createdEntry .TYPE_DOWNLOAD_FILE ctxUser 2).running] :=
  ⟨⟨_, rfl⟩, by decide, by decide,
   (user_initiated_dispatched_before_background sampleUtil envOffline backgroundQueued
      (createdEntry .TYPE_DOWNLOAD_FILE ctxBackground 1) .TYPE_DOWNLOAD_FILE 2
      ⟨_, rfl⟩ rfl rfl (by decide)).2.1 [envOnline, envOnline]
      [(createdEntry .TYPE_DOWNLOAD_FILE ctxUser 2).running] [] (by decide)⟩

/-! ### C5: jobs of one priority class leave in submission order -/

theorem view_DoJobLoop_cons (env : Env) (q : QueueType) (s : DriveScheduler)
    (front : QueueEntry) (rest : List QueueEntry) (hq : s.queue_.get q = front :: rest) :
    view (DoJobLoop env q s) = view s ∨
    view (DoJobLoop env q s) = (s.queue_.set q rest, s.dispatched ++ [front.running]) := by
  cases hg : ShouldStopJobLoop env q front.context with
  | true => left; rw [DoJobLoop_stop env q s front rest hq hg]
  | false => right; rw [DoJobLoop_go env q s front rest hq hg]; rfl

theorem view_StartJobLoop_cons (env : Env) (q : QueueType) (s : DriveScheduler)
    (front : QueueEntry) (rest : List QueueEntry) (hq : s.queue_.get q = front :: rest) :
    view (StartJobLoop env q s) = view s ∨
    view (StartJobLoop env q s) = (s.queue_.set q rest, s.dispatched ++ [front.running]) := by
  unfold StartJobLoop
  split
  · exact view_DoJobLoop_cons env q s front rest hq
  · left; rfl

theorem view_DoJobLoop_nil (env : Env) (q : QueueType) (s : DriveScheduler)
    (hq : s.queue_.get q = []) : view (DoJobLoop env q s) = view s := by
  rw [DoJobLoop_nil env q s hq]

/-- What a state looks like to queue `q` and to the dispatch history. -/
theorem view_eq_iff (s : DriveScheduler) (qs : QueueArray (List QueueEntry))
    (d : List QueueEntry) : view s = (qs, d) ↔ s.queue_ = qs ∧ s.dispatched = d := by
  unfold view
  exact Prod.mk.injEq _ _ _ _ ▸ Iff.rfl

/-- Submitting to an empty queue: the job is queued alone, or dispatched. -/
theorem submit_to_empty_queue (env : Env) (job_type : JobType) (context : DriveClientContext)
    (params : Nat) (s : DriveScheduler) (hq : s.queue_.get (GetJobQueueType job_type) = []) :
    ((callEntryPoint env job_type context params s).queue_.get (GetJobQueueType job_type) =
        [createdEntry job_type context params] ∧
      (callEntryPoint env job_type context params s).dispatched = s.dispatched) ∨
    ((callEntryPoint env job_type context params s).queue_.get (GetJobQueueType job_type) = [] ∧
      (callEntryPoint env job_type context params s).dispatched =
        s.dispatched ++ [(createdEntry job_type context params).running]) := by
  rw [callEntryPoint_eq]
  have hjt : GetJobQueueType (createdEntry job_type context params).job_info.job_type =
      GetJobQueueType job_type := rfl
  have h1 : (QueueJob (createdEntry job_type context params) s).queue_.get
      (GetJobQueueType job_type) = [createdEntry job_type context params] := by
    show (pushQueue _ s.queue_).get _ = _
    unfold pushQueue
    rw [hjt, QueueArray.get_set_same, hq]
    rfl
  rcases view_StartJobLoop_cons env _ _ _ _ h1 with h | h
  · left
    have := (view_eq_iff _ _ _).mp h
    rw [this.1, this.2]
    exact ⟨h1, rfl⟩
  · right
    have := (view_eq_iff _ _ _).mp h
    rw [this.1, this.2, QueueArray.get_set_same]
    exact ⟨rfl, rfl⟩

/-- Submitting `B` to a queue that holds just `A`, of the same priority class:
`[A, B]` stays queued, or `A` is dispatched and `B` stays. -/
theorem submit_behind_one (env : Env) (A : QueueEntry) (job_type : JobType)
    (context : DriveClientContext) (params : Nat) (s : DriveScheduler)
    (hq : s.queue_.get (GetJobQueueType job_type) = [A])
    (hp : A.context.type = (createdEntry job_type context params).context.type) :
    ((callEntryPoint env job_type context params s).queue_.get (GetJobQueueType job_type) =
        [A, createdEntry job_type context params] ∧
      (callEntryPoint env job_type context params s).dispatched = s.dispatched) ∨
    ((callEntryPoint env job_type context params s).queue_.get (GetJobQueueType job_type) =
        [createdEntry job_type context params] ∧
      (callEntryPoint env job_type context params s).dispatched =
        s.dispatched ++ [A.running]) := by
  rw [callEntryPoint_eq]
  have hjt : GetJobQueueType (createdEntry job_type context params).job_info.job_type =
      GetJobQueueType job_type := rfl
  have h1 : (QueueJob (createdEntry job_type context params) s).queue_.get
      (GetJobQueueType job_type) = [A, createdEntry job_type context params] := by
    show (pushQueue _ s.queue_).get _ = _
    unfold pushQueue
    rw [hjt, QueueArray.get_set_same, hq]
    apply list_sort_of_sorted
    simp [QueueSorted, QueueEntry.priority, hp]
  rcases view_StartJobLoop_cons env _ _ _ _ h1 with h | h
  · left
    have := (view_eq_iff _ _ _).mp h
    rw [this.1, this.2]
    exact ⟨h1, rfl⟩
  · right
    have := (view_eq_iff _ _ _).mp h
    rw [this.1, this.2, QueueArray.get_set_same]
    exact ⟨rfl, rfl⟩

theorem doJobLoops_zero (q : QueueType) (envs : List Env) (s : DriveScheduler)
    (hq : s.queue_.get q = []) :
    (doJobLoops q envs s).queue_.get q = [] ∧ (doJobLoops q envs s).dispatched = s.dispatched := by
  induction envs generalizing s with
  | nil => exact ⟨hq, rfl⟩
  | cons env envs ih =>
    simp only [doJobLoops]
    rw [DoJobLoop_nil env q s hq]
    exact ih s hq

/-- Later `DoJobLoop` runs on a queue `[B]` leave it alone or pop `B`. -/
theorem doJobLoops_one (q : QueueType) (B : QueueEntry) (envs : List Env)
    (s : DriveScheduler) (hq : s.queue_.get q = [B]) :
    ((doJobLoops q envs s).queue_.get q = [B] ∧
      (doJobLoops q envs s).dispatched = s.dispatched) ∨
    ((doJobLoops q envs s).queue_.get q = [] ∧
      (doJobLoops q envs s).dispatched = s.dispatched ++ [B.running]) := by
  induction envs generalizing s with
  | nil => exact Or.inl ⟨hq, rfl⟩
  | cons env envs ih =>
    simp only [doJobLoops]
    rcases view_DoJobLoop_cons env q s B [] hq with h | h
    · have hv := (view_eq_iff _ _ _).mp h
      have := ih (DoJobLoop env q s) (by rw [hv.1]; exact hq)
      rw [hv.2] at this
      exact this
    · have hv := (view_eq_iff _ _ _).mp h
      have := doJobLoops_zero q envs (DoJobLoop env q s) (by rw [hv.1, QueueArray.get_set_same])
      rw [hv.2] at this
      exact Or.inr this

/-- Later `DoJobLoop` runs on a queue `[A, B]` pop `A`, then `B`. -/
theorem doJobLoops_two (q : QueueType) (A B : QueueEntry) (envs : List Env)
    (s : DriveScheduler) (hq : s.queue_.get q = [A, B]) :
    ((doJobLoops q envs s).queue_.get q = [A, B] ∧
      (doJobLoops q envs s).dispatched = s.dispatched) ∨
    ((doJobLoops q envs s).queue_.get q = [B] ∧
      (doJobLoops q envs s).dispatched = s.dispatched ++ [A.running]) ∨
    ((doJobLoops q envs s).queue_.get q = [] ∧
      (doJobLoops q envs s).dispatched = s.dispatched ++ [A.running, B.running]) := by
  induction envs generalizing s with
  | nil => exact Or.inl ⟨hq, rfl⟩
  | cons env envs ih =>
    simp only [doJobLoops]
    rcases view_DoJobLoop_cons env q s A [B] hq with h | h
    · have hv := (view_eq_iff _ _ _).mp h
      have := ih (DoJobLoop env q s) (by rw [hv.1]; exact hq)
      rw [hv.2] at this
      exact this
    · have hv := (view_eq_iff _ _ _).mp h
      have := doJobLoops_one q B envs (DoJobLoop env q s) (by rw [hv.1, QueueArray.get_set_same])
      rw [hv.2] at this
      right
      rcases this with h2 | h2
      · exact Or.inl h2
      · exact Or.inr ⟨h2.1, by rw [h2.2]; simp⟩

/-- The queue of the job's type right after `QueueJob`, when it held just `A`
and the job has the priority class of `A`. -/
theorem QueueJob_behind_one (A B : QueueEntry) (s : DriveScheduler)
    (hq : s.queue_.get (GetJobQueueType B.job_info.job_type) = [A])
    (hp : A.context.type = B.context.type) :
    (QueueJob B s).queue_.get (GetJobQueueType B.job_info.job_type) = [A, B] := by
  show (pushQueue _ s.queue_).get _ = _
  unfold pushQueue
  rw [QueueArray.get_set_same, hq]
  apply list_sort_of_sorted
  simp [QueueSorted, QueueEntry.priority, hp]

/-- A later submission can be what dispatches an earlier job: a download
submitted while the network is offline stays queued, and the submission of a
second download once the network is back dispatches the first one. -/
theorem earlier_job_dispatched_by_later_submission :
    offlineSubmitted.dispatched = [] ∧
    offlineSubmitted.queue_.get .FILE_QUEUE = [createdEntry .TYPE_DOWNLOAD_FILE ctxUser 1] ∧
    thenOnlineSubmitted.dispatched = [(createdEntry .TYPE_DOWNLOAD_FILE ctxUser 1).running] ∧
    thenOnlineSubmitted.queue_.get .FILE_QUEUE = [createdEntry .TYPE_DOWNLOAD_FILE ctxUser 2] := by
  decide

/-- C5. Jobs `A` and then `B` of the same priority class are submitted to an
otherwise empty queue `q` (`s0` before, `s1` after the submission of `A`, `s2`
after the submission of `B`; the environment may differ between the two).

First part: either `A` is dispatched by its own submission, or it stays
queued and `QueueJob` then puts `B` behind it, so that both are queued as
`[A, B]`.

Second part: after the submission of `B` and any number of later `DoJobLoop`
runs on `q`, the jobs dispatched since `s0` are none (both still queued as
`[A, B]`), or `A` alone (`B` still queued), or `A` and then `B`: `A` is
dispatched before `B`. -/
theorem same_priority_dispatched_in_submission_order (env1 env2 : Env)
    (s0 s1 s2 : DriveScheduler) (jtA jtB : JobType) (ctxA ctxB : DriveClientContext)
    (pA pB : Nat) (q : QueueType) (A B : QueueEntry)
    (hqA : GetJobQueueType jtA = q) (hqB : GetJobQueueType jtB = q)
    (hA : A = createdEntry jtA ctxA pA) (hB : B = createdEntry jtB ctxB pB)
    (hprio : A.context.type = B.context.type)
    (hempty : s0.queue_.get q = [])
    (h1 : s1 = callEntryPoint env1 jtA ctxA pA s0)
    (h2 : s2 = callEntryPoint env2 jtB ctxB pB s1) :
    ((s1.queue_.get q = [] ∧ s1.dispatched = s0.dispatched ++ [A.running]) ∨
      (s1.queue_.get q = [A] ∧ s1.dispatched = s0.dispatched ∧
        (QueueJob B s1).queue_.get q = [A, B] ∧
        (QueueJob B s1).dispatched = s0.dispatched)) ∧
    (∀ envs : List Env,
      ((doJobLoops q envs s2).queue_.get q = [A, B] ∧
        (doJobLoops q envs s2).dispatched = s0.dispatched) ∨
      ((doJobLoops q envs s2).queue_.get q = [B] ∧
        (doJobLoops q envs s2).dispatched = s0.dispatched ++ [A.running]) ∨
      ((doJobLoops q envs s2).queue_.get q = [] ∧
        (doJobLoops q envs s2).dispatched = s0.dispatched ++ [A.running, B.running])) := by
  subst hqA hA hB h1 h2
  have hBq : GetJobQueueType (createdEntry jtB ctxB pB).job_info.job_type =
      GetJobQueueType jtA := hqB
  rcases submit_to_empty_queue env1 jtA ctxA pA s0 hempty with ⟨hq1, hd1⟩ | ⟨hq1, hd1⟩
  · constructor
    · right
      refine ⟨hq1, hd1, ?_, hd1⟩
      rw [← hBq]
      exact QueueJob_behind_one _ _ _ (by rw [hBq]; exact hq1) hprio
    · intro envs
      rw [hqB.symm] at hq1
      rcases submit_behind_one env2 _ jtB ctxB pB _ hq1 hprio with ⟨hq2, hd2⟩ | ⟨hq2, hd2⟩
      · rw [hqB] at hq2
        have := doJobLoops_two _ _ _ envs _ hq2
        rw [hd2, hd1] at this
        exact this
      · rw [hqB] at hq2
        right
        have := doJobLoops_one _ _ envs _ hq2
        rw [hd2, hd1] at this
        rcases this with h | h
        · exact Or.inl h
        · exact Or.inr ⟨h.1, by rw [h.2]; simp⟩
  · constructor
    · left; exact ⟨hq1, hd1⟩
    · intro envs
      rw [hqB.symm] at hq1
      right
      rcases submit_to_empty_queue env2 jtB ctxB pB _ hq1 with ⟨hq2, hd2⟩ | ⟨hq2, hd2⟩
      · rw [hqB] at hq2
        have := doJobLoops_one _ _ envs _ hq2
        rw [hd2, hd1] at this
        rcases this with h | h
        · exact Or.inl h
        · exact Or.inr ⟨h.1, by rw [h.2]; simp⟩
      · rw [hqB] at hq2
        have := doJobLoops_zero _ envs _ hq2
        rw [hd2, hd1] at this
        exact Or.inr ⟨this.1, by rw [this.2]; simp⟩

/-- C5 at a concrete input: one download is submitted offline and a second
one, of the same priority class, online; two later `DoJobLoop` runs follow.
The first download was dispatched by the second submission, the second one by
the first of the later runs. -/
theorem same_priority_dispatched_in_submission_order_witness :
    DriveScheduler.new.queue_.get .FILE_QUEUE = [] ∧
    (doJobLoops .FILE_QUEUE [envOnline, envOnline] thenOnlineSubmitted).dispatched =
      [(createdEntry .TYPE_DOWNLOAD_FILE ctxUser 1).running,
       (createdEntry .TYPE_DOWNLOAD_FILE ctxUser 2).running] ∧
    (((doJobLoops .FILE_QUEUE [envOnline, envOnline] thenOnlineSubmitted).queue_.get
          .FILE_QUEUE =
        [createdEntry .TYPE_DOWNLOAD_FILE ctxUser 1,
         createdEntry .TYPE_DOWNLOAD_FILE ctxUser 2] ∧
      (doJobLoops .FILE_QUEUE [envOnline, envOnline] thenOnlineSubmitted).dispatched =
        DriveScheduler.new.dispatched) ∨
     ((doJobLoops .FILE_QUEUE [envOnline, envOnline] thenOnlineSubmitted).queue_.get
          .FILE_QUEUE =
        [createdEntry .TYPE_DOWNLOAD_FILE ctxUser 2] ∧
      (doJobLoops .FILE_QUEUE [envOnline, envOnline] thenOnlineSubmitted).dispatched =
        DriveScheduler.new.dispatched ++
          [(createdEntry .TYPE_DOWNLOAD_FILE ctxUser 1).running]) ∨
     ((doJobLoops .FILE_QUEUE [envOnline, envOnline] thenOnlineSubmitted).queue_.get
          .FILE_QUEUE = [] ∧
      (doJobLoops .FILE_QUEUE [envOnline, envOnline] thenOnlineSubmitted).dispatched =
        DriveScheduler.new.dispatched ++
          [(createdEntry .TYPE_DOWNLOAD_FILE ctxUser 1).running,
           (createdEntry .TYPE_DOWNLOAD_FILE ctxUser 2).running])) :=
  have h := same_priority_dispatched_in_submission_order envOffline envOnline
    DriveScheduler.new offlineSubmitted thenOnlineSubmitted .TYPE_DOWNLOAD_FILE
    .TYPE_DOWNLOAD_FILE ctxUser ctxUser 1 2 .FILE_QUEUE _ _ rfl rfl rfl rfl rfl rfl rfl rfl
  ⟨rfl, by decide, h.2 [envOnline, envOnline]⟩

/-! ### C7: the cellular policy defers only background file transfers -/

/-- C7. Feature enabled, network online over a cellular connection, the
disable-over-cellular preference set, both queues empty and idle (`s0`). A
`BACKGROUND` `DownloadFile` job stays queued and nothing runs (`s1`); a
`USER_INITIATED` `DownloadFile` job submitted next is dispatched, so that
`jobs_running_[FILE_QUEUE]` is 1, while the `BACKGROUND` download stays queued
(`s2`); and a `BACKGROUND` `GetResourceEntry` job, which belongs to the
metadata queue, is dispatched by its submission (`s3`). -/
theorem cellular_policy_selectivity (s0 s1 s2 s3 : DriveScheduler) (pA pB pC : Nat)
    (hqm : s0.queue_.get .METADATA_QUEUE = []) (hqf : s0.queue_.get .FILE_QUEUE = [])
    (hrm : s0.jobs_running_.get .METADATA_QUEUE = 0)
    (hrf : s0.jobs_running_.get .FILE_QUEUE = 0)
    (h1 : s1 = DownloadFile envCellular pA ctxBackground s0)
    (h2 : s2 = DownloadFile envCellular pB ctxUser s1)
    (h3 : s3 = GetResourceEntry envCellular pC ctxBackground s2) :
    (s1.queue_.get .FILE_QUEUE = [createdEntry .TYPE_DOWNLOAD_FILE ctxBackground pA] ∧
      s1.jobs_running_.get .FILE_QUEUE = 0 ∧
      s1.in_flight = s0.in_flight ∧
      s1.dispatched = s0.dispatched) ∧
    (s2.queue_.get .FILE_QUEUE = [createdEntry .TYPE_DOWNLOAD_FILE ctxBackground pA] ∧
      s2.jobs_running_.get .FILE_QUEUE = 1 ∧
      s2.in_flight = s0.in_flight ++
        [(.OnDownloadActionJobDone, (createdEntry .TYPE_DOWNLOAD_FILE ctxUser pB).running)] ∧
      s2.dispatched = s0.dispatched ++ [(createdEntry .TYPE_DOWNLOAD_FILE ctxUser pB).running]) ∧
    (s3.queue_.get .METADATA_QUEUE = [] ∧
      s3.jobs_running_.get .METADATA_QUEUE = 1 ∧
      s3.in_flight = s2.in_flight ++
        [(.OnGetResourceEntryJobDone,
          (createdEntry .TYPE_GET_RESOURCE_ENTRY ctxBackground pC).running)] ∧
      s3.dispatched = s2.dispatched ++
        [(createdEntry .TYPE_GET_RESOURCE_ENTRY ctxBackground pC).running] ∧
      s3.queue_.get .FILE_QUEUE = [createdEntry .TYPE_DOWNLOAD_FILE ctxBackground pA] ∧
      s3.jobs_running_.get .FILE_QUEUE = 1) := by
  obtain ⟨⟨qm, qf⟩, ⟨rm, rf⟩, nid, tc, dt, ini, inf, disp, tasks, cbs⟩ := s0
  simp only [QueueArray.get] at hqm hqf hrm hrf
  subst hqm hqf hrm hrf h1 h2 h3
  refine ⟨⟨rfl, rfl, rfl, rfl⟩, ⟨rfl, rfl, rfl, rfl⟩, ⟨rfl, rfl, rfl, rfl, rfl, rfl⟩⟩

/-- C7 on the freshly constructed scheduler. -/
theorem cellular_policy_selectivity_witness :
    ((DownloadFile envCellular 1 ctxBackground DriveScheduler.new).queue_.get .FILE_QUEUE =
        [createdEntry .TYPE_DOWNLOAD_FILE ctxBackground 1] ∧
      (DownloadFile envCellular 1 ctxBackground DriveScheduler.new).jobs_running_.get
        .FILE_QUEUE = 0) ∧
    (DownloadFile envCellular 2 ctxUser
        (DownloadFile envCellular 1 ctxBackground DriveScheduler.new)).jobs_running_.get
      .FILE_QUEUE = 1 ∧
    (GetResourceEntry envCellular 3 ctxBackground
        (DownloadFile envCellular 2 ctxUser
          (DownloadFile envCellular 1 ctxBackground DriveScheduler.new))).jobs_running_.get
      .METADATA_QUEUE = 1 :=
  have h := cellular_policy_selectivity DriveScheduler.new _ _ _ 1 2 3 rfl rfl rfl rfl rfl rfl rfl
  ⟨⟨h.1.1, h.1.2.1⟩, h.2.1.2.1, h.2.2.2.1⟩


/-! ### The throttle counter -/

theorem ThrottleAndContinueJobLoop_eq (rand : Int) (q : QueueType) (s : DriveScheduler) :
    ThrottleAndContinueJobLoop rand q s =
      { s with
        throttle_count_ := bump s.throttle_count_,
        tasks := s.tasks ++
          [Task.DoJobLoop q (throttleDelay s.disable_throttling_ (bump s.throttle_count_) rand)] } := by
  unfold ThrottleAndContinueJobLoop bump throttleDelay
  split <;> rfl

theorem DoJobLoop_throttle (env : Env) (q : QueueType) (s : DriveScheduler) :
    (DoJobLoop env q s).throttle_count_ = s.throttle_count_ ∧
    (DoJobLoop env q s).disable_throttling_ = s.disable_throttling_ ∧
    (DoJobLoop env q s).tasks = s.tasks := by
  rcases DoJobLoop_cases env q s with h | ⟨_, _, _, _, h⟩ <;> rw [h] <;> exact ⟨rfl, rfl, rfl⟩

theorem StartJobLoop_throttle (env : Env) (q : QueueType) (s : DriveScheduler) :
    (StartJobLoop env q s).throttle_count_ = s.throttle_count_ ∧
    (StartJobLoop env q s).disable_throttling_ = s.disable_throttling_ ∧
    (StartJobLoop env q s).tasks = s.tasks := by
  unfold StartJobLoop
  split
  · exact DoJobLoop_throttle env q s
  · exact ⟨rfl, rfl, rfl⟩

theorem OnJobDone_throttled (rand : Int) (e : QueueEntry) (s : DriveScheduler) :
    (OnJobDone rand e .DRIVE_FILE_ERROR_THROTTLED s).2 = none ∧
    (OnJobDone rand e .DRIVE_FILE_ERROR_THROTTLED s).1.throttle_count_ = bump s.throttle_count_ ∧
    (OnJobDone rand e .DRIVE_FILE_ERROR_THROTTLED s).1.disable_throttling_ =
      s.disable_throttling_ ∧
    (OnJobDone rand e .DRIVE_FILE_ERROR_THROTTLED s).1.tasks = s.tasks ++
      [Task.DoJobLoop (GetJobQueueType e.job_info.job_type)
        (throttleDelay s.disable_throttling_ (bump s.throttle_count_) rand)] := by
  simp only [OnJobDone, if_true, ThrottleAndContinueJobLoop_eq]
  exact ⟨trivial, rfl, rfl, rfl⟩

theorem OnJobDone_other (rand : Int) (e : QueueEntry) (error : DriveFileError)
    (s : DriveScheduler) (h : error ≠ .DRIVE_FILE_ERROR_THROTTLED) :
    (OnJobDone rand e error s).2 = some e ∧
    (OnJobDone rand e error s).1.throttle_count_ = 0 ∧
    (OnJobDone rand e error s).1.disable_throttling_ = s.disable_throttling_ ∧
    (OnJobDone rand e error s).1.tasks = s.tasks ++
      [Task.DoJobLoop (GetJobQueueType e.job_info.job_type) 0] := by
  simp only [OnJobDone, if_neg h]
  exact ⟨trivial, rfl, rfl, rfl⟩

theorem deliver_throttle (h : Handler) (j : QueueEntry) (error : Int) (payload : Nat)
    (s : DriveScheduler) :
    (deliver h j error payload s).throttle_count_ = s.throttle_count_ ∧
    (deliver h j error payload s).disable_throttling_ = s.disable_throttling_ := by
  unfold deliver; split <;> exact ⟨rfl, rfl⟩

/-- A throttled completion: the handler returns right after `OnJobDone`. -/
theorem runHandler_throttled (u : Util) (rand : Int) (h : Handler) (e : QueueEntry)
    (error : Int) (payload : Nat) (s : DriveScheduler)
    (hc : convertedError u h error = .DRIVE_FILE_ERROR_THROTTLED) :
    runHandler u rand h e error payload s =
      (OnJobDone rand e .DRIVE_FILE_ERROR_THROTTLED s).1 := by
  rw [runHandler_eq, hc, (OnJobDone_throttled rand e s).1]

/-- Any other completion: the handler hands the entry that `OnJobDone`
returns to the caller's callback. -/
theorem runHandler_other (u : Util) (rand : Int) (h : Handler) (e : QueueEntry)
    (error : Int) (payload : Nat) (s : DriveScheduler)
    (hc : convertedError u h error ≠ .DRIVE_FILE_ERROR_THROTTLED) :
    runHandler u rand h e error payload s =
      deliver h e error payload (OnJobDone rand e (convertedError u h error) s).1 := by
  rw [runHandler_eq, (OnJobDone_other rand e _ s hc).1]

theorem step_disable_throttling (u : Util) (env : Env) (ev : Event) (s : DriveScheduler) :
    (step u env ev s).disable_throttling_ = s.disable_throttling_ := by
  cases ev with
  | Submit job_type context params =>
    simp only [step, callEntryPoint_eq]
    exact (StartJobLoop_throttle _ _ _).2.1
  | ConnectionTypeChanged =>
    simp only [step, OnConnectionTypeChanged]
    split
    · rw [(StartJobLoop_throttle _ _ _).2.1, (StartJobLoop_throttle _ _ _).2.1]
    · rfl
  | Completion i error payload rand =>
    simp only [step]
    split
    · rfl
    · rename_i h e _
      by_cases hc : convertedError u h error = .DRIVE_FILE_ERROR_THROTTLED
      · rw [runHandler_throttled u rand h e error payload _ hc]
        exact (OnJobDone_throttled rand e _).2.2.1
      · rw [runHandler_other u rand h e error payload _ hc, (deliver_throttle _ _ _ _ _).2]
        exact (OnJobDone_other rand e _ _ hc).2.2.1
  | RunTask i =>
    simp only [step]
    split
    · rfl
    · rename_i t _
      cases t with
      | DoJobLoop q d => exact (DoJobLoop_throttle env q _).2.1
      | RunCallback e err p => rfl

/-- How one event moves the throttle counter. -/
theorem step_throttle_count (u : Util) (env : Env) (ev : Event) (s : DriveScheduler) :
    (step u env ev s).throttle_count_ =
      match completionKind u s ev with
      | none => s.throttle_count_
      | some true => bump s.throttle_count_
      | some false => 0 := by
  cases ev with
  | Submit job_type context params =>
    simp only [step, callEntryPoint_eq, completionKind]
    exact (StartJobLoop_throttle _ _ _).1
  | ConnectionTypeChanged =>
    simp only [step, OnConnectionTypeChanged, completionKind]
    split
    · rw [(StartJobLoop_throttle _ _ _).1, (StartJobLoop_throttle _ _ _).1]
    · rfl
  | Completion i error payload rand =>
    simp only [step, completionKind]
    cases hi : s.in_flight.get? i with
    | none => rfl
    | some he =>
      obtain ⟨h, e⟩ := he
      simp only
      by_cases hc : convertedError u h error = .DRIVE_FILE_ERROR_THROTTLED
      · rw [runHandler_throttled u rand h e error payload _ hc]
        simp only [hc, decide_True]
        exact (OnJobDone_throttled rand e _).2.1
      · rw [runHandler_other u rand h e error payload _ hc, (deliver_throttle _ _ _ _ _).1]
        simp only [hc, decide_False]
        exact (OnJobDone_other rand e _ _ hc).2.1
  | RunTask i =>
    simp only [step, completionKind]
    split
    · rfl
    · rename_i t _
      cases t with
      | DoJobLoop q d => exact (DoJobLoop_throttle env q _).1
      | RunCallback e err p => rfl

/-- What a throttled completion posts: nothing but the delayed `DoJobLoop`. -/
theorem step_throttled_tasks (u : Util) (env : Env) (i : Nat) (error : Int) (payload : Nat)
    (rand : Int) (s : DriveScheduler)
    (hk : completionKind u s (.Completion i error payload rand) = some true) :
    ∃ h e, s.in_flight.get? i = some (h, e) ∧
      (step u env (.Completion i error payload rand) s).tasks = s.tasks ++
        [Task.DoJobLoop (GetJobQueueType e.job_info.job_type)
          (throttleDelay s.disable_throttling_ (bump s.throttle_count_) rand)] := by
  simp only [completionKind] at hk
  cases hi : s.in_flight.get? i with
  | none => rw [hi] at hk; simp at hk
  | some he =>
    obtain ⟨h, e⟩ := he
    rw [hi] at hk
    simp only [Option.some.injEq, decide_eq_true_eq] at hk
    refine ⟨h, e, rfl, ?_⟩
    simp only [step, hi]
    rw [runHandler_throttled u rand h e error payload _ hk]
    exact (OnJobDone_throttled rand e _).2.2.2

theorem run_disable_throttling (u : Util) (evs : List (Env × Event)) (s : DriveScheduler) :
    (run u evs s).disable_throttling_ = s.disable_throttling_ := by
  induction evs generalizing s with
  | nil => rfl
  | cons ev evs ih =>
    obtain ⟨env, ev⟩ := ev
    simp only [run]
    rw [ih, step_disable_throttling]

theorem bump_nat (c : Nat) (hc : c ≤ 5) : bump (c : Int) = ((min (c + 1) 5 : Nat) : Int) := by
  unfold bump kMaxThrottleCount
  split <;> omega

/-- With no other completion in between, the counter is the number of
throttled completions, capped at 5. -/
theorem run_throttle_count (u : Util) (evs : List (Env × Event)) (s : DriveScheduler)
    (c : Nat) (hc : c ≤ 5) (hs : s.throttle_count_ = (c : Int))
    (hno : noOtherCompletion u evs s) :
    (run u evs s).throttle_count_ = ((min (c + throttledCompletions u evs s) 5 : Nat) : Int) := by
  induction evs generalizing s c with
  | nil => simp [run, throttledCompletions, hs, hc]
  | cons ev evs ih =>
    obtain ⟨env, ev⟩ := ev
    simp only [run, throttledCompletions]
    obtain ⟨h1, h2⟩ := hno
    have hstep := step_throttle_count u env ev s
    cases hk : completionKind u s ev with
    | none =>
      rw [hk] at hstep
      simp only at hstep
      rw [ih (step u env ev s) c hc (by rw [hstep, hs]) h2]
      simp
    | some b =>
      cases b with
      | false => exact absurd hk h1
      | true =>
        rw [hk] at hstep
        simp only at hstep
        rw [hs, bump_nat c hc] at hstep
        rw [ih (step u env ev s) (min (c + 1) 5) (by omega) hstep h2]
        simp only [if_true]
        congr 1
        omega


/-! ### C8, C9, C10: the backoff delay -/

theorem FromSeconds_pow2_nat (n : Nat) (hn : 1 ≤ n) :
    FromSeconds_pow2 ((n : Int) - 1) = ((2 ^ (n - 1) : Nat) : Int) := by
  unfold FromSeconds_pow2
  have h : ¬ ((n : Int) - 1 < 0) := by omega
  rw [if_neg h]
  have : ((n : Int) - 1).toNat = n - 1 := by omega
  rw [this]
  push_cast
  rfl

theorem throttleDelay_enabled (n : Nat) (hn : 1 ≤ n) (rand : Int) :
    throttleDelay false (n : Int) rand = 1000 * ((2 ^ (n - 1) : Nat) : Int) + rand := by
  unfold throttleDelay
  simp [FromSeconds_pow2_nat n hn]

/-- C8 as stated fails at the upper bound of the random source: the call is
`RandInt(0, 1000)`, which can return 1000. On a fresh scheduler (counter 0,
throttling not disabled) the counter becomes 1 and the task is posted with
`1000 * 2^0 + 1000 = 2000` milliseconds, which is not inside the half-open
interval `[1000, 2000)`. -/
theorem throttle_delay_reaches_excluded_end_point :
    RandInt_returns 0 1000 1000 ∧
    DriveScheduler.new.disable_throttling_ = false ∧
    (ThrottleAndContinueJobLoop 1000 .FILE_QUEUE DriveScheduler.new).throttle_count_ = 1 ∧
    (ThrottleAndContinueJobLoop 1000 .FILE_QUEUE DriveScheduler.new).tasks =
      [Task.DoJobLoop .FILE_QUEUE 2000] ∧
    ¬ ((2000 : Int) < 1000 * 2 ^ (1 - 1) + 1000) :=
  ⟨⟨by decide, by decide⟩, rfl, by decide, by decide, by decide⟩

/-- C8, amended to the closed interval. With throttling not disabled and the
counter at `c` (between 0 and 5, as in every reachable state),
`ThrottleAndContinueJobLoop` sets the counter to `min (c + 1) 5` and posts one
`DoJobLoop` task whose delay is `2^(count - 1)` seconds plus the jitter: for
every jitter `rand` that `RandInt(0, 1000)` can return, the delay in
milliseconds is `1000 * 2^(count-1) + rand` and lies in the closed interval
`[1000 * 2^(count-1), 1000 * 2^(count-1) + 1000]`. -/
theorem ThrottleAndContinueJobLoop_backoff (s : DriveScheduler) (queue_type : QueueType)
    (rand : Int) (c : Nat)
    (hflag : s.disable_throttling_ = false)
    (hcount : s.throttle_count_ = (c : Int)) (hc : c ≤ 5)
    (hrand : RandInt_returns 0 1000 rand) :
    (ThrottleAndContinueJobLoop rand queue_type s).throttle_count_ =
      ((min (c + 1) 5 : Nat) : Int) ∧
    (ThrottleAndContinueJobLoop rand queue_type s).tasks = s.tasks ++
      [Task.DoJobLoop queue_type (1000 * ((2 ^ (min (c + 1) 5 - 1) : Nat) : Int) + rand)] ∧
    (∀ d, Task.DoJobLoop queue_type d ∈
        (ThrottleAndContinueJobLoop rand queue_type s).tasks.drop s.tasks.length →
      1000 * ((2 ^ (min (c + 1) 5 - 1) : Nat) : Int) ≤ d ∧
      d ≤ 1000 * ((2 ^ (min (c + 1) 5 - 1) : Nat) : Int) + 1000) := by
  obtain ⟨hr0, hr1⟩ := hrand
  rw [ThrottleAndContinueJobLoop_eq]
  simp only [hflag, hcount, bump_nat c hc]
  rw [throttleDelay_enabled _ (by omega)]
  refine ⟨trivial, rfl, ?_⟩
  intro d hd
  rw [List.drop_left] at hd
  have hd2 : d = 1000 * ((2 ^ (min (c + 1) 5 - 1) : Nat) : Int) + rand := by
    have := List.mem_singleton.mp hd
    injection this
  rw [hd2]
  constructor <;> omega

/-- C8 (amended) at both ends of the jitter, on a scheduler whose counter
already stands at 5: the counter stays at 5 and the task is posted with 16000
milliseconds for jitter 0 and with 17000 milliseconds for jitter 1000. -/
theorem ThrottleAndContinueJobLoop_backoff_witness :
    RandInt_returns 0 1000 0 ∧ RandInt_returns 0 1000 1000 ∧
    atMaxThrottle.disable_throttling_ = false ∧ atMaxThrottle.throttle_count_ = 5 ∧
    (ThrottleAndContinueJobLoop 0 .FILE_QUEUE atMaxThrottle).throttle_count_ = 5 ∧
    (ThrottleAndContinueJobLoop 0 .FILE_QUEUE atMaxThrottle).tasks =
      atMaxThrottle.tasks ++ [Task.DoJobLoop .FILE_QUEUE 16000] ∧
    (ThrottleAndContinueJobLoop 1000 .FILE_QUEUE atMaxThrottle).tasks =
      atMaxThrottle.tasks ++ [Task.DoJobLoop .FILE_QUEUE 17000] :=
  ⟨⟨by decide, by decide⟩, ⟨by decide, by decide⟩, rfl, by decide,
   (ThrottleAndContinueJobLoop_backoff atMaxThrottle .FILE_QUEUE 0 5 rfl (by decide)
      (by decide) ⟨by decide, by decide⟩).1,
   (ThrottleAndContinueJobLoop_backoff atMaxThrottle .FILE_QUEUE 0 5 rfl (by decide)
      (by decide) ⟨by decide, by decide⟩).2.1,
   (ThrottleAndContinueJobLoop_backoff atMaxThrottle .FILE_QUEUE 1000 5 rfl (by decide)
      (by decide) ⟨by decide, by decide⟩).2.1⟩

theorem backoffSeconds_mono (n m : Nat) (h : n ≤ m) : backoffSeconds n ≤ backoffSeconds m := by
  unfold backoffSeconds
  apply Nat.pow_le_pow_right (by decide)
  omega

theorem backoffSeconds_plateau (n : Nat) (h : 5 ≤ n) : backoffSeconds n = 16 := by
  unfold backoffSeconds
  have : min n 5 = 5 := by omega
  rw [this]
  rfl

/-- C9 as stated fails when `disable_throttling_` is set: starting from
`throttle_count_ = 0`, the first throttled completion increments the counter
to 1 but posts `DoJobLoop` with delay 0, not with the `2^(min(1,5) - 1)` = 1
second of the claim. -/
theorem first_throttle_delay_zero_when_throttling_disabled :
    throttlingDisabled.throttle_count_ = 0 ∧
    (run sampleUtil oneThrottledTrace throttlingDisabled).throttle_count_ = 1 ∧
    (run sampleUtil oneThrottledTrace throttlingDisabled).tasks =
      [Task.DoJobLoop .FILE_QUEUE 0] ∧
    ¬ ((run sampleUtil oneThrottledTrace throttlingDisabled).tasks =
      [Task.DoJobLoop .FILE_QUEUE (1000 * (backoffSeconds 1 : Int) + 0)]) := by
  decide

/-- C9, amended with "when throttling is not disabled". Start from
`throttle_count_ = 0` and run any events among which no job completes with a
result other than the throttled error. The next throttled completion, the
`n`-th in a row, posts exactly one `DoJobLoop` task for the queue of the job,
delayed by `2^(min(n,5) - 1)` seconds plus the jitter, and leaves the counter
at `min(n,5)`. That delay is non-decreasing in `n` and is 16 seconds for every
`n >= 5`. -/
theorem nth_consecutive_throttle_delay (u : Util) (s0 : DriveScheduler)
    (evs : List (Env × Event)) (env : Env) (i : Nat) (error : Int) (payload : Nat)
    (rand : Int)
    (h0 : s0.throttle_count_ = 0) (hflag : s0.disable_throttling_ = false)
    (hno : noOtherCompletion u evs s0)
    (hk : completionKind u (run u evs s0) (.Completion i error payload rand) = some true) :
    (∃ h e, (run u evs s0).in_flight.get? i = some (h, e) ∧
      (step u env (.Completion i error payload rand) (run u evs s0)).tasks =
        (run u evs s0).tasks ++
          [Task.DoJobLoop (GetJobQueueType e.job_info.job_type)
            (1000 * (backoffSeconds (throttledCompletions u evs s0 + 1) : Int) + rand)]) ∧
    (step u env (.Completion i error payload rand) (run u evs s0)).throttle_count_ =
      ((min (throttledCompletions u evs s0 + 1) 5 : Nat) : Int) ∧
    (∀ n m : Nat, n ≤ m → backoffSeconds n ≤ backoffSeconds m) ∧
    (∀ n : Nat, 5 ≤ n → backoffSeconds n = 16) := by
  have hcount := run_throttle_count u evs s0 0 (by decide) (by simpa using h0) hno
  simp only [Nat.zero_add] at hcount
  have hfl := run_disable_throttling u evs s0
  rw [hflag] at hfl
  have hb : bump (run u evs s0).throttle_count_ =
      ((min (throttledCompletions u evs s0 + 1) 5 : Nat) : Int) := by
    rw [hcount, bump_nat _ (by omega)]
    congr 1
    omega
  refine ⟨?_, ?_, backoffSeconds_mono, backoffSeconds_plateau⟩
  · obtain ⟨h, e, hi, ht⟩ := step_throttled_tasks u env i error payload rand _ hk
    refine ⟨h, e, hi, ?_⟩
    rw [ht, hfl, hb, throttleDelay_enabled _ (by omega)]
    rfl
  · rw [step_throttle_count, hk]
    exact hb

/-- C9 (amended) at a concrete run: on a fresh scheduler a download is
started and throttled; its first throttled completion posts `DoJobLoop` with
1 second plus the jitter (here 7 ms). -/
theorem nth_consecutive_throttle_delay_witness :
    DriveScheduler.new.throttle_count_ = 0 ∧
    (step sampleUtil envOnline (.Completion 0 503 0 7)
        (run sampleUtil [(envOnline, .Submit .TYPE_DOWNLOAD_FILE ctxUser 1)]
          DriveScheduler.new)).throttle_count_ = 1 ∧
    ∃ h e,
      (run sampleUtil [(envOnline, .Submit .TYPE_DOWNLOAD_FILE ctxUser 1)]
        DriveScheduler.new).in_flight.get? 0 = some (h, e) ∧
      (step sampleUtil envOnline (.Completion 0 503 0 7)
          (run sampleUtil [(envOnline, .Submit .TYPE_DOWNLOAD_FILE ctxUser 1)]
            DriveScheduler.new)).tasks =
        (run sampleUtil [(envOnline, .Submit .TYPE_DOWNLOAD_FILE ctxUser 1)]
          DriveScheduler.new).tasks ++
          [Task.DoJobLoop (GetJobQueueType e.job_info.job_type) (1000 * (1 : Int) + 7)] :=
  have h := nth_consecutive_throttle_delay sampleUtil DriveScheduler.new
    [(envOnline, .Submit .TYPE_DOWNLOAD_FILE ctxUser 1)] envOnline 0 503 0 7 rfl rfl
    ⟨by decide, trivial⟩ (by decide)
  ⟨rfl, h.2.1, h.1⟩

theorem run_throttle_count_zero (u : Util) (evs : List (Env × Event)) (s : DriveScheduler)
    (hs : s.throttle_count_ = 0) (hno : throttledCompletions u evs s = 0) :
    (run u evs s).throttle_count_ = 0 := by
  induction evs generalizing s with
  | nil => exact hs
  | cons ev evs ih =>
    obtain ⟨env, ev⟩ := ev
    simp only [run]
    simp only [throttledCompletions] at hno
    have hstep := step_throttle_count u env ev s
    cases hk : completionKind u s ev with
    | none =>
      rw [hk] at hstep
      exact ih _ (by rw [hstep]; exact hs) (by omega)
    | some b =>
      cases b with
      | false =>
        rw [hk] at hstep
        exact ih _ hstep (by omega)
      | true =>
        rw [hk] at hno
        simp at hno

/-- C10 as stated fails when `disable_throttling_` is set: after a download
has completed successfully (the counter is 0), the next throttled completion
posts `DoJobLoop` with delay 0, not with the 1 second of the claim. -/
theorem throttle_after_reset_delay_zero_when_throttling_disabled :
    (run sampleUtil oneSuccessTrace throttlingDisabled).throttle_count_ = 0 ∧
    (run sampleUtil oneSuccessTrace throttlingDisabled).tasks = [Task.DoJobLoop .FILE_QUEUE 0] ∧
    (step sampleUtil envOnline (.Completion 0 503 0 0)
        (run sampleUtil oneSuccessTrace throttlingDisabled)).tasks =
      [Task.DoJobLoop .FILE_QUEUE 0, Task.DoJobLoop .FILE_QUEUE 0] ∧
    ¬ ((step sampleUtil envOnline (.Completion 0 503 0 0)
        (run sampleUtil oneSuccessTrace throttlingDisabled)).tasks =
      [Task.DoJobLoop .FILE_QUEUE 0, Task.DoJobLoop .FILE_QUEUE (1000 + 0)]) := by
  decide

/-- C10, amended with "when throttling is not disabled". The completion of a
job in flight whose converted error is not `DRIVE_FILE_ERROR_THROTTLED` sets
`throttle_count_` to 0, whatever it was; and when throttling is not disabled,
the next throttled completion after it (any events in between, none of them a
throttled completion) posts exactly one `DoJobLoop` task delayed by 1 second
plus the jitter, and leaves the counter at 1. -/
theorem non_throttled_completion_resets_backoff (u : Util) (s : DriveScheduler) (env0 : Env)
    (i0 : Nat) (error0 : Int) (payload0 : Nat) (rand0 : Int)
    (hk0 : completionKind u s (.Completion i0 error0 payload0 rand0) = some false) :
    (step u env0 (.Completion i0 error0 payload0 rand0) s).throttle_count_ = 0 ∧
    ∀ (evs : List (Env × Event)) (env1 : Env) (i1 : Nat) (error1 : Int) (payload1 : Nat)
      (rand1 : Int),
      s.disable_throttling_ = false →
      throttledCompletions u evs (step u env0 (.Completion i0 error0 payload0 rand0) s) = 0 →
      completionKind u (run u evs (step u env0 (.Completion i0 error0 payload0 rand0) s))
        (.Completion i1 error1 payload1 rand1) = some true →
      (∃ h e,
        (run u evs (step u env0 (.Completion i0 error0 payload0 rand0) s)).in_flight.get? i1 =
          some (h, e) ∧
        (step u env1 (.Completion i1 error1 payload1 rand1)
            (run u evs (step u env0 (.Completion i0 error0 payload0 rand0) s))).tasks =
          (run u evs (step u env0 (.Completion i0 error0 payload0 rand0) s)).tasks ++
            [Task.DoJobLoop (GetJobQueueType e.job_info.job_type) (1000 + rand1)]) ∧
      (step u env1 (.Completion i1 error1 payload1 rand1)
          (run u evs (step u env0 (.Completion i0 error0 payload0 rand0) s))).throttle_count_ =
        1 := by
  have hz : (step u env0 (.Completion i0 error0 payload0 rand0) s).throttle_count_ = 0 := by
    rw [step_throttle_count, hk0]
  refine ⟨hz, ?_⟩
  intro evs env1 i1 error1 payload1 rand1 hflag hno hk1
  have hcount := run_throttle_count_zero u evs _ hz hno
  have hfl : (run u evs (step u env0 (.Completion i0 error0 payload0 rand0) s)).disable_throttling_
      = false := by
    rw [run_disable_throttling, step_disable_throttling, hflag]
  constructor
  · obtain ⟨h, e, hi, ht⟩ := step_throttled_tasks u env1 i1 error1 payload1 rand1 _ hk1
    refine ⟨h, e, hi, ?_⟩
    rw [ht, hfl, hcount]
    rfl
  · rw [step_throttle_count, hk1]
    simp only [hcount]
    rfl


/-- C10 (amended) at a concrete run: the counter stands at 1 after a throttled
download; the retried download succeeds, which resets the counter to 0. -/
theorem non_throttled_completion_resets_backoff_witness :
    retriedDownload.throttle_count_ = 1 ∧
    completionKind sampleUtil retriedDownload (.Completion 0 200 0 0) = some false ∧
    (step sampleUtil envOnline (.Completion 0 200 0 0) retriedDownload).throttle_count_ = 0 :=
  ⟨by decide, by decide,
   (non_throttled_completion_resets_backoff sampleUtil retriedDownload envOnline 0 200 0 0
      (by decide)).1⟩


/-! ### The range of the throttle counter -/

theorem bump_range (c : Int) (h : 0 ≤ c ∧ c ≤ 5) : 0 ≤ bump c ∧ bump c ≤ 5 := by
  unfold bump kMaxThrottleCount
  split <;> omega

/-- Events keep the throttle counter between 0 and `kMaxThrottleCount`. -/
theorem run_throttle_count_range (u : Util) (evs : List (Env × Event)) (s : DriveScheduler)
    (hs : 0 ≤ s.throttle_count_ ∧ s.throttle_count_ ≤ 5) :
    0 ≤ (run u evs s).throttle_count_ ∧ (run u evs s).throttle_count_ ≤ 5 := by
  induction evs generalizing s with
  | nil => exact hs
  | cons ev evs ih =>
    obtain ⟨env, ev⟩ := ev
    simp only [run]
    apply ih
    rw [step_throttle_count]
    rcases completionKind u s ev with _ | b
    · exact hs
    · cases b
      · simp
      · exact bump_range _ hs

/-- In every state reachable from the freshly constructed scheduler the
throttle counter lies between 0 and `kMaxThrottleCount`. -/
theorem throttle_count_range_of_Reachable (u : Util) (s : DriveScheduler)
    (h : Reachable u s) : 0 ≤ s.throttle_count_ ∧ s.throttle_count_ ≤ 5 := by
  obtain ⟨evs, rfl⟩ := h
  exact run_throttle_count_range u evs DriveScheduler.new ⟨by decide, by decide⟩

/-! ### C11, C15, C19, C20: what a completion, the bypass flag, `StartJobLoop` and the
connection observer do -/

/-- C11 as stated fails: with the counter at 1 (after one throttled
completion), a not-found completion (404) of the `GetResourceEntry` job in
flight leaves the counter at 0, not at 1. -/
theorem not_found_completion_changes_throttle_count :
    retriedGetResourceEntry.throttle_count_ = 1 ∧
    retriedGetResourceEntry.in_flight =
      [(.OnGetResourceEntryJobDone, (createdEntry .TYPE_GET_RESOURCE_ENTRY ctxUser 1).running)] ∧
    (OnGetResourceEntryJobDone sampleUtil 0
        (createdEntry .TYPE_GET_RESOURCE_ENTRY ctxUser 1).running 404 0
        { retriedGetResourceEntry with in_flight := [] }).throttle_count_ = 0 ∧
    ¬ ((OnGetResourceEntryJobDone sampleUtil 0
        (createdEntry .TYPE_GET_RESOURCE_ENTRY ctxUser 1).running 404 0
        { retriedGetResourceEntry with in_flight := [] }).throttle_count_ =
      retriedGetResourceEntry.throttle_count_) := by
  decide

/-- C11, amended. A completion of a `GetResourceEntry` job whose status does
not convert to `DRIVE_FILE_ERROR_THROTTLED` (not-found is such a status) sets
the throttle counter to 0: for every value of `throttle_count_` before the
completion, `throttle_count_` is 0 after `OnGetResourceEntryJobDone` returns.
So the counter keeps its value exactly when that value was 0. -/
theorem OnGetResourceEntryJobDone_resets_throttle_count (u : Util) (rand : Int)
    (queue_entry : QueueEntry) (error : Int) (payload : Nat) (s : DriveScheduler)
    (h : u.GDataToDriveFileError error ≠ .DRIVE_FILE_ERROR_THROTTLED) :
    (OnGetResourceEntryJobDone u rand queue_entry error payload s).throttle_count_ = 0 ∧
    ((OnGetResourceEntryJobDone u rand queue_entry error payload s).throttle_count_ =
        s.throttle_count_ ↔ s.throttle_count_ = 0) := by
  have h0 : (OnGetResourceEntryJobDone u rand queue_entry error payload s).throttle_count_
      = 0 := by
    have := runHandler_other u rand .OnGetResourceEntryJobDone queue_entry error payload s h
    simp only [runHandler] at this
    rw [this, (deliver_throttle _ _ _ _ _).1]
    exact (OnJobDone_other rand queue_entry _ s h).2.1
  refine ⟨h0, ?_⟩
  rw [h0]
  exact eq_comm

/-- C11 (amended) at the not-found completion of the counterexample. -/
theorem OnGetResourceEntryJobDone_resets_throttle_count_witness :
    sampleUtil.GDataToDriveFileError 404 ≠ .DRIVE_FILE_ERROR_THROTTLED ∧
    (OnGetResourceEntryJobDone sampleUtil 0 (createdEntry .TYPE_GET_RESOURCE_ENTRY ctxUser 1)
      404 0 retriedGetResourceEntry).throttle_count_ = 0 :=
  ⟨by decide,
   (OnGetResourceEntryJobDone_resets_throttle_count sampleUtil 0
      (createdEntry .TYPE_GET_RESOURCE_ENTRY ctxUser 1) 404 0 retriedGetResourceEntry
      (by decide)).1⟩

/-- C15. With `disable_throttling_` set, `ThrottleAndContinueJobLoop` posts
`DoJobLoop` with delay exactly 0, for every value of `throttle_count_` and
every jitter `rand`; it posts nothing else. -/
theorem ThrottleAndContinueJobLoop_no_delay_when_disabled (s : DriveScheduler)
    (queue_type : QueueType) (rand : Int) (h : s.disable_throttling_ = true) :
    (ThrottleAndContinueJobLoop rand queue_type s).tasks =
      s.tasks ++ [Task.DoJobLoop queue_type 0] := by
  rw [ThrottleAndContinueJobLoop_eq]
  simp [throttleDelay, h]

/-- C15 on a scheduler with the flag set, counter 0 and jitter 999. -/
theorem ThrottleAndContinueJobLoop_no_delay_when_disabled_witness :
    throttlingDisabled.disable_throttling_ = true ∧
    (ThrottleAndContinueJobLoop 999 .FILE_QUEUE throttlingDisabled).tasks =
      throttlingDisabled.tasks ++ [Task.DoJobLoop .FILE_QUEUE 0] :=
  ⟨rfl, ThrottleAndContinueJobLoop_no_delay_when_disabled throttlingDisabled .FILE_QUEUE 999 rfl⟩

/-- C19. `StartJobLoop(q)` returns the state unchanged when
`jobs_running_[q] >= kMaxJobCount[q]` and is `DoJobLoop(q)` otherwise; the
caps are 5 for `METADATA_QUEUE` and 1 for `FILE_QUEUE`. Hence a submission
made while the queue of the job is at its cap is just `QueueJob`: the job is
inserted, nothing is dispatched, no running count changes. -/
theorem StartJobLoop_cap (env : Env) (queue_type : QueueType) (s : DriveScheduler) :
    (kMaxJobCount queue_type ≤ s.jobs_running_.get queue_type →
      StartJobLoop env queue_type s = s) ∧
    (s.jobs_running_.get queue_type < kMaxJobCount queue_type →
      StartJobLoop env queue_type s = DoJobLoop env queue_type s) ∧
    kMaxJobCount .METADATA_QUEUE = 5 ∧ kMaxJobCount .FILE_QUEUE = 1 ∧
    (∀ (job_type : JobType) (context : DriveClientContext) (params : Nat),
      kMaxJobCount (GetJobQueueType job_type) ≤ s.jobs_running_.get (GetJobQueueType job_type) →
      callEntryPoint env job_type context params s =
          QueueJob (createdEntry job_type context params) s ∧
        (callEntryPoint env job_type context params s).dispatched = s.dispatched ∧
        (callEntryPoint env job_type context params s).in_flight = s.in_flight ∧
        (callEntryPoint env job_type context params s).jobs_running_ = s.jobs_running_) := by
  refine ⟨?_, ?_, rfl, rfl, ?_⟩
  · intro h
    unfold StartJobLoop
    rw [if_neg (by omega)]
  · intro h
    unfold StartJobLoop
    rw [if_pos h]
  · intro job_type context params h
    have he : callEntryPoint env job_type context params s =
        QueueJob (createdEntry job_type context params) s := by
      rw [callEntryPoint_eq]
      unfold StartJobLoop
      rw [if_neg]
      show ¬ (s.jobs_running_.get (GetJobQueueType job_type) < _)
      omega
    rw [he]
    exact ⟨rfl, rfl, rfl, rfl⟩

/-- C20. `OnConnectionTypeChanged` observed while the network is online is
`StartJobLoop(METADATA_QUEUE)` followed by `StartJobLoop(FILE_QUEUE)`;
observed while the network is offline it returns the state unchanged. -/
theorem OnConnectionTypeChanged_effect (env : Env) (s : DriveScheduler) :
    (env.IsOffline = false →
      OnConnectionTypeChanged env s =
        StartJobLoop env .FILE_QUEUE (StartJobLoop env .METADATA_QUEUE s)) ∧
    (env.IsOffline = true →
      OnConnectionTypeChanged env s = s ∧
      (OnConnectionTypeChanged env s).queue_ = s.queue_ ∧
      (OnConnectionTypeChanged env s).jobs_running_ = s.jobs_running_ ∧
      (OnConnectionTypeChanged env s).throttle_count_ = s.throttle_count_) := by
  constructor
  · intro h
    simp [OnConnectionTypeChanged, h]
  · intro h
    have : OnConnectionTypeChanged env s = s := by simp [OnConnectionTypeChanged, h]
    rw [this]
    exact ⟨rfl, rfl, rfl, rfl⟩


/-! ### C12, C13: completions -/

theorem invokedCallback_boundHandler (job_type : JobType) :
    invokedCallback (boundHandler job_type) = storedCallback job_type := by
  cases job_type <;> rfl

theorem DoJobLoop_in_flight (env : Env) (q : QueueType) (s : DriveScheduler) :
    (DoJobLoop env q s).in_flight = s.in_flight ∨
    ∃ front : QueueEntry, (DoJobLoop env q s).in_flight =
      s.in_flight ++ [(boundHandler front.job_info.job_type, front.running)] := by
  rcases DoJobLoop_cases env q s with h | ⟨front, _, _, _, h⟩
  · left; rw [h]
  · right; exact ⟨front, by rw [h]⟩

theorem InFlightBound_DoJobLoop (env : Env) (q : QueueType) (s : DriveScheduler)
    (h : InFlightBound s.in_flight) : InFlightBound (DoJobLoop env q s).in_flight := by
  rcases DoJobLoop_in_flight env q s with h1 | ⟨front, h1⟩
  · rw [h1]; exact h
  · rw [h1]
    intro p hp
    rcases List.mem_append.mp hp with hp | hp
    · exact h p hp
    · simp only [List.mem_singleton] at hp
      rw [hp]; rfl

theorem InFlightBound_StartJobLoop (env : Env) (q : QueueType) (s : DriveScheduler)
    (h : InFlightBound s.in_flight) : InFlightBound (StartJobLoop env q s).in_flight := by
  unfold StartJobLoop
  split
  · exact InFlightBound_DoJobLoop env q s h
  · exact h

theorem OnJobDone_throttled_eq (rand : Int) (e : QueueEntry) (s : DriveScheduler) :
    (OnJobDone rand e .DRIVE_FILE_ERROR_THROTTLED s).1 =
      { s with
        jobs_running_ := s.jobs_running_.set (GetJobQueueType e.job_info.job_type)
          (s.jobs_running_.get (GetJobQueueType e.job_info.job_type) - 1),
        queue_ := pushQueue
          { e with job_info := { e.job_info with state := .STATE_RETRY } } s.queue_,
        throttle_count_ := bump s.throttle_count_,
        tasks := s.tasks ++
          [Task.DoJobLoop (GetJobQueueType e.job_info.job_type)
            (throttleDelay s.disable_throttling_ (bump s.throttle_count_) rand)] } := by
  simp only [OnJobDone, if_true, ThrottleAndContinueJobLoop_eq]
  rfl

theorem OnJobDone_other_eq (rand : Int) (e : QueueEntry) (error : DriveFileError)
    (s : DriveScheduler) (h : error ≠ .DRIVE_FILE_ERROR_THROTTLED) :
    (OnJobDone rand e error s).1 =
      { s with
        jobs_running_ := s.jobs_running_.set (GetJobQueueType e.job_info.job_type)
          (s.jobs_running_.get (GetJobQueueType e.job_info.job_type) - 1),
        throttle_count_ := 0,
        tasks := s.tasks ++ [Task.DoJobLoop (GetJobQueueType e.job_info.job_type) 0] } := by
  simp only [OnJobDone, if_neg h]
  rfl

theorem runHandler_in_flight (u : Util) (rand : Int) (h : Handler) (e : QueueEntry)
    (error : Int) (payload : Nat) (s : DriveScheduler) :
    (runHandler u rand h e error payload s).in_flight = s.in_flight := by
  by_cases hc : convertedError u h error = .DRIVE_FILE_ERROR_THROTTLED
  · rw [runHandler_throttled u rand h e error payload s hc, OnJobDone_throttled_eq]
  · rw [runHandler_other u rand h e error payload s hc, OnJobDone_other_eq _ _ _ _ hc]
    unfold deliver
    split <;> rfl

theorem InFlightBound_eraseIdx (l : List (Handler × QueueEntry)) (i : Nat)
    (h : InFlightBound l) : InFlightBound (l.eraseIdx i) :=
  fun p hp => h p (List.mem_of_mem_eraseIdx hp)

theorem InFlightBound_step (u : Util) (env : Env) (ev : Event) (s : DriveScheduler)
    (h : InFlightBound s.in_flight) : InFlightBound (step u env ev s).in_flight := by
  cases ev with
  | Submit job_type context params =>
    simp only [step, callEntryPoint_eq]
    exact InFlightBound_StartJobLoop _ _ _ h
  | ConnectionTypeChanged =>
    simp only [step, OnConnectionTypeChanged]
    split
    · exact InFlightBound_StartJobLoop _ _ _ (InFlightBound_StartJobLoop _ _ _ h)
    · exact h
  | Completion i error payload rand =>
    simp only [step]
    split
    · exact h
    · rw [runHandler_in_flight]
      exact InFlightBound_eraseIdx _ i h
  | RunTask i =>
    simp only [step]
    split
    · exact h
    · rename_i t _
      cases t with
      | DoJobLoop q d => exact InFlightBound_DoJobLoop env q _ h
      | RunCallback e err p => exact h

theorem InFlightBound_of_Reachable (u : Util) (s : DriveScheduler) (h : Reachable u s) :
    InFlightBound s.in_flight := by
  obtain ⟨evs, rfl⟩ := h
  have key : ∀ (evs : List (Env × Event)) (s : DriveScheduler),
      InFlightBound s.in_flight → InFlightBound (run u evs s).in_flight := by
    intro evs
    induction evs with
    | nil => intro s hs; exact hs
    | cons ev evs ih =>
      intro s hs
      obtain ⟨env, ev⟩ := ev
      exact ih _ (InFlightBound_step u env ev s hs)
  exact key evs _ (fun p hp => by simp [DriveScheduler.new] at hp)

/-- C12. In a reachable state, let the call of the job in flight `e` report
`error` and `payload`, where `error` does not convert to
`DRIVE_FILE_ERROR_THROTTLED`. Then no queue changes (the job is not put back)
and the call leaves the set of calls in flight. The callback that is run is
the member the entry point of the job's type stored. It receives exactly
`error` and `payload` (the reported code, not the converted `DriveFileError`),
once: the handlers that run the callback directly add one run to the history
of callback runs and post only the `DoJobLoop` task; the two resource handlers
post, besides that task, one task that performs exactly that one run. -/
theorem non_throttled_completion_runs_callback_once (u : Util) (env : Env)
    (s : DriveScheduler) (i : Nat) (error : Int) (payload : Nat) (rand : Int)
    (hs : Reachable u s)
    (hk : completionKind u s (.Completion i error payload rand) = some false) :
    ∃ h e, s.in_flight.get? i = some (h, e) ∧
      (step u env (.Completion i error payload rand) s).queue_ = s.queue_ ∧
      (step u env (.Completion i error payload rand) s).in_flight = s.in_flight.eraseIdx i ∧
      invokedCallback h = storedCallback e.job_info.job_type ∧
      (postsCallback h = false →
        (step u env (.Completion i error payload rand) s).callbacks_run =
          s.callbacks_run ++ [(e, error, payload)] ∧
        (step u env (.Completion i error payload rand) s).tasks =
          s.tasks ++ [Task.DoJobLoop (GetJobQueueType e.job_info.job_type) 0]) ∧
      (postsCallback h = true →
        (step u env (.Completion i error payload rand) s).callbacks_run = s.callbacks_run ∧
        (step u env (.Completion i error payload rand) s).tasks =
          s.tasks ++ [Task.DoJobLoop (GetJobQueueType e.job_info.job_type) 0,
            Task.RunCallback e error payload] ∧
        ∀ (env1 : Env) (s1 : DriveScheduler),
          runTask env1 (Task.RunCallback e error payload) s1 =
            { s1 with callbacks_run := s1.callbacks_run ++ [(e, error, payload)] }) := by
  simp only [completionKind] at hk
  cases hi : s.in_flight.get? i with
  | none => rw [hi] at hk; simp at hk
  | some he =>
    obtain ⟨h, e⟩ := he
    rw [hi] at hk
    simp only [Option.some.injEq, decide_eq_false_iff_not] at hk
    have hb : h = boundHandler e.job_info.job_type :=
      InFlightBound_of_Reachable u s hs (h, e) (List.get?_mem hi)
    have hstep : step u env (.Completion i error payload rand) s =
        deliver h e error payload
          (OnJobDone rand e (convertedError u h error)
            { s with in_flight := s.in_flight.eraseIdx i }).1 := by
      simp only [step, hi]
      exact runHandler_other u rand h e error payload _ hk
    rw [hstep, OnJobDone_other_eq _ _ _ _ hk]
    refine ⟨h, e, rfl, ?_, ?_, ?_, ?_, ?_⟩
    · unfold deliver; split <;> rfl
    · unfold deliver; split <;> rfl
    · rw [hb]; exact invokedCallback_boundHandler _
    · intro hp
      simp only [deliver, hp]
      exact ⟨rfl, rfl⟩
    · intro hp
      simp only [deliver, hp, if_true]
      refine ⟨trivial, by simp, fun _ _ => rfl⟩

/-- C12 on concrete completions: a download (callback run directly) and a
`GetResourceEntry` job (callback posted) each report not-found (404). -/
theorem non_throttled_completion_runs_callback_once_witness :
    Reachable sampleUtil downloadInFlight ∧
    completionKind sampleUtil downloadInFlight (.Completion 0 404 7 0) = some false ∧
    (step sampleUtil envOnline (.Completion 0 404 7 0) downloadInFlight).callbacks_run =
      [((createdEntry .TYPE_DOWNLOAD_FILE ctxUser 1).running, 404, 7)] ∧
    (step sampleUtil envOnline (.Completion 0 404 7 0) getResourceEntryInFlight).tasks =
      [Task.DoJobLoop .METADATA_QUEUE 0,
       Task.RunCallback (createdEntry .TYPE_GET_RESOURCE_ENTRY ctxUser 1).running 404 7] ∧
    ∃ h e, downloadInFlight.in_flight.get? 0 = some (h, e) ∧
      (step sampleUtil envOnline (.Completion 0 404 7 0) downloadInFlight).queue_ =
        downloadInFlight.queue_ :=
  have h := non_throttled_completion_runs_callback_once sampleUtil envOnline downloadInFlight
    0 404 7 0 ⟨_, rfl⟩ (by decide)
  ⟨⟨_, rfl⟩, by decide, by decide, by decide,
   h.elim fun hh he => he.elim fun e hp => ⟨hh, e, hp.1, hp.2.1⟩⟩

/-- C13. In a reachable state, let the call of the job in flight `e` report a
status that converts to `DRIVE_FILE_ERROR_THROTTLED`. Then no callback is run
or posted (the only task posted is the delayed `DoJobLoop`), nothing is
dispatched, the job gets state `STATE_RETRY` and is put into the queue of its
own job type behind every job queued there of the same or a more urgent
priority class and ahead of the others (old queue `pre ++ post`, new queue
`pre ++ job :: post`), the other queue is untouched, and `jobs_running_` of
the job's queue goes down by exactly one while the other count is untouched. -/
theorem throttled_completion_requeues_job (u : Util) (env : Env)
    (s : DriveScheduler) (i : Nat) (error : Int) (payload : Nat) (rand : Int)
    (hs : Reachable u s)
    (hk : completionKind u s (.Completion i error payload rand) = some true) :
    ∃ h e, s.in_flight.get? i = some (h, e) ∧
      (step u env (.Completion i error payload rand) s).callbacks_run = s.callbacks_run ∧
      (∃ delay, (step u env (.Completion i error payload rand) s).tasks =
        s.tasks ++ [Task.DoJobLoop (GetJobQueueType e.job_info.job_type) delay]) ∧
      (step u env (.Completion i error payload rand) s).dispatched = s.dispatched ∧
      (step u env (.Completion i error payload rand) s).in_flight = s.in_flight.eraseIdx i ∧
      (∃ pre post,
        s.queue_.get (GetJobQueueType e.job_info.job_type) = pre ++ post ∧
        (∀ x ∈ pre, x.context.type.value ≤ e.context.type.value) ∧
        (∀ x ∈ post, e.context.type.value < x.context.type.value) ∧
        (step u env (.Completion i error payload rand) s).queue_.get
            (GetJobQueueType e.job_info.job_type) =
          pre ++ { e with job_info := { e.job_info with state := .STATE_RETRY } } :: post) ∧
      (∀ q, q ≠ GetJobQueueType e.job_info.job_type →
        (step u env (.Completion i error payload rand) s).queue_.get q = s.queue_.get q ∧
        (step u env (.Completion i error payload rand) s).jobs_running_.get q =
          s.jobs_running_.get q) ∧
      (step u env (.Completion i error payload rand) s).jobs_running_.get
          (GetJobQueueType e.job_info.job_type) =
        s.jobs_running_.get (GetJobQueueType e.job_info.job_type) - 1 := by
  simp only [completionKind] at hk
  cases hi : s.in_flight.get? i with
  | none => rw [hi] at hk; simp at hk
  | some he =>
    obtain ⟨h, e⟩ := he
    rw [hi] at hk
    simp only [Option.some.injEq, decide_eq_true_eq] at hk
    have hstep : step u env (.Completion i error payload rand) s =
        (OnJobDone rand e .DRIVE_FILE_ERROR_THROTTLED
          { s with in_flight := s.in_flight.eraseIdx i }).1 := by
      simp only [step, hi]
      exact runHandler_throttled u rand h e error payload _ hk
    rw [hstep, OnJobDone_throttled_eq]
    have hsorted := (WellFormed_of_Reachable u s hs (GetJobQueueType e.job_info.job_type)).1
    obtain ⟨pre, post, h1, h2, h3, h4⟩ := list_sort_append_singleton _
      { e with job_info := { e.job_info with state := .STATE_RETRY } } hsorted
    refine ⟨h, e, rfl, rfl, ⟨_, rfl⟩, rfl, rfl, ⟨pre, post, h1, h2, h3, ?_⟩, ?_, ?_⟩
    · show (pushQueue _ s.queue_).get _ = _
      unfold pushQueue
      rw [QueueArray.get_set_same]
      exact h4
    · intro q hq
      constructor
      · show (pushQueue _ s.queue_).get _ = _
        unfold pushQueue
        rw [QueueArray.get_set, if_neg hq]
      · show (s.jobs_running_.set _ _).get q = _
        rw [QueueArray.get_set, if_neg hq]
    · show (s.jobs_running_.set _ _).get _ = _
      rw [QueueArray.get_set_same]

/-- C13 on a concrete completion: the only download in flight is throttled
(503) and goes back to the empty file queue. -/
theorem throttled_completion_requeues_job_witness :
    Reachable sampleUtil downloadInFlight ∧
    completionKind sampleUtil downloadInFlight (.Completion 0 503 0 0) = some true ∧
    (step sampleUtil envOnline (.Completion 0 503 0 0) downloadInFlight).queue_.get
        .FILE_QUEUE =
      [{ createdEntry .TYPE_DOWNLOAD_FILE ctxUser 1 with
          job_info := { JobInfo.new .TYPE_DOWNLOAD_FILE with state := .STATE_RETRY } }] ∧
    (step sampleUtil envOnline (.Completion 0 503 0 0) downloadInFlight).jobs_running_.get
        .FILE_QUEUE = 0 ∧
    ∃ h e, downloadInFlight.in_flight.get? 0 = some (h, e) ∧
      (step sampleUtil envOnline (.Completion 0 503 0 0) downloadInFlight).callbacks_run =
        downloadInFlight.callbacks_run :=
  have h := throttled_completion_requeues_job sampleUtil envOnline downloadInFlight
    0 503 0 0 ⟨_, rfl⟩ (by decide)
  ⟨⟨_, rfl⟩, by decide, by decide, by decide,
   h.elim fun hh he => he.elim fun e hp => ⟨hh, e, hp.1, hp.2.1⟩⟩


/-! ### C16: a job submitted offline waits for the network -/

theorem ShouldStopJobLoop_offline (env : Env) (q : QueueType) (c : DriveClientContext)
    (h : env.IsOffline = true) : ShouldStopJobLoop env q c = true := by
  unfold ShouldStopJobLoop
  split
  · rfl
  · simp [h]

theorem DoJobLoop_offline (env : Env) (q : QueueType) (s : DriveScheduler)
    (h : env.IsOffline = true) : DoJobLoop env q s = s := by
  cases hq : s.queue_.get q with
  | nil => exact DoJobLoop_nil env q s hq
  | cons front rest =>
    exact DoJobLoop_stop env q s front rest hq (ShouldStopJobLoop_offline env q _ h)

theorem StartJobLoop_offline (env : Env) (q : QueueType) (s : DriveScheduler)
    (h : env.IsOffline = true) : StartJobLoop env q s = s := by
  unfold StartJobLoop
  split
  · exact DoJobLoop_offline env q s h
  · rfl

theorem applyLoopCalls_offline (calls : List (Env × LoopCall)) (s : DriveScheduler)
    (h : ∀ c ∈ calls, c.1.IsOffline = true) : applyLoopCalls calls s = s := by
  induction calls with
  | nil => rfl
  | cons c calls ih =>
    obtain ⟨env, c⟩ := c
    have hc : env.IsOffline = true := h (env, c) (List.mem_cons_self _ _)
    simp only [applyLoopCalls]
    have : c.apply env s = s := by
      cases c with
      | StartJobLoop q => exact StartJobLoop_offline env q s hc
      | DoJobLoop q => exact DoJobLoop_offline env q s hc
      | OnConnectionTypeChanged => simp [LoopCall.apply, drive.OnConnectionTypeChanged, hc]
    rw [this]
    exact ih (fun c' hc' => h c' (List.mem_cons_of_mem _ hc'))

/-- What `StartJobLoop` on one queue leaves alone: the other queue and its
running count; calls in flight and the dispatch history only grow. -/
theorem StartJobLoop_frame (env : Env) (q' : QueueType) (s : DriveScheduler) :
    (∀ q, q ≠ q' → (StartJobLoop env q' s).queue_.get q = s.queue_.get q ∧
      (StartJobLoop env q' s).jobs_running_.get q = s.jobs_running_.get q) ∧
    (∃ L, (StartJobLoop env q' s).dispatched = s.dispatched ++ L) ∧
    (∃ L, (StartJobLoop env q' s).in_flight = s.in_flight ++ L) := by
  have hD : (∀ q, q ≠ q' → (DoJobLoop env q' s).queue_.get q = s.queue_.get q ∧
      (DoJobLoop env q' s).jobs_running_.get q = s.jobs_running_.get q) ∧
      (∃ L, (DoJobLoop env q' s).dispatched = s.dispatched ++ L) ∧
      (∃ L, (DoJobLoop env q' s).in_flight = s.in_flight ++ L) := by
    rcases DoJobLoop_cases env q' s with h | ⟨front, rest, _, _, h⟩
    · rw [h]; exact ⟨fun _ _ => ⟨rfl, rfl⟩, ⟨[], by simp⟩, ⟨[], by simp⟩⟩
    · rw [h]
      refine ⟨fun q hq => ⟨?_, ?_⟩, ⟨_, rfl⟩, ⟨_, rfl⟩⟩
      · show (s.queue_.set q' rest).get q = _
        rw [QueueArray.get_set, if_neg hq]
      · show (s.jobs_running_.set q' _).get q = _
        rw [QueueArray.get_set, if_neg hq]
  unfold StartJobLoop
  split
  · exact hD
  · exact ⟨fun _ _ => ⟨rfl, rfl⟩, ⟨[], by simp⟩, ⟨[], by simp⟩⟩

/-- `StartJobLoop` on an idle queue whose head passes the gate dispatches the
head. -/
theorem StartJobLoop_go (env : Env) (q : QueueType) (s : DriveScheduler)
    (front : QueueEntry) (rest : List QueueEntry) (hq : s.queue_.get q = front :: rest)
    (hg : ShouldStopJobLoop env q front.context = false)
    (hr : s.jobs_running_.get q < kMaxJobCount q) :
    StartJobLoop env q s =
      { s with
        jobs_running_ := s.jobs_running_.set q (s.jobs_running_.get q + 1),
        queue_ := s.queue_.set q rest,
        in_flight := s.in_flight ++ [(boundHandler front.job_info.job_type, front.running)],
        dispatched := s.dispatched ++ [front.running] } := by
  unfold StartJobLoop
  rw [if_pos hr]
  exact DoJobLoop_go env q s front rest hq hg

/-- C16. A job `J` is submitted to an empty, idle queue `q` while the network
is offline (`s0` before, `s1` after). (1) The submission leaves `J` alone in
the queue and starts nothing. (2) Any sequence of `StartJobLoop`, `DoJobLoop`
and `OnConnectionTypeChanged` invocations made while offline leaves the state
as it is. (3) An `OnConnectionTypeChanged` notification observed while online,
with the gate open for `J`, dispatches `J`: its queue is empty again, its
running count is 1, the call for `J` is in flight. -/
theorem offline_job_waits_for_connection (env_off : Env) (s0 s1 : DriveScheduler)
    (job_type : JobType) (context : DriveClientContext) (params : Nat)
    (hoff : env_off.IsOffline = true)
    (hq : s0.queue_.get (GetJobQueueType job_type) = [])
    (hidle : s0.jobs_running_.get (GetJobQueueType job_type) = 0)
    (h1 : s1 = callEntryPoint env_off job_type context params s0) :
    (s1.queue_.get (GetJobQueueType job_type) = [createdEntry job_type context params] ∧
      s1.jobs_running_ = s0.jobs_running_ ∧
      s1.dispatched = s0.dispatched ∧
      s1.in_flight = s0.in_flight) ∧
    (∀ calls : List (Env × LoopCall), (∀ c ∈ calls, c.1.IsOffline = true) →
      applyLoopCalls calls s1 = s1) ∧
    (∀ env_on : Env, env_on.IsOffline = false →
      ShouldStopJobLoop env_on (GetJobQueueType job_type)
        (createdEntry job_type context params).context = false →
      (OnConnectionTypeChanged env_on s1).queue_.get (GetJobQueueType job_type) = [] ∧
      (OnConnectionTypeChanged env_on s1).jobs_running_.get (GetJobQueueType job_type) = 1 ∧
      (boundHandler job_type, (createdEntry job_type context params).running) ∈
        (OnConnectionTypeChanged env_on s1).in_flight ∧
      ∃ pre post, (OnConnectionTypeChanged env_on s1).dispatched =
        s0.dispatched ++ pre ++ (createdEntry job_type context params).running :: post) := by
  have hs1 : s1 = QueueJob (createdEntry job_type context params) s0 := by
    rw [h1, callEntryPoint_eq]
    exact StartJobLoop_offline env_off _ _ hoff
  have hq1 : s1.queue_.get (GetJobQueueType job_type) =
      [createdEntry job_type context params] := by
    rw [hs1]
    show (pushQueue _ s0.queue_).get _ = _
    unfold pushQueue
    have hjt : GetJobQueueType (createdEntry job_type context params).job_info.job_type =
        GetJobQueueType job_type := rfl
    rw [hjt, QueueArray.get_set_same, hq]
    rfl
  have hr1 : s1.jobs_running_ = s0.jobs_running_ := by rw [hs1]; rfl
  have hd1 : s1.dispatched = s0.dispatched := by rw [hs1]; rfl
  have hf1 : s1.in_flight = s0.in_flight := by rw [hs1]; rfl
  refine ⟨⟨hq1, hr1, hd1, hf1⟩, fun calls hc => applyLoopCalls_offline calls s1 hc, ?_⟩
  intro env_on hon hgate
  have hOn : OnConnectionTypeChanged env_on s1 =
      StartJobLoop env_on .FILE_QUEUE (StartJobLoop env_on .METADATA_QUEUE s1) := by
    simp [OnConnectionTypeChanged, hon]
  rw [hOn]
  have hjt : (createdEntry job_type context params).job_info.job_type = job_type := rfl
  cases hqt : GetJobQueueType job_type with
  | METADATA_QUEUE =>
    rw [hqt] at hq1 hgate hidle
    have hgo := StartJobLoop_go env_on .METADATA_QUEUE s1 _ [] hq1 hgate
      (by rw [hr1, hidle]; decide)
    obtain ⟨hfr, ⟨L, hL⟩, ⟨L', hL'⟩⟩ := StartJobLoop_frame env_on .FILE_QUEUE
      (StartJobLoop env_on .METADATA_QUEUE s1)
    have h2 := hfr .METADATA_QUEUE (by decide)
    rw [h2.1, h2.2, hL, hL', hgo]
    refine ⟨?_, ?_, ?_, ⟨[], L, ?_⟩⟩
    · dsimp only
      rw [QueueArray.get_set_same]
    · dsimp only
      rw [QueueArray.get_set_same, hr1, hidle]; rfl
    · rw [hjt]
      exact List.mem_append_left _ (List.mem_append_right _ (List.mem_singleton_self _))
    · show (s1.dispatched ++ [_]) ++ L = _
      rw [hd1]; simp
  | FILE_QUEUE =>
    rw [hqt] at hq1 hgate hidle
    obtain ⟨hfr, ⟨L, hL⟩, ⟨L', hL'⟩⟩ := StartJobLoop_frame env_on .METADATA_QUEUE s1
    have h2 := hfr .FILE_QUEUE (by decide)
    have hgo := StartJobLoop_go env_on .FILE_QUEUE (StartJobLoop env_on .METADATA_QUEUE s1)
      _ [] (by rw [h2.1]; exact hq1) hgate (by rw [h2.2, hr1, hidle]; decide)
    rw [hgo]
    refine ⟨?_, ?_, ?_, ⟨L, [], ?_⟩⟩
    · dsimp only
      rw [QueueArray.get_set_same]
    · dsimp only
      rw [QueueArray.get_set_same, h2.2, hr1, hidle]; rfl
    · rw [hjt]
      exact List.mem_append_right _ (List.mem_singleton_self _)
    · show (StartJobLoop env_on .METADATA_QUEUE s1).dispatched ++ [_] = _
      rw [hL, hd1]

/-- C16 on a fresh scheduler: a download submitted offline is dispatched by
the notification that the network is back. -/
theorem offline_job_waits_for_connection_witness :
    offlineSubmitted.queue_.get .FILE_QUEUE = [createdEntry .TYPE_DOWNLOAD_FILE ctxUser 1] ∧
    applyLoopCalls [(envOffline, .StartJobLoop .FILE_QUEUE), (envOffline, .DoJobLoop .FILE_QUEUE)]
      offlineSubmitted = offlineSubmitted ∧
    (OnConnectionTypeChanged envOnline offlineSubmitted).jobs_running_.get .FILE_QUEUE = 1 ∧
    (OnConnectionTypeChanged envOnline offlineSubmitted).dispatched =
      [(createdEntry .TYPE_DOWNLOAD_FILE ctxUser 1).running] :=
  have h := offline_job_waits_for_connection envOffline DriveScheduler.new offlineSubmitted
    .TYPE_DOWNLOAD_FILE ctxUser 1 rfl rfl rfl rfl
  ⟨h.1.1,
   h.2.1 [(envOffline, .StartJobLoop .FILE_QUEUE), (envOffline, .DoJobLoop .FILE_QUEUE)]
     (by decide),
   (h.2.2 envOnline rfl rfl).2.1, by decide⟩


/-! ### C17, C18: job identifiers, and the queue of a job -/

/-- C17 fails on the code: no job is ever given an identifier. Two downloads
are submitted to a fresh scheduler; both queued entries carry the `job_id` -1
that `JobInfo::JobInfo` sets, and `next_job_id_` still has its initial value
0. The same holds for the entry every entry point creates. -/
theorem job_id_never_assigned :
    (run sampleUtil twoQueuedTrace DriveScheduler.new).queue_.get .FILE_QUEUE =
      [createdEntry .TYPE_DOWNLOAD_FILE ctxUser 2,
       createdEntry .TYPE_DOWNLOAD_FILE ctxBackground 1] ∧
    (createdEntry .TYPE_DOWNLOAD_FILE ctxUser 2).job_info.job_id = -1 ∧
    (createdEntry .TYPE_DOWNLOAD_FILE ctxBackground 1).job_info.job_id = -1 ∧
    ¬ ((createdEntry .TYPE_DOWNLOAD_FILE ctxBackground 1).job_info.job_id <
        (createdEntry .TYPE_DOWNLOAD_FILE ctxUser 2).job_info.job_id) ∧
    (run sampleUtil twoQueuedTrace DriveScheduler.new).next_job_id_ = 0 ∧
    (∀ (job_type : JobType) (context : DriveClientContext) (params : Nat),
      (createdEntry job_type context params).job_info.job_id = -1) :=
  ⟨by decide, by decide, by decide, by decide, by decide, fun _ _ _ => rfl⟩

theorem mem_allJobTypes (job_type : JobType) : job_type ∈ allJobTypes := by
  cases job_type <;> decide

theorem mem_pushQueue (job : QueueEntry) (qs : QueueArray (List QueueEntry)) :
    job ∈ (pushQueue job qs).get (GetJobQueueType job.job_info.job_type) := by
  unfold pushQueue
  rw [QueueArray.get_set_same]
  exact (List.Perm.mem_iff (list_sort_perm _ _)).mpr (List.mem_append_right _ (List.mem_singleton_self _))

/-- C18. `GetJobQueueType` maps exactly `TYPE_DOWNLOAD_FILE`,
`TYPE_UPLOAD_NEW_FILE` and `TYPE_UPLOAD_EXISTING_FILE` to `FILE_QUEUE` and the
other fifteen of the eighteen job types to `METADATA_QUEUE`. A job stays with
the queue of its type: `QueueJob` puts it there and leaves the other queue
alone; in a reachable state every queued job sits in the queue of its type and
`DoJobLoop(q)` counts the job it dispatches in `jobs_running_` of the queue of
the job's type; dispatch and retry keep the job type; and `OnJobDone` takes
the job out of `jobs_running_` of the queue of its type and, on a throttled
result, puts it back into that same queue. -/
theorem job_stays_with_queue_of_its_type (u : Util) :
    (∀ job_type : JobType, GetJobQueueType job_type = .FILE_QUEUE ↔
      (job_type = .TYPE_DOWNLOAD_FILE ∨ job_type = .TYPE_UPLOAD_NEW_FILE ∨
        job_type = .TYPE_UPLOAD_EXISTING_FILE)) ∧
    (∀ job_type : JobType, GetJobQueueType job_type = .METADATA_QUEUE ↔
      ¬ (job_type = .TYPE_DOWNLOAD_FILE ∨ job_type = .TYPE_UPLOAD_NEW_FILE ∨
        job_type = .TYPE_UPLOAD_EXISTING_FILE)) ∧
    (∀ job_type : JobType, job_type ∈ allJobTypes) ∧ allJobTypes.length = 18 ∧
    (allJobTypes.filter (fun t => decide (GetJobQueueType t = .METADATA_QUEUE))).length = 15 ∧
    (∀ (job : QueueEntry) (s : DriveScheduler),
      job ∈ (QueueJob job s).queue_.get (GetJobQueueType job.job_info.job_type) ∧
      ∀ q, q ≠ GetJobQueueType job.job_info.job_type →
        (QueueJob job s).queue_.get q = s.queue_.get q) ∧
    (∀ s : DriveScheduler, Reachable u s →
      ∀ q, ∀ e ∈ s.queue_.get q, GetJobQueueType e.job_info.job_type = q) ∧
    (∀ (s : DriveScheduler) (env : Env) (q : QueueType), Reachable u s →
      DoJobLoop env q s = s ∨
      ∃ front rest, s.queue_.get q = front :: rest ∧
        (DoJobLoop env q s).in_flight =
          s.in_flight ++ [(boundHandler front.job_info.job_type, front.running)] ∧
        (DoJobLoop env q s).jobs_running_ =
          s.jobs_running_.set (GetJobQueueType front.running.job_info.job_type)
            (s.jobs_running_.get (GetJobQueueType front.running.job_info.job_type) + 1)) ∧
    (∀ e : QueueEntry, e.running.job_info.job_type = e.job_info.job_type ∧
      e.retry.job_info.job_type = e.job_info.job_type) ∧
    (∀ (rand : Int) (e : QueueEntry) (error : DriveFileError) (s : DriveScheduler),
      (OnJobDone rand e error s).1.jobs_running_ =
        s.jobs_running_.set (GetJobQueueType e.job_info.job_type)
          (s.jobs_running_.get (GetJobQueueType e.job_info.job_type) - 1) ∧
      (error = .DRIVE_FILE_ERROR_THROTTLED →
        e.retry ∈ (OnJobDone rand e error s).1.queue_.get
          (GetJobQueueType e.job_info.job_type) ∧
        ∀ q, q ≠ GetJobQueueType e.job_info.job_type →
          (OnJobDone rand e error s).1.queue_.get q = s.queue_.get q) ∧
      (error ≠ .DRIVE_FILE_ERROR_THROTTLED →
        (OnJobDone rand e error s).1.queue_ = s.queue_)) := by
  refine ⟨?_, ?_, mem_allJobTypes, rfl, by decide, ?_, ?_, ?_, fun e => ⟨rfl, rfl⟩, ?_⟩
  · intro job_type; cases job_type <;> simp [GetJobQueueType]
  · intro job_type; cases job_type <;> simp [GetJobQueueType]
  · intro job s
    refine ⟨mem_pushQueue job s.queue_, fun q hq => ?_⟩
    show (pushQueue job s.queue_).get q = _
    unfold pushQueue
    rw [QueueArray.get_set, if_neg hq]
  · intro s hs q e he
    exact (WellFormed_of_Reachable u s hs q).2 e he
  · intro s env q hs
    rcases DoJobLoop_cases env q s with h | ⟨front, rest, hq, _, h⟩
    · left; exact h
    · right
      have hf : GetJobQueueType front.job_info.job_type = q :=
        (WellFormed_of_Reachable u s hs q).2 front (by rw [hq]; exact List.mem_cons_self _ _)
      refine ⟨front, rest, hq, by rw [h], ?_⟩
      rw [h]
      show s.jobs_running_.set q (s.jobs_running_.get q + 1) =
        s.jobs_running_.set (GetJobQueueType front.job_info.job_type)
          (s.jobs_running_.get (GetJobQueueType front.job_info.job_type) + 1)
      rw [hf]
  · intro rand e error s
    by_cases he : error = .DRIVE_FILE_ERROR_THROTTLED
    · subst he
      rw [OnJobDone_throttled_eq]
      refine ⟨rfl, fun _ => ⟨mem_pushQueue e.retry s.queue_, fun q hq => ?_⟩,
        fun h => absurd rfl h⟩
      show (pushQueue e.retry s.queue_).get q = _
      unfold pushQueue
      rw [QueueArray.get_set]
      exact if_neg hq
    · rw [OnJobDone_other_eq _ _ _ _ he]
      exact ⟨rfl, fun h => absurd h he, fun _ => rfl⟩

/-- C18 on a concrete run: a download is dispatched from the file queue,
counted there, throttled, and put back into the file queue. -/
theorem job_stays_with_queue_of_its_type_witness :
    Reachable sampleUtil downloadInFlight ∧
    GetJobQueueType .TYPE_DOWNLOAD_FILE = .FILE_QUEUE ∧
    downloadInFlight.jobs_running_.get .FILE_QUEUE = 1 ∧
    (∀ q, ∀ e ∈ downloadInFlight.queue_.get q, GetJobQueueType e.job_info.job_type = q) ∧
    (step sampleUtil envOnline (.Completion 0 503 0 0) downloadInFlight).queue_.get
        .FILE_QUEUE = [(createdEntry .TYPE_DOWNLOAD_FILE ctxUser 1).retry] :=
  ⟨⟨_, rfl⟩, rfl, by decide,
   (job_stays_with_queue_of_its_type sampleUtil).2.2.2.2.2.2.1 downloadInFlight ⟨_, rfl⟩,
   by decide⟩



/-! ### C14: what the backoff delay holds back -/

theorem Moves_dispatched {v w} (h : Moves v w) : ∃ L, w.2 = v.2 ++ L := by
  induction h with
  | refl => exact ⟨[], by simp⟩
  | push job _ ih => exact ih
  | pop q front rest _ _ ih =>
    obtain ⟨L, hL⟩ := ih
    exact ⟨front.running :: L, by rw [hL]; simp⟩

theorem step_dispatched_append (u : Util) (env : Env) (ev : Event) (s : DriveScheduler) :
    ∃ L, (step u env ev s).dispatched = s.dispatched ++ L :=
  Moves_dispatched (Moves_step u env ev s)

theorem runHandler_tasks (u : Util) (rand : Int) (h : Handler) (e : QueueEntry)
    (error : Int) (payload : Nat) (s : DriveScheduler) :
    (runHandler u rand h e error payload s).dispatched = s.dispatched ∧
    ∃ L, (runHandler u rand h e error payload s).tasks = s.tasks ++ L := by
  by_cases hc : convertedError u h error = .DRIVE_FILE_ERROR_THROTTLED
  · rw [runHandler_throttled u rand h e error payload s hc, OnJobDone_throttled_eq]
    exact ⟨rfl, _, rfl⟩
  · rw [runHandler_other u rand h e error payload s hc, OnJobDone_other_eq _ _ _ _ hc]
    unfold deliver
    split
    · exact ⟨rfl, _, List.append_assoc _ _ _⟩
    · exact ⟨rfl, _, rfl⟩

/-- The tasks after an event: those that were there, minus the one that was
run, plus the ones the event posted. -/
theorem step_tasks (u : Util) (env : Env) (ev : Event) (s : DriveScheduler) :
    ∃ L, (step u env ev s).tasks =
      (match ev with
        | .RunTask i => s.tasks.eraseIdx i
        | _ => s.tasks) ++ L := by
  cases ev with
  | Submit job_type context params =>
    refine ⟨[], ?_⟩
    simp only [step, callEntryPoint_eq, List.append_nil]
    rw [(StartJobLoop_throttle _ _ _).2.2]
    rfl
  | ConnectionTypeChanged =>
    refine ⟨[], ?_⟩
    simp only [step, OnConnectionTypeChanged, List.append_nil]
    split
    · rw [(StartJobLoop_throttle _ _ _).2.2, (StartJobLoop_throttle _ _ _).2.2]
    · rfl
  | Completion i error payload rand =>
    simp only [step]
    split
    · exact ⟨[], by simp⟩
    · exact (runHandler_tasks u rand _ _ error payload _).2
  | RunTask i =>
    refine ⟨[], ?_⟩
    simp only [step, List.append_nil]
    cases hi : s.tasks.get? i with
    | none =>
      simp only
      rw [List.eraseIdx_of_length_le]
      exact List.get?_eq_none.mp hi
    | some t =>
      cases t with
      | DoJobLoop q d => exact (DoJobLoop_throttle env q _).2.2
      | RunCallback e err p => rfl

/-- An event that is not a trigger of the job loop starts no job. -/
theorem step_dispatched_of_not_trigger (u : Util) (env : Env) (ev : Event)
    (s : DriveScheduler) (h : isLoopTrigger s ev = false) :
    (step u env ev s).dispatched = s.dispatched := by
  cases ev with
  | Submit job_type context params => simp [isLoopTrigger] at h
  | ConnectionTypeChanged => simp [isLoopTrigger] at h
  | Completion i error payload rand =>
    simp only [step]
    split
    · rfl
    · exact (runHandler_tasks u rand _ _ error payload _).1
  | RunTask i =>
    simp only [step]
    cases hi : s.tasks.get? i with
    | none => rfl
    | some t =>
      cases t with
      | DoJobLoop q d =>
        have h2 : isLoopTrigger s (.RunTask i) = true := by
          show (match s.tasks.get? i with
            | some (.DoJobLoop _ _) => true
            | _ => false) = true
          rw [hi]
        rw [h2] at h
        cases h
      | RunCallback e err p => rfl

theorem Timed.record_wf (ts : Timed) (t : Int) (kept : List Int) (s : DriveScheduler)
    (h1 : ∃ L, s.tasks.length = kept.length + L)
    (h2 : ∃ L, s.dispatched.length = ts.started.length + L) :
    (ts.record t kept s).wf := by
  obtain ⟨L1, h1⟩ := h1
  obtain ⟨L2, h2⟩ := h2
  constructor
  · simp only [Timed.record, List.length_append, List.length_map, List.length_drop]
    omega
  · simp only [Timed.record, List.length_append, List.length_map, List.length_drop]
    omega

theorem timedStep_wf (u : Util) (t : Int) (env : Env) (ev : Event) (ts : Timed)
    (h : ts.wf) : (timedStep u t env ev ts).wf := by
  obtain ⟨hd, hst⟩ := h
  have hdisp : ∀ ev', ∃ L, (step u env ev' ts.sched).dispatched.length =
      ts.started.length + L := by
    intro ev'
    obtain ⟨L, hL⟩ := step_dispatched_append u env ev' ts.sched
    exact ⟨L.length, by rw [hL, List.length_append, hst]⟩
  have htasks : ∀ ev', (∀ i, ev' ≠ .RunTask i) →
      ∃ L, (step u env ev' ts.sched).tasks.length = ts.due.length + L := by
    intro ev' hne
    obtain ⟨L, hL⟩ := step_tasks u env ev' ts.sched
    refine ⟨L.length, ?_⟩
    cases ev' with
    | RunTask i => exact absurd rfl (hne i)
    | Submit a b c => rw [hL, List.length_append, hd]
    | ConnectionTypeChanged => rw [hL, List.length_append, hd]
    | Completion a b c d => rw [hL, List.length_append, hd]
  by_cases hnow : t < ts.now
  · simp only [timedStep, if_pos hnow]
    exact ⟨hd, hst⟩
  · cases ev with
    | Submit a b c =>
      simp only [timedStep, if_neg hnow]
      exact Timed.record_wf _ _ _ _ (htasks _ (fun _ h => by cases h)) (hdisp _)
    | ConnectionTypeChanged =>
      simp only [timedStep, if_neg hnow]
      exact Timed.record_wf _ _ _ _ (htasks _ (fun _ h => by cases h)) (hdisp _)
    | Completion a b c d =>
      simp only [timedStep, if_neg hnow]
      exact Timed.record_wf _ _ _ _ (htasks _ (fun _ h => by cases h)) (hdisp _)
    | RunTask i =>
      simp only [timedStep, if_neg hnow]
      split
      · exact ⟨hd, hst⟩
      · split
        · exact ⟨hd, hst⟩
        · apply Timed.record_wf
          · obtain ⟨L, hL⟩ := step_tasks u env (.RunTask i) ts.sched
            refine ⟨L.length, ?_⟩
            rw [hL, List.length_append, List.length_eraseIdx, List.length_eraseIdx, hd]
          · exact hdisp _

theorem runTimed_wf (u : Util) (evs : List (Int × Env × Event)) (ts : Timed) (h : ts.wf) :
    (runTimed u evs ts).wf := by
  induction evs generalizing ts with
  | nil => exact h
  | cons ev evs ih =>
    obtain ⟨t, env, ev⟩ := ev
    exact ih _ (timedStep_wf u t env ev ts h)

theorem Timed.new_wf : Timed.new.wf := ⟨rfl, rfl⟩


/-- A posted task is not run before it is due. -/
theorem timedStep_RunTask_early (u : Util) (t : Int) (env : Env) (i : Nat) (ts : Timed)
    (d : Int) (hget : ts.due.get? i = some d) (h : t < d) :
    (timedStep u t env (.RunTask i) ts).sched = ts.sched ∧
    (timedStep u t env (.RunTask i) ts).started = ts.started ∧
    (timedStep u t env (.RunTask i) ts).due = ts.due := by
  by_cases hlt : t < ts.now
  · simp [timedStep, if_pos hlt]
  · simp only [timedStep, if_neg hlt, hget, if_pos h, and_self]

/-- C14 (counterexample): a download is started at time 0 and completes
throttled (503) at time 10; the completion requeues it and posts `DoJobLoop`
with a delay of 1000 ms, due at 1010. A second download submitted at time 11,
or a connection-change notification at time 11, starts the requeued download
again at time 11, while the delayed task is still pending and not yet due. -/
theorem requeued_job_started_before_backoff_elapsed :
    (runTimed sampleUtil throttledThenSubmit Timed.new).sched.tasks =
      [Task.DoJobLoop .FILE_QUEUE 1000] ∧
    (runTimed sampleUtil throttledThenSubmit Timed.new).due = [1010] ∧
    (runTimed sampleUtil throttledThenSubmit Timed.new).sched.dispatched =
      [(createdEntry .TYPE_DOWNLOAD_FILE ctxUser 1).running,
       (createdEntry .TYPE_DOWNLOAD_FILE ctxUser 1).retry.running] ∧
    (runTimed sampleUtil throttledThenSubmit Timed.new).started = [0, 11] ∧
    (runTimed sampleUtil throttledThenNotified Timed.new).sched.tasks =
      [Task.DoJobLoop .FILE_QUEUE 1000] ∧
    (runTimed sampleUtil throttledThenNotified Timed.new).due = [1010] ∧
    (runTimed sampleUtil throttledThenNotified Timed.new).sched.dispatched =
      [(createdEntry .TYPE_DOWNLOAD_FILE ctxUser 1).running,
       (createdEntry .TYPE_DOWNLOAD_FILE ctxUser 1).retry.running] ∧
    (runTimed sampleUtil throttledThenNotified Timed.new).started = [0, 11] := by
  decide

/-- C14 (amended): after a throttled completion at time `t`, the `DoJobLoop`
task that the completion posts is due at `t` plus the backoff delay computed
by `ThrottleAndContinueJobLoop` and is not run before that time (an attempt
to run it earlier changes nothing); the completion itself starts no job; and
in every state an event that is not a trigger of the job loop (a completion,
a callback task) starts no job. A job of the queue is therefore started before
the delay has elapsed only by another trigger of the job loop: a submission, a
connection-change notification, or another posted `DoJobLoop` task. -/
theorem backoff_delays_only_the_posted_task (u : Util) (env : Env) (ts : Timed) (t : Int)
    (i : Nat) (error : Int) (payload : Nat) (rand : Int)
    (hwf : ts.wf) (hnow : ts.now ≤ t)
    (hk : completionKind u ts.sched (.Completion i error payload rand) = some true) :
    (∃ q, (timedStep u t env (.Completion i error payload rand) ts).sched.tasks =
      ts.sched.tasks ++ [Task.DoJobLoop q
        (throttleDelay ts.sched.disable_throttling_ (bump ts.sched.throttle_count_) rand)]) ∧
    (timedStep u t env (.Completion i error payload rand) ts).due =
      ts.due ++ [t + throttleDelay ts.sched.disable_throttling_
        (bump ts.sched.throttle_count_) rand] ∧
    (timedStep u t env (.Completion i error payload rand) ts).sched.dispatched =
      ts.sched.dispatched ∧
    (timedStep u t env (.Completion i error payload rand) ts).started = ts.started ∧
    (∀ t2 env2, t2 < t + throttleDelay ts.sched.disable_throttling_
        (bump ts.sched.throttle_count_) rand →
      (timedStep u t2 env2 (.RunTask ts.due.length)
        (timedStep u t env (.Completion i error payload rand) ts)).sched =
        (timedStep u t env (.Completion i error payload rand) ts).sched ∧
      (timedStep u t2 env2 (.RunTask ts.due.length)
        (timedStep u t env (.Completion i error payload rand) ts)).started = ts.started) ∧
    (∀ ts2 : Timed, ts2.wf → ∀ t2 env2 ev, isLoopTrigger ts2.sched ev = false →
      (timedStep u t2 env2 ev ts2).sched.dispatched = ts2.sched.dispatched ∧
      (timedStep u t2 env2 ev ts2).started = ts2.started) := by
  obtain ⟨h, e, _, htasks⟩ := step_throttled_tasks u env i error payload rand ts.sched hk
  have hdisp := step_dispatched_of_not_trigger u env (.Completion i error payload rand)
    ts.sched rfl
  have hstep : timedStep u t env (.Completion i error payload rand) ts =
      ts.record t ts.due (step u env (.Completion i error payload rand) ts.sched) := by
    simp only [timedStep, if_neg (not_lt.mpr hnow)]
  have hdue : (timedStep u t env (.Completion i error payload rand) ts).due =
      ts.due ++ [t + throttleDelay ts.sched.disable_throttling_
        (bump ts.sched.throttle_count_) rand] := by
    rw [hstep]
    simp only [Timed.record]
    rw [htasks, hwf.1, List.drop_left]
    rfl
  have hstarted : (timedStep u t env (.Completion i error payload rand) ts).started =
      ts.started := by
    rw [hstep]
    simp only [Timed.record]
    rw [hdisp, hwf.2, List.drop_length]
    simp
  refine ⟨⟨GetJobQueueType e.job_info.job_type, ?_⟩, hdue, ?_, hstarted, ?_, ?_⟩
  · rw [hstep]
    exact htasks
  · rw [hstep]
    exact hdisp
  · intro t2 env2 ht2
    have hget : (timedStep u t env (.Completion i error payload rand) ts).due.get?
        ts.due.length = some (t + throttleDelay ts.sched.disable_throttling_
          (bump ts.sched.throttle_count_) rand) := by
      rw [hdue]
      simp
    have hearly := timedStep_RunTask_early u t2 env2 ts.due.length _ _ hget ht2
    exact ⟨hearly.1, hearly.2.1.trans hstarted⟩
  · intro ts2 hwf2 t2 env2 ev hev
    have hd2 := step_dispatched_of_not_trigger u env2 ev ts2.sched hev
    have hrec : ∀ kept, (ts2.record t2 kept (step u env2 ev ts2.sched)).sched.dispatched =
        ts2.sched.dispatched ∧
        (ts2.record t2 kept (step u env2 ev ts2.sched)).started = ts2.started := by
      intro kept
      refine ⟨hd2, ?_⟩
      simp only [Timed.record]
      rw [hd2, hwf2.2, List.drop_length]
      simp
    by_cases hlt : t2 < ts2.now
    · simp [timedStep, if_pos hlt]
    · cases ev with
      | Submit a b c => simp [isLoopTrigger] at hev
      | ConnectionTypeChanged => simp [isLoopTrigger] at hev
      | Completion a b c d =>
        simp only [timedStep, if_neg hlt]
        exact hrec _
      | RunTask j =>
        simp only [timedStep, if_neg hlt]
        split
        · exact ⟨rfl, rfl⟩
        · split
          · exact ⟨rfl, rfl⟩
          · exact hrec _

/-- C14 (amended) on the sample trace: the download started at time 0 is
throttled at time 10; the posted task is due at 1010, nothing is started by
the completion, and running the task at time 500 changes nothing. -/
theorem backoff_delays_only_the_posted_task_witness :
    throttledAt0.wf ∧ throttledAt0.now ≤ 10 ∧
    completionKind sampleUtil throttledAt0.sched (.Completion 0 503 0 0) = some true ∧
    (timedStep sampleUtil 10 envOnline (.Completion 0 503 0 0) throttledAt0).due = [1010] ∧
    (timedStep sampleUtil 10 envOnline (.Completion 0 503 0 0) throttledAt0).started = [0] ∧
    (timedStep sampleUtil 500 envOnline (.RunTask throttledAt0.due.length)
      (timedStep sampleUtil 10 envOnline (.Completion 0 503 0 0) throttledAt0)).started =
      throttledAt0.started :=
  have h := backoff_delays_only_the_posted_task sampleUtil envOnline throttledAt0 10
    0 503 0 0 (by decide) (by decide) (by decide)
  ⟨by decide, by decide, by decide, by decide, by decide,
   (h.2.2.2.2.1 500 envOnline (by decide)).2⟩


/-! ### C19, C20 on concrete states -/

/-- C19 on a concrete state: with one download in flight the file queue is at
its cap, so `StartJobLoop` changes nothing and a second download is only
queued; the metadata queue is below its cap, so `StartJobLoop` is
`DoJobLoop`. -/
theorem StartJobLoop_cap_witness :
    kMaxJobCount .FILE_QUEUE ≤ downloadInFlight.jobs_running_.get .FILE_QUEUE ∧
    StartJobLoop envOnline .FILE_QUEUE downloadInFlight = downloadInFlight ∧
    (callEntryPoint envOnline .TYPE_DOWNLOAD_FILE ctxUser 2 downloadInFlight).queue_.get
        .FILE_QUEUE = [createdEntry .TYPE_DOWNLOAD_FILE ctxUser 2] ∧
    (callEntryPoint envOnline .TYPE_DOWNLOAD_FILE ctxUser 2 downloadInFlight).dispatched =
      downloadInFlight.dispatched :=
  have h := StartJobLoop_cap envOnline .FILE_QUEUE downloadInFlight
  ⟨by decide, h.1 (by decide), by decide,
   (h.2.2.2.2 .TYPE_DOWNLOAD_FILE ctxUser 2 (by decide)).2.1⟩

/-- C20 on a concrete state: a download queued while offline is started by a
notification observed online and left alone by one observed offline. -/
theorem OnConnectionTypeChanged_effect_witness :
    envOnline.IsOffline = false ∧ envOffline.IsOffline = true ∧
    (OnConnectionTypeChanged envOnline offlineSubmitted).dispatched =
      [(createdEntry .TYPE_DOWNLOAD_FILE ctxUser 1).running] ∧
    OnConnectionTypeChanged envOnline offlineSubmitted =
      StartJobLoop envOnline .FILE_QUEUE
        (StartJobLoop envOnline .METADATA_QUEUE offlineSubmitted) ∧
    OnConnectionTypeChanged envOffline offlineSubmitted = offlineSubmitted :=
  ⟨rfl, rfl, by decide,
   (OnConnectionTypeChanged_effect envOnline offlineSubmitted).1 rfl,
   ((OnConnectionTypeChanged_effect envOffline offlineSubmitted).2 rfl).1⟩


/-! ### C23, C24: one invocation of `DoJobLoop` -/

/-- C23. `DoJobLoop(q)` returns the state as it is (every member, so queue
contents and order, both running counts, the throttle counter and every job's
state) when queue `q` is empty, and when `ShouldStopJobLoop` is true for the
context of the head job; in the second case the head job is still the head. -/
theorem DoJobLoop_returns_without_effect (env : Env) (q : QueueType) (s : DriveScheduler) :
    (s.queue_.get q = [] → DoJobLoop env q s = s) ∧
    (∀ front rest, s.queue_.get q = front :: rest →
      ShouldStopJobLoop env q front.context = true →
      DoJobLoop env q s = s ∧ (DoJobLoop env q s).queue_.get q = front :: rest) := by
  refine ⟨DoJobLoop_nil env q s, ?_⟩
  intro front rest hq hg
  have h := DoJobLoop_stop env q s front rest hq hg
  rw [h]
  exact ⟨rfl, hq⟩

/-- C23 on concrete states: the metadata queue of `twoQueued` is empty, and
offline the gate stops on the head of its file queue. -/
theorem DoJobLoop_returns_without_effect_witness :
    twoQueued.queue_.get .METADATA_QUEUE = [] ∧
    DoJobLoop envOnline .METADATA_QUEUE twoQueued = twoQueued ∧
    twoQueued.queue_.get .FILE_QUEUE =
      [createdEntry .TYPE_DOWNLOAD_FILE ctxUser 2,
       createdEntry .TYPE_DOWNLOAD_FILE ctxBackground 1] ∧
    DoJobLoop envOffline .FILE_QUEUE twoQueued = twoQueued :=
  have h := DoJobLoop_returns_without_effect
  ⟨by decide, (h envOnline .METADATA_QUEUE twoQueued).1 (by decide), by decide,
   ((h envOffline .FILE_QUEUE twoQueued).2 (createdEntry .TYPE_DOWNLOAD_FILE ctxUser 2)
      [createdEntry .TYPE_DOWNLOAD_FILE ctxBackground 1] (by decide) (by decide)).1⟩


/-- C24. When queue `q` is not empty and the gate does not stop on its head,
one `DoJobLoop(q)` removes exactly the head (the rest of the queue stays in
its order, the other queue is untouched), hands the head over in state
`STATE_RUNNING`, adds exactly one to `jobs_running_[q]` and issues exactly one
external call: one more call in flight, one more entry in the dispatch
history. The jobs behind the head stay queued even when the gate would let
them through and the cap has room. In every state, one invocation issues at
most one call. -/
theorem DoJobLoop_dispatches_exactly_the_head (env : Env) (q : QueueType) (s : DriveScheduler) :
    (∀ front rest, s.queue_.get q = front :: rest →
      ShouldStopJobLoop env q front.context = false →
      (DoJobLoop env q s).queue_.get q = rest ∧
      (∀ q2, q2 ≠ q → (DoJobLoop env q s).queue_.get q2 = s.queue_.get q2) ∧
      (DoJobLoop env q s).jobs_running_.get q = s.jobs_running_.get q + 1 ∧
      (DoJobLoop env q s).dispatched = s.dispatched ++
        [{ front with job_info := { front.job_info with state := .STATE_RUNNING } }] ∧
      (DoJobLoop env q s).in_flight = s.in_flight ++
        [(boundHandler front.job_info.job_type,
          { front with job_info := { front.job_info with state := .STATE_RUNNING } })]) ∧
    (DoJobLoop env q s).dispatched.length ≤ s.dispatched.length + 1 ∧
    (DoJobLoop env q s).in_flight.length ≤ s.in_flight.length + 1 := by
  constructor
  · intro front rest hq hg
    rw [DoJobLoop_go env q s front rest hq hg]
    refine ⟨QueueArray.get_set_same _ _ _, ?_, QueueArray.get_set_same _ _ _, rfl, rfl⟩
    intro q2 hne
    show (s.queue_.set q rest).get q2 = _
    rw [QueueArray.get_set, if_neg hne]
  · rcases DoJobLoop_cases env q s with h | ⟨front, rest, _, _, h⟩
    · rw [h]
      exact ⟨Nat.le_succ _, Nat.le_succ _⟩
    · rw [h]
      simp

/-- C24 on a concrete state: two searches are queued, both eligible online
and the cap of 5 has room for both; one `DoJobLoop` starts only the first. -/
theorem DoJobLoop_dispatches_exactly_the_head_witness :
    twoSearchesQueued.queue_.get .METADATA_QUEUE =
      [createdEntry .TYPE_SEARCH ctxUser 1, createdEntry .TYPE_SEARCH ctxUser 2] ∧
    ShouldStopJobLoop envOnline .METADATA_QUEUE
      (createdEntry .TYPE_SEARCH ctxUser 2).context = false ∧
    (DoJobLoop envOnline .METADATA_QUEUE twoSearchesQueued).queue_.get .METADATA_QUEUE =
      [createdEntry .TYPE_SEARCH ctxUser 2] ∧
    (DoJobLoop envOnline .METADATA_QUEUE twoSearchesQueued).jobs_running_.get
      .METADATA_QUEUE = 1 ∧
    (DoJobLoop envOnline .METADATA_QUEUE twoSearchesQueued).dispatched.length = 1 :=
  have h := (DoJobLoop_dispatches_exactly_the_head envOnline .METADATA_QUEUE
    twoSearchesQueued).1
    (createdEntry .TYPE_SEARCH ctxUser 1)
    [createdEntry .TYPE_SEARCH ctxUser 2] (by decide) (by decide)
  ⟨by decide, by decide, h.1, by decide, by decide⟩

/-! ### C25: no effect across queues -/

theorem DoJobLoop_other_queue (env : Env) (q q2 : QueueType) (s : DriveScheduler)
    (hne : q2 ≠ q) :
    (DoJobLoop env q s).queue_.get q2 = s.queue_.get q2 ∧
    (DoJobLoop env q s).jobs_running_.get q2 = s.jobs_running_.get q2 := by
  rcases DoJobLoop_cases env q s with h | ⟨front, rest, _, _, h⟩
  · rw [h]
    exact ⟨rfl, rfl⟩
  · rw [h]
    constructor
    · show (s.queue_.set q rest).get q2 = _
      rw [QueueArray.get_set, if_neg hne]
    · show (s.jobs_running_.set q _).get q2 = _
      rw [QueueArray.get_set, if_neg hne]

theorem StartJobLoop_other_queue (env : Env) (q q2 : QueueType) (s : DriveScheduler)
    (hne : q2 ≠ q) :
    (StartJobLoop env q s).queue_.get q2 = s.queue_.get q2 ∧
    (StartJobLoop env q s).jobs_running_.get q2 = s.jobs_running_.get q2 := by
  unfold StartJobLoop
  split
  · exact DoJobLoop_other_queue env q q2 s hne
  · exact ⟨rfl, rfl⟩

theorem QueueJob_other_queue (job : QueueEntry) (q2 : QueueType) (s : DriveScheduler)
    (hne : q2 ≠ GetJobQueueType job.job_info.job_type) :
    (QueueJob job s).queue_.get q2 = s.queue_.get q2 ∧
    (QueueJob job s).jobs_running_.get q2 = s.jobs_running_.get q2 := by
  constructor
  · show (s.queue_.set _ _).get q2 = _
    rw [QueueArray.get_set, if_neg hne]
  · rfl

theorem OnJobDone_other_queue (rand : Int) (e : QueueEntry) (error : DriveFileError)
    (q2 : QueueType) (s : DriveScheduler)
    (hne : q2 ≠ GetJobQueueType e.job_info.job_type) :
    (OnJobDone rand e error s).1.queue_.get q2 = s.queue_.get q2 ∧
    (OnJobDone rand e error s).1.jobs_running_.get q2 = s.jobs_running_.get q2 := by
  by_cases he : error = .DRIVE_FILE_ERROR_THROTTLED
  · subst he
    rw [OnJobDone_throttled_eq]
    constructor
    · show (s.queue_.set _ _).get q2 = _
      rw [QueueArray.get_set, if_neg hne]
    · show (s.jobs_running_.set _ _).get q2 = _
      rw [QueueArray.get_set, if_neg hne]
  · rw [OnJobDone_other_eq rand e error s he]
    constructor
    · rfl
    · show (s.jobs_running_.set _ _).get q2 = _
      rw [QueueArray.get_set, if_neg hne]

/-- C25. `QueueJob`, `StartJobLoop`, `DoJobLoop` and `OnJobDone`, acting for
queue `q` (for `QueueJob` and `OnJobDone` the queue of the job's type), leave
the job sequence and the `jobs_running_` entry of the other queue `q2`
unchanged. -/
theorem other_queue_unchanged (env : Env) (q q2 : QueueType) (s : DriveScheduler)
    (hne : q2 ≠ q) :
    (∀ job : QueueEntry, GetJobQueueType job.job_info.job_type = q →
      (QueueJob job s).queue_.get q2 = s.queue_.get q2 ∧
      (QueueJob job s).jobs_running_.get q2 = s.jobs_running_.get q2) ∧
    ((StartJobLoop env q s).queue_.get q2 = s.queue_.get q2 ∧
      (StartJobLoop env q s).jobs_running_.get q2 = s.jobs_running_.get q2) ∧
    ((DoJobLoop env q s).queue_.get q2 = s.queue_.get q2 ∧
      (DoJobLoop env q s).jobs_running_.get q2 = s.jobs_running_.get q2) ∧
    (∀ (rand : Int) (queue_entry : QueueEntry) (error : DriveFileError),
      GetJobQueueType queue_entry.job_info.job_type = q →
      (OnJobDone rand queue_entry error s).1.queue_.get q2 = s.queue_.get q2 ∧
      (OnJobDone rand queue_entry error s).1.jobs_running_.get q2 =
        s.jobs_running_.get q2) := by
  refine ⟨?_, StartJobLoop_other_queue env q q2 s hne, DoJobLoop_other_queue env q q2 s hne, ?_⟩
  · intro job hj
    exact QueueJob_other_queue job q2 s (hj ▸ hne)
  · intro rand e error he
    exact OnJobDone_other_queue rand e error q2 s (he ▸ hne)

/-- C25 on a concrete state: a search is queued behind the two downloads of
`twoQueued` and one is started; a throttled download goes back to the file
queue; the file queue, respectively the metadata queue, is as before. -/
theorem other_queue_unchanged_witness :
    QueueType.FILE_QUEUE ≠ QueueType.METADATA_QUEUE ∧
    (QueueJob (createdEntry .TYPE_SEARCH ctxUser 3) twoQueued).queue_.get .FILE_QUEUE =
      twoQueued.queue_.get .FILE_QUEUE ∧
    (DoJobLoop envOnline .METADATA_QUEUE twoSearchesQueued).queue_.get .FILE_QUEUE =
      twoSearchesQueued.queue_.get .FILE_QUEUE ∧
    (DoJobLoop envOnline .METADATA_QUEUE twoSearchesQueued).jobs_running_.get .FILE_QUEUE =
      0 :=
  have h := other_queue_unchanged envOnline .METADATA_QUEUE .FILE_QUEUE
  ⟨by decide, ((h twoQueued (by decide)).1 (createdEntry .TYPE_SEARCH ctxUser 3) rfl).1,
   (h twoSearchesQueued (by decide)).2.2.1.1, by decide⟩


/-! ### C26: `OnJobDone` only posts the continuation of the loop -/

theorem mem_pushQueue_of_mem (job x : QueueEntry) (qs : QueueArray (List QueueEntry))
    (q : QueueType) (hx : x ∈ qs.get q) : x ∈ (pushQueue job qs).get q := by
  unfold pushQueue
  rw [QueueArray.get_set]
  split
  · rename_i hq
    subst hq
    exact (List.Perm.mem_iff (list_sort_perm _ _)).mpr (List.mem_append_left _ hx)
  · exact hx

theorem throttleDelay_enabled_ge (count rand : Int) (hc : 0 ≤ count) (hr : 0 ≤ rand) :
    1000 ≤ throttleDelay false (bump count) rand := by
  have hb : 1 ≤ bump count := by
    unfold bump
    split <;> simp [kMaxThrottleCount] at * <;> omega
  have hp : 1 ≤ FromSeconds_pow2 (bump count - 1) := by
    unfold FromSeconds_pow2
    rw [if_neg (by omega)]
    exact_mod_cast Nat.one_le_two_pow
  simp only [throttleDelay, Bool.false_eq_true, if_false]
  omega

/-- C26. `OnJobDone` does not run the job loop itself. When it returns, no
call has been issued (dispatch history and calls in flight are as before),
`jobs_running_` of the job's queue is exactly one less, every job that was
queued is still queued, and exactly one task has been posted, the bound
`DoJobLoop` of the job's queue: with delay 0 (`PostTask`) and the queues
untouched for a result other than the throttled error; with the delay computed
by `ThrottleAndContinueJobLoop` (`PostDelayedTask`; at least one second unless
`disable_throttling_` is set) and the job put back for the throttled error.
The same holds for a whole completion event: it issues no call. -/
theorem OnJobDone_never_runs_the_loop (rand : Int) (queue_entry : QueueEntry)
    (error : DriveFileError) (s : DriveScheduler) :
    (OnJobDone rand queue_entry error s).1.dispatched = s.dispatched ∧
    (OnJobDone rand queue_entry error s).1.in_flight = s.in_flight ∧
    (OnJobDone rand queue_entry error s).1.jobs_running_.get
        (GetJobQueueType queue_entry.job_info.job_type) =
      s.jobs_running_.get (GetJobQueueType queue_entry.job_info.job_type) - 1 ∧
    (∀ q, ∀ x ∈ s.queue_.get q, x ∈ (OnJobDone rand queue_entry error s).1.queue_.get q) ∧
    (error ≠ .DRIVE_FILE_ERROR_THROTTLED →
      (OnJobDone rand queue_entry error s).1.queue_ = s.queue_ ∧
      (OnJobDone rand queue_entry error s).1.tasks = s.tasks ++
        [Task.DoJobLoop (GetJobQueueType queue_entry.job_info.job_type) 0]) ∧
    (error = .DRIVE_FILE_ERROR_THROTTLED →
      (OnJobDone rand queue_entry error s).1.queue_ = pushQueue queue_entry.retry s.queue_ ∧
      (OnJobDone rand queue_entry error s).1.tasks = s.tasks ++
        [Task.DoJobLoop (GetJobQueueType queue_entry.job_info.job_type)
          (throttleDelay s.disable_throttling_ (bump s.throttle_count_) rand)] ∧
      (s.disable_throttling_ = false → 0 ≤ s.throttle_count_ → 0 ≤ rand →
        1000 ≤ throttleDelay s.disable_throttling_ (bump s.throttle_count_) rand)) ∧
    (∀ (u : Util) (env : Env) (i : Nat) (code : Int) (payload : Nat),
      (step u env (.Completion i code payload rand) s).dispatched = s.dispatched) := by
  have hstep : ∀ (u : Util) (env : Env) (i : Nat) (code : Int) (payload : Nat),
      (step u env (.Completion i code payload rand) s).dispatched = s.dispatched :=
    fun u env i code payload =>
      step_dispatched_of_not_trigger u env (.Completion i code payload rand) s rfl
  by_cases he : error = .DRIVE_FILE_ERROR_THROTTLED
  · subst he
    rw [OnJobDone_throttled_eq]
    refine ⟨rfl, rfl, QueueArray.get_set_same _ _ _, ?_, fun h => absurd rfl h, ?_, hstep⟩
    · intro q x hx
      exact mem_pushQueue_of_mem _ x s.queue_ q hx
    · intro _
      refine ⟨rfl, rfl, ?_⟩
      intro hd hc hr
      rw [hd]
      exact throttleDelay_enabled_ge _ _ hc hr
  · rw [OnJobDone_other_eq rand queue_entry error s he]
    exact ⟨rfl, rfl, QueueArray.get_set_same _ _ _, fun _ _ hx => hx, fun _ => ⟨rfl, rfl⟩,
      fun h => absurd h he, hstep⟩

/-- C26 on concrete completions of the download in flight: a success posts
`DoJobLoop` with delay 0, a throttled result posts it with a delay of one
second and puts the download back; neither starts a job, the running count
goes from 1 to 0. -/
theorem OnJobDone_never_runs_the_loop_witness :
    (OnJobDone 0 (createdEntry .TYPE_DOWNLOAD_FILE ctxUser 1).running (.other 200)
      downloadInFlight).1.tasks = [Task.DoJobLoop .FILE_QUEUE 0] ∧
    (OnJobDone 0 (createdEntry .TYPE_DOWNLOAD_FILE ctxUser 1).running
      .DRIVE_FILE_ERROR_THROTTLED downloadInFlight).1.tasks =
      [Task.DoJobLoop .FILE_QUEUE 1000] ∧
    (OnJobDone 0 (createdEntry .TYPE_DOWNLOAD_FILE ctxUser 1).running
      .DRIVE_FILE_ERROR_THROTTLED downloadInFlight).1.jobs_running_.get .FILE_QUEUE = 0 ∧
    (OnJobDone 0 (createdEntry .TYPE_DOWNLOAD_FILE ctxUser 1).running
      .DRIVE_FILE_ERROR_THROTTLED downloadInFlight).1.dispatched =
      downloadInFlight.dispatched :=
  ⟨by decide, by decide, by decide,
   (OnJobDone_never_runs_the_loop 0 (createdEntry .TYPE_DOWNLOAD_FILE ctxUser 1).running
      .DRIVE_FILE_ERROR_THROTTLED downloadInFlight).1⟩

/-! ### C29: the gate is monotone in the priority order -/

theorem ShouldStopJobLoop_mono (env : Env) (q : QueueType) (c1 c2 : DriveClientContext)
    (hle : c1.type.value ≤ c2.type.value)
    (hg : ShouldStopJobLoop env q c1 = true) : ShouldStopJobLoop env q c2 = true := by
  obtain ⟨a, b, c, d⟩ := env
  obtain ⟨t1⟩ := c1
  obtain ⟨t2⟩ := c2
  cases a <;> cases b <;> cases c <;> cases d <;> cases q <;> cases t1 <;> cases t2 <;>
    simp_all [ShouldStopJobLoop, ContextType.value]

/-- C29. For a queue sorted by priority class and a fixed network and
preference state: when `ShouldStopJobLoop` is true for the context of the head
job, it is true for the context of every other job of the queue, so stopping
on the head holds back no job the gate would let through. More generally the
gate is monotone: true for a context, it is true for every context of the
same or a less urgent class. -/
theorem gate_stops_whole_queue_when_it_stops_head (env : Env) (q : QueueType)
    (front : QueueEntry) (rest : List QueueEntry)
    (hs : QueueSorted (front :: rest))
    (hg : ShouldStopJobLoop env q front.context = true) :
    (∀ e ∈ rest, ShouldStopJobLoop env q e.context = true) ∧
    (∀ c1 c2 : DriveClientContext, c1.type.value ≤ c2.type.value →
      ShouldStopJobLoop env q c1 = true → ShouldStopJobLoop env q c2 = true) := by
  refine ⟨?_, fun c1 c2 => ShouldStopJobLoop_mono env q c1 c2⟩
  intro e he
  have hle : front.priority ≤ e.priority := (List.pairwise_cons.mp hs).1 e he
  exact ShouldStopJobLoop_mono env q front.context e.context hle hg

/-- C29 on a concrete queue: on a cellular connection the gate stops on a
`BACKGROUND` download at the head, and on the `PREFETCH` download behind it. -/
theorem gate_stops_whole_queue_when_it_stops_head_witness :
    QueueSorted (threeQueued.drop 1) ∧
    ShouldStopJobLoop envCellular .FILE_QUEUE
      (createdEntry .TYPE_DOWNLOAD_FILE ctxBackground 2).context = true ∧
    ShouldStopJobLoop envCellular .FILE_QUEUE
      (createdEntry .TYPE_DOWNLOAD_FILE { type := .PREFETCH } 3).context = true :=
  ⟨by decide, by decide,
   (gate_stops_whole_queue_when_it_stops_head envCellular .FILE_QUEUE
      (createdEntry .TYPE_DOWNLOAD_FILE ctxBackground 2)
      [createdEntry .TYPE_DOWNLOAD_FILE { type := .PREFETCH } 3] (by decide) (by decide)).1
      _ (List.mem_singleton_self _)⟩


/-! ### C28: range of the throttle counter -/

theorem bump_ge_one (c : Int) (h : 0 ≤ c ∧ c ≤ 5) : 1 ≤ bump c ∧ bump c ≤ 5 := by
  unfold bump
  split <;> simp [kMaxThrottleCount] at * <;> omega

theorem FromSeconds_pow2_values (c : Int) (h : 1 ≤ c ∧ c ≤ 5) :
    FromSeconds_pow2 (c - 1) ∈ [1, 2, 4, 8, 16] := by
  have : c = 1 ∨ c = 2 ∨ c = 3 ∨ c = 4 ∨ c = 5 := by omega
  rcases this with h | h | h | h | h <;> subst h <;> decide

/-- C28. Let `s` be a state reached by any sequence of events from a freshly
constructed scheduler whose `disable_throttling_` flag was set to either
value. Then `0 <= throttle_count_ <= 5`. `ThrottleAndContinueJobLoop` called
in `s` first increments the counter (up to 5) whatever the flag is, so the
counter it computes the delay from is between 1 and 5; the exponent
`throttle_count_ - 1` is not negative and the jitter-free delay
`FromSeconds(pow(2, throttle_count_ - 1))` is one of 1, 2, 4, 8, 16 seconds.
The same holds for the counter after every throttled completion in `s`. -/
theorem throttle_count_between_zero_and_five (u : Util) (evs : List (Env × Event))
    (disable : Bool) (s : DriveScheduler) (rand : Int) (queue_type : QueueType)
    (hs : s = run u evs (SetDisableThrottling disable DriveScheduler.new)) :
    (0 ≤ s.throttle_count_ ∧ s.throttle_count_ ≤ 5) ∧
    s.disable_throttling_ = disable ∧
    (ThrottleAndContinueJobLoop rand queue_type s).throttle_count_ = bump s.throttle_count_ ∧
    (1 ≤ (ThrottleAndContinueJobLoop rand queue_type s).throttle_count_ ∧
      (ThrottleAndContinueJobLoop rand queue_type s).throttle_count_ ≤ 5) ∧
    0 ≤ (ThrottleAndContinueJobLoop rand queue_type s).throttle_count_ - 1 ∧
    FromSeconds_pow2 ((ThrottleAndContinueJobLoop rand queue_type s).throttle_count_ - 1) ∈
      [1, 2, 4, 8, 16] ∧
    (∀ (env : Env) (i : Nat) (error : Int) (payload : Nat),
      completionKind u s (.Completion i error payload rand) = some true →
      1 ≤ (step u env (.Completion i error payload rand) s).throttle_count_ ∧
      (step u env (.Completion i error payload rand) s).throttle_count_ ≤ 5 ∧
      FromSeconds_pow2
        ((step u env (.Completion i error payload rand) s).throttle_count_ - 1) ∈
        [1, 2, 4, 8, 16]) := by
  have hr : 0 ≤ s.throttle_count_ ∧ s.throttle_count_ ≤ 5 := by
    rw [hs]
    exact run_throttle_count_range u evs _
      (by constructor <;> simp [SetDisableThrottling, DriveScheduler.new])
  have hf : s.disable_throttling_ = disable := by
    rw [hs, run_disable_throttling]
    rfl
  have hb := bump_ge_one s.throttle_count_ hr
  have ht : (ThrottleAndContinueJobLoop rand queue_type s).throttle_count_ =
      bump s.throttle_count_ := by
    unfold ThrottleAndContinueJobLoop bump
    split <;> rfl
  refine ⟨hr, hf, ht, ?_, ?_, ?_, ?_⟩
  · rw [ht]; exact hb
  · rw [ht]; omega
  · rw [ht]; exact FromSeconds_pow2_values _ hb
  · intro env i error payload hk
    rw [step_throttle_count, hk]
    exact ⟨hb.1, hb.2, FromSeconds_pow2_values _ hb⟩

/-- C28 on a concrete run with `disable_throttling_` set: after five throttled
completions the counter is 5, a sixth leaves it at 5, and every delay is 0. -/
theorem throttle_count_between_zero_and_five_witness :
    (run sampleUtil fiveThrottlesDisabled throttlingDisabled).throttle_count_ = 5 ∧
    (run sampleUtil fiveThrottlesDisabled throttlingDisabled).tasks = [] ∧
    (ThrottleAndContinueJobLoop 0 .FILE_QUEUE
      (run sampleUtil fiveThrottlesDisabled throttlingDisabled)).throttle_count_ = 5 ∧
    (ThrottleAndContinueJobLoop 0 .FILE_QUEUE
      (run sampleUtil fiveThrottlesDisabled throttlingDisabled)).tasks =
      [Task.DoJobLoop .FILE_QUEUE 0] ∧
    0 ≤ (run sampleUtil fiveThrottlesDisabled throttlingDisabled).throttle_count_ :=
  ⟨by decide, by decide, by decide, by decide,
   (throttle_count_between_zero_and_five sampleUtil fiveThrottlesDisabled true _ 0 .FILE_QUEUE
      rfl).1.1⟩


/-! ### C27: the running counts count the calls in flight -/

theorem inFlightCount_append_singleton (q : QueueType) (l : List (Handler × QueueEntry))
    (p : Handler × QueueEntry) :
    inFlightCount q (l ++ [p]) =
      inFlightCount q l + (if GetJobQueueType p.2.job_info.job_type = q then 1 else 0) := by
  unfold inFlightCount
  rw [List.filter_append, List.length_append]
  by_cases h : GetJobQueueType p.2.job_info.job_type = q <;> simp [List.filter, h]

theorem inFlightCount_eraseIdx (q : QueueType) (l : List (Handler × QueueEntry)) (i : Nat)
    (p : Handler × QueueEntry) (h : l.get? i = some p) :
    inFlightCount q l =
      inFlightCount q (l.eraseIdx i) +
        (if GetJobQueueType p.2.job_info.job_type = q then 1 else 0) := by
  induction l generalizing i with
  | nil => simp at h
  | cons x xs ih =>
    cases i with
    | zero =>
      simp only [List.get?_cons_zero, Option.some.injEq] at h
      subst h
      unfold inFlightCount
      by_cases hx : GetJobQueueType x.2.job_info.job_type = q <;>
        simp [List.filter, hx, List.eraseIdx]
    | succ j =>
      simp only [List.get?_cons_succ] at h
      have := ih j h
      unfold inFlightCount at this ⊢
      by_cases hx : GetJobQueueType x.2.job_info.job_type = q
      · simp only [List.eraseIdx_cons_succ, List.filter, hx, decide_True, List.length_cons]
        omega
      · simp only [List.eraseIdx_cons_succ, List.filter, hx, decide_False]
        omega

theorem RunningCountInv_DoJobLoop (env : Env) (q : QueueType) (s : DriveScheduler)
    (hw : WellFormed s) (h : RunningCountInv s) : RunningCountInv (DoJobLoop env q s) := by
  rcases DoJobLoop_cases env q s with he | ⟨front, rest, hq, _, he⟩
  · rw [he]; exact h
  · rw [he]
    have hf : GetJobQueueType front.job_info.job_type = q :=
      (hw q).2 front (by rw [hq]; exact List.mem_cons_self _ _)
    intro q2
    show (s.jobs_running_.set q _).get q2 = ((inFlightCount q2 (s.in_flight ++ [_]) : Nat) : Int)
    rw [inFlightCount_append_singleton, QueueArray.get_set]
    show _ = ((inFlightCount q2 s.in_flight +
      (if GetJobQueueType front.job_info.job_type = q2 then 1 else 0) : Nat) : Int)
    rw [hf]
    by_cases hq2 : q2 = q
    · subst hq2
      rw [if_pos rfl, if_pos rfl, h q2]
      push_cast
      rfl
    · rw [if_neg hq2, if_neg (fun h => hq2 h.symm), h q2]
      simp

theorem RunningCountInv_StartJobLoop (env : Env) (q : QueueType) (s : DriveScheduler)
    (hw : WellFormed s) (h : RunningCountInv s) : RunningCountInv (StartJobLoop env q s) := by
  unfold StartJobLoop
  split
  · exact RunningCountInv_DoJobLoop env q s hw h
  · exact h

theorem WellFormed_StartJobLoop (env : Env) (q : QueueType) (s : DriveScheduler)
    (hw : WellFormed s) : WellFormed (StartJobLoop env q s) :=
  QueuesWellFormed_of_Moves (Moves_StartJobLoop env q s) hw

theorem runHandler_jobs_running (u : Util) (rand : Int) (h : Handler) (e : QueueEntry)
    (error : Int) (payload : Nat) (s : DriveScheduler) :
    (runHandler u rand h e error payload s).jobs_running_ =
      s.jobs_running_.set (GetJobQueueType e.job_info.job_type)
        (s.jobs_running_.get (GetJobQueueType e.job_info.job_type) - 1) := by
  by_cases hc : convertedError u h error = .DRIVE_FILE_ERROR_THROTTLED
  · rw [runHandler_throttled u rand h e error payload s hc, OnJobDone_throttled_eq]
  · rw [runHandler_other u rand h e error payload s hc, OnJobDone_other_eq _ _ _ _ hc]
    unfold deliver
    split <;> rfl

theorem RunningCountInv_step (u : Util) (env : Env) (ev : Event) (s : DriveScheduler)
    (hw : WellFormed s) (h : RunningCountInv s) : RunningCountInv (step u env ev s) := by
  cases ev with
  | Submit job_type context params =>
    simp only [step, callEntryPoint_eq]
    exact RunningCountInv_StartJobLoop _ _ _
      (QueuesWellFormed_of_Moves (Moves_QueueJob _ s) hw) h
  | ConnectionTypeChanged =>
    simp only [step, OnConnectionTypeChanged]
    split
    · exact RunningCountInv_StartJobLoop _ _ _ (WellFormed_StartJobLoop _ _ _ hw)
        (RunningCountInv_StartJobLoop _ _ _ hw h)
    · exact h
  | Completion i error payload rand =>
    simp only [step]
    cases hi : s.in_flight.get? i with
    | none => exact h
    | some he =>
      obtain ⟨hd, e⟩ := he
      intro q
      show (runHandler u rand hd e error payload _).jobs_running_.get q =
        ((inFlightCount q (runHandler u rand hd e error payload _).in_flight : Nat) : Int)
      rw [runHandler_jobs_running, runHandler_in_flight, QueueArray.get_set]
      show (if q = GetJobQueueType e.job_info.job_type
        then s.jobs_running_.get (GetJobQueueType e.job_info.job_type) - 1
        else s.jobs_running_.get q) =
        ((inFlightCount q (s.in_flight.eraseIdx i) : Nat) : Int)
      have hc := inFlightCount_eraseIdx q s.in_flight i (hd, e) hi
      have hq := h q
      by_cases hqe : q = GetJobQueueType e.job_info.job_type
      · rw [if_pos hqe, ← hqe, hq, hc]
        simp only [hqe.symm, if_true]
        push_cast
        omega
      · rw [if_neg hqe, hq, hc, if_neg (fun h => hqe h.symm)]
        simp
  | RunTask i =>
    simp only [step]
    cases hi : s.tasks.get? i with
    | none => exact h
    | some t =>
      cases t with
      | DoJobLoop q d => exact RunningCountInv_DoJobLoop env q _ hw h
      | RunCallback e err p => exact h

theorem RunningCountInv_run (u : Util) (evs : List (Env × Event)) (s : DriveScheduler)
    (hw : WellFormed s) (h : RunningCountInv s) : RunningCountInv (run u evs s) := by
  induction evs generalizing s with
  | nil => exact h
  | cons ev evs ih =>
    obtain ⟨env, ev⟩ := ev
    exact ih _ (QueuesWellFormed_of_Moves (Moves_step u env ev s) hw)
      (RunningCountInv_step u env ev s hw h)

/-- C27. In every reachable state `jobs_running_[q]` is the number of calls in
flight for jobs of queue `q`, the jobs that were dispatched and whose
completion has not been delivered; so it is never negative. A completion is
delivered to a call in flight and takes it out of that set, so no call
completes twice. -/
theorem jobs_running_counts_calls_in_flight (u : Util) (s : DriveScheduler)
    (hs : Reachable u s) (q : QueueType) :
    s.jobs_running_.get q = (inFlightCount q s.in_flight : Int) ∧
    0 ≤ s.jobs_running_.get q := by
  obtain ⟨evs, rfl⟩ := hs
  have h := RunningCountInv_run u evs DriveScheduler.new WellFormed_new
    (by intro q; cases q <;> rfl) q
  rw [h]
  exact ⟨rfl, Int.natCast_nonneg _⟩

/-- C27 on the run that exceeds the cap of the file queue: two downloads are
in flight and `jobs_running_[FILE_QUEUE]` is 2. -/
theorem jobs_running_counts_calls_in_flight_witness :
    inFlightCount .FILE_QUEUE (run sampleUtil fileCapTrace DriveScheduler.new).in_flight = 2 ∧
    (run sampleUtil fileCapTrace DriveScheduler.new).jobs_running_.get .FILE_QUEUE =
      (inFlightCount .FILE_QUEUE
        (run sampleUtil fileCapTrace DriveScheduler.new).in_flight : Int) :=
  ⟨by decide,
   (jobs_running_counts_calls_in_flight sampleUtil _ ⟨fileCapTrace, rfl⟩ .FILE_QUEUE).1⟩


/-! ### C22: destruction -/

/-- After destruction the members of the scheduler no longer change, no call
is issued, and the only callbacks run are those of tasks posted before. -/
theorem Lifetime.run_destroyed (u : Util) (evs : List (Env × Event)) (l : Lifetime)
    (h : l.weak_ptrs_valid = false) :
    (Lifetime.run u evs l).weak_ptrs_valid = false ∧
    (Lifetime.run u evs l).sched.queue_ = l.sched.queue_ ∧
    (Lifetime.run u evs l).sched.jobs_running_ = l.sched.jobs_running_ ∧
    (Lifetime.run u evs l).sched.throttle_count_ = l.sched.throttle_count_ ∧
    (Lifetime.run u evs l).sched.dispatched = l.sched.dispatched ∧
    (∀ t ∈ (Lifetime.run u evs l).sched.tasks, t ∈ l.sched.tasks) ∧
    (∀ c ∈ (Lifetime.run u evs l).sched.callbacks_run,
      c ∈ l.sched.callbacks_run ∨ Task.RunCallback c.1 c.2.1 c.2.2 ∈ l.sched.tasks) := by
  induction evs generalizing l with
  | nil => exact ⟨h, rfl, rfl, rfl, rfl, fun _ ht => ht, fun _ hc => Or.inl hc⟩
  | cons ev evs ih =>
    obtain ⟨env, ev⟩ := ev
    have key : (Lifetime.step u env ev l).weak_ptrs_valid = false ∧
        (Lifetime.step u env ev l).sched.queue_ = l.sched.queue_ ∧
        (Lifetime.step u env ev l).sched.jobs_running_ = l.sched.jobs_running_ ∧
        (Lifetime.step u env ev l).sched.throttle_count_ = l.sched.throttle_count_ ∧
        (Lifetime.step u env ev l).sched.dispatched = l.sched.dispatched ∧
        (∀ t ∈ (Lifetime.step u env ev l).sched.tasks, t ∈ l.sched.tasks) ∧
        (∀ c ∈ (Lifetime.step u env ev l).sched.callbacks_run,
          c ∈ l.sched.callbacks_run ∨ Task.RunCallback c.1 c.2.1 c.2.2 ∈ l.sched.tasks) := by
      obtain ⟨sched, valid⟩ := l
      simp only at h
      subst h
      cases ev with
      | Submit a b c => exact ⟨rfl, rfl, rfl, rfl, rfl, fun _ ht => ht, fun _ hc => Or.inl hc⟩
      | ConnectionTypeChanged =>
        exact ⟨rfl, rfl, rfl, rfl, rfl, fun _ ht => ht, fun _ hc => Or.inl hc⟩
      | Completion i a b c =>
        exact ⟨rfl, rfl, rfl, rfl, rfl, fun _ ht => ht, fun _ hc => Or.inl hc⟩
      | RunTask i =>
        simp only [Lifetime.step, Bool.false_eq_true, if_false]
        cases hi : sched.tasks.get? i with
        | none => exact ⟨rfl, rfl, rfl, rfl, rfl, fun _ ht => ht, fun _ hc => Or.inl hc⟩
        | some t =>
          cases t with
          | DoJobLoop q d =>
            exact ⟨rfl, rfl, rfl, rfl, rfl, fun _ ht => List.mem_of_mem_eraseIdx ht,
              fun _ hc => Or.inl hc⟩
          | RunCallback e err p =>
            refine ⟨rfl, rfl, rfl, rfl, rfl, fun _ ht => List.mem_of_mem_eraseIdx ht, ?_⟩
            intro c hc
            rcases List.mem_append.mp hc with hc | hc
            · exact Or.inl hc
            · right
              rw [List.mem_singleton.mp hc]
              exact List.get?_mem hi
    obtain ⟨k1, k2, k3, k4, k5, k6, k7⟩ := key
    obtain ⟨i1, i2, i3, i4, i5, i6, i7⟩ := ih _ k1
    refine ⟨i1, i2.trans k2, i3.trans k3, i4.trans k4, i5.trans k5,
      fun t ht => k6 t (i6 t ht), ?_⟩
    intro c hc
    rcases i7 c hc with hc | hc
    · exact k7 c hc
    · exact Or.inr (k6 _ hc)

/-- C22. Destroying the scheduler deletes the queued jobs and runs
or posts none of their callbacks: the history of callback runs and the message
loop are as before and both queues are empty. A completion that arrives after
the destruction is bound to an invalidated weak pointer: no handler runs, so
the running counts, the throttle counter, the queues, the message loop, the
dispatch history and the history of callback runs all stay as the destructor
left them. The same members stay unchanged over any events after the
destruction, and the only callbacks that still run are those of tasks that a
handler had posted while the scheduler lived. -/
theorem destruction_runs_no_callback (u : Util) (l : Lifetime) :
    (l.destroy.sched.callbacks_run = l.sched.callbacks_run ∧
      l.destroy.sched.tasks = l.sched.tasks ∧
      l.destroy.sched.in_flight = l.sched.in_flight ∧
      l.destroy.sched.queue_ = { metadata := [], file := [] }) ∧
    (∀ (env : Env) (i : Nat) (error : Int) (payload : Nat) (rand : Int),
      (Lifetime.step u env (.Completion i error payload rand) l.destroy).sched =
        { l.destroy.sched with in_flight := l.destroy.sched.in_flight.eraseIdx i } ∧
      (Lifetime.step u env (.Completion i error payload rand) l.destroy).sched.callbacks_run =
        l.sched.callbacks_run ∧
      (Lifetime.step u env (.Completion i error payload rand) l.destroy).sched.tasks =
        l.sched.tasks) ∧
    (∀ evs : List (Env × Event),
      (Lifetime.run u evs l.destroy).sched.queue_ = { metadata := [], file := [] } ∧
      (Lifetime.run u evs l.destroy).sched.jobs_running_ = l.sched.jobs_running_ ∧
      (Lifetime.run u evs l.destroy).sched.throttle_count_ = l.sched.throttle_count_ ∧
      (Lifetime.run u evs l.destroy).sched.dispatched = l.sched.dispatched ∧
      (∀ c ∈ (Lifetime.run u evs l.destroy).sched.callbacks_run,
        c ∈ l.sched.callbacks_run ∨ Task.RunCallback c.1 c.2.1 c.2.2 ∈ l.sched.tasks)) := by
  refine ⟨⟨rfl, rfl, rfl, rfl⟩, ?_, ?_⟩
  · intro env i error payload rand
    exact ⟨rfl, rfl, rfl⟩
  · intro evs
    obtain ⟨_, h2, h3, h4, h5, _, h7⟩ := Lifetime.run_destroyed u evs l.destroy rfl
    exact ⟨h2, h3, h4, h5, h7⟩

/-- C22 on a concrete object: one download is in flight, one is queued. After
destruction the late completion of the first runs no callback and changes no
count, while the same completion on the living object does both. -/
theorem destruction_runs_no_callback_witness :
    oneRunningOneQueued.sched.initialized_ = true ∧
    oneRunningOneQueued.sched.queue_.get .FILE_QUEUE =
      [createdEntry .TYPE_DOWNLOAD_FILE ctxUser 2] ∧
    (Lifetime.step sampleUtil envOnline (.Completion 0 200 0 0)
      oneRunningOneQueued).sched.callbacks_run.length = 1 ∧
    (Lifetime.step sampleUtil envOnline (.Completion 0 200 0 0)
      oneRunningOneQueued.destroy).sched.callbacks_run = [] ∧
    (Lifetime.step sampleUtil envOnline (.Completion 0 200 0 0)
      oneRunningOneQueued.destroy).sched.jobs_running_.get .FILE_QUEUE = 1 ∧
    (Lifetime.run sampleUtil [(envOnline, .Completion 0 200 0 0), (envOnline, .RunTask 0)]
      oneRunningOneQueued.destroy).sched.dispatched = oneRunningOneQueued.sched.dispatched :=
  have h := destruction_runs_no_callback sampleUtil oneRunningOneQueued
  ⟨by decide, by decide, by decide, by decide, by decide,
   (h.2.2 [(envOnline, .Completion 0 200 0 0), (envOnline, .RunTask 0)]).2.2.2.1⟩


/-! ### C21: connection-type changes while online -/

theorem mem_pushQueue_iff (job x : QueueEntry) (qs : QueueArray (List QueueEntry))
    (q : QueueType) (hx : x ∈ (pushQueue job qs).get q) : x = job ∨ x ∈ qs.get q := by
  unfold pushQueue at hx
  rw [QueueArray.get_set] at hx
  split at hx
  · rename_i hq
    subst hq
    rcases List.mem_append.mp ((List.Perm.mem_iff (list_sort_perm _ _)).mp hx) with h | h
    · exact Or.inr h
    · exact Or.inl (List.mem_singleton.mp h)
  · exact Or.inr hx

theorem ContextInv_QueueJob (job : QueueEntry) (s : DriveScheduler)
    (hj : ContextFromEntryPoint job) (h : ContextInv s) : ContextInv (QueueJob job s) := by
  refine ⟨?_, h.2.1, h.2.2⟩
  intro q e he
  rcases mem_pushQueue_iff job e s.queue_ q he with rfl | he
  · exact hj
  · exact h.1 q e he

theorem ContextInv_DoJobLoop (env : Env) (q : QueueType) (s : DriveScheduler)
    (h : ContextInv s) : ContextInv (DoJobLoop env q s) := by
  rcases DoJobLoop_cases env q s with he | ⟨front, rest, hq, _, he⟩
  · rw [he]; exact h
  · rw [he]
    have hf : ContextFromEntryPoint front.running :=
      h.1 q front (by rw [hq]; exact List.mem_cons_self _ _)
    refine ⟨?_, ?_, ?_⟩
    · intro q2 e hmem
      have hmem2 : e ∈ (s.queue_.set q rest).get q2 := hmem
      rw [QueueArray.get_set] at hmem2
      split at hmem2
      · rename_i hq2
        subst hq2
        exact h.1 q2 e (by rw [hq]; exact List.mem_cons_of_mem _ hmem2)
      · exact h.1 q2 e hmem2
    · intro p hp
      rcases List.mem_append.mp hp with hp | hp
      · exact h.2.1 p hp
      · rw [List.mem_singleton.mp hp]; exact hf
    · intro e hmem
      rcases List.mem_append.mp hmem with hp | hp
      · exact h.2.2 e hp
      · rw [List.mem_singleton.mp hp]; exact hf

theorem ContextInv_StartJobLoop (env : Env) (q : QueueType) (s : DriveScheduler)
    (h : ContextInv s) : ContextInv (StartJobLoop env q s) := by
  unfold StartJobLoop
  split
  · exact ContextInv_DoJobLoop env q s h
  · exact h

theorem ContextFromEntryPoint_createdEntry (job_type : JobType) (context : DriveClientContext)
    (params : Nat) : ContextFromEntryPoint (createdEntry job_type context params) := by
  intro hne
  cases ht : takesContext job_type
  · exact absurd (by simp [createdEntry, ht]) hne
  · exact ht

theorem ContextInv_step (u : Util) (env : Env) (ev : Event) (s : DriveScheduler)
    (h : ContextInv s) : ContextInv (step u env ev s) := by
  cases ev with
  | Submit job_type context params =>
    simp only [step, callEntryPoint_eq]
    exact ContextInv_StartJobLoop _ _ _
      (ContextInv_QueueJob _ s (ContextFromEntryPoint_createdEntry _ _ _) h)
  | ConnectionTypeChanged =>
    simp only [step, OnConnectionTypeChanged]
    split
    · exact ContextInv_StartJobLoop _ _ _ (ContextInv_StartJobLoop _ _ _ h)
    · exact h
  | Completion i error payload rand =>
    simp only [step]
    cases hi : s.in_flight.get? i with
    | none => exact h
    | some he =>
      obtain ⟨hd, e⟩ := he
      have he : ContextFromEntryPoint e := h.2.1 (hd, e) (List.get?_mem hi)
      have h1 : ContextInv { s with in_flight := s.in_flight.eraseIdx i } :=
        ⟨h.1, fun p hp => h.2.1 p (List.mem_of_mem_eraseIdx hp), h.2.2⟩
      show ContextInv (runHandler u rand hd e error payload _)
      by_cases hc : convertedError u hd error = .DRIVE_FILE_ERROR_THROTTLED
      · rw [runHandler_throttled u rand hd e error payload _ hc, OnJobDone_throttled_eq]
        refine ⟨?_, h1.2.1, h1.2.2⟩
        intro q x hx
        rcases mem_pushQueue_iff _ x s.queue_ q hx with rfl | hx
        · exact he
        · exact h.1 q x hx
      · rw [runHandler_other u rand hd e error payload _ hc, OnJobDone_other_eq _ _ _ _ hc]
        unfold deliver
        split
        · exact h1
        · exact h1
  | RunTask i =>
    simp only [step]
    cases hi : s.tasks.get? i with
    | none => exact h
    | some t =>
      cases t with
      | DoJobLoop q d => exact ContextInv_DoJobLoop env q _ h
      | RunCallback e err p => exact h

theorem ContextInv_of_Reachable (u : Util) (s : DriveScheduler) (hs : Reachable u s) :
    ContextInv s := by
  obtain ⟨evs, rfl⟩ := hs
  have : ∀ (evs : List (Env × Event)) (s : DriveScheduler), ContextInv s →
      ContextInv (run u evs s) := by
    intro evs
    induction evs with
    | nil => exact fun _ h => h
    | cons ev evs ih =>
      intro s h
      obtain ⟨env, ev⟩ := ev
      exact ih _ (ContextInv_step u env ev s h)
  refine this evs _ ⟨?_, ?_, ?_⟩
  · intro q e he
    cases q <;> simp [DriveScheduler.new, QueueArray.get] at he
  · intro p hp
    simp [DriveScheduler.new] at hp
  · intro e he
    simp [DriveScheduler.new] at he

/-- C30 (counterexample): five searches are running (the cap), a
`USER_INITIATED` `GetResourceEntry` job is submitted after them and waits, and
the first search is throttled. The search goes back into the queue behind the
job that was submitted after it. -/
theorem retried_search_ordered_behind_later_job :
    (run sampleUtil searchRetriedTrace DriveScheduler.new).queue_.get .METADATA_QUEUE =
      [createdEntry .TYPE_GET_RESOURCE_ENTRY ctxUser 6,
       (createdEntry .TYPE_SEARCH ctxUser 1).retry] ∧
    (createdEntry .TYPE_GET_RESOURCE_ENTRY ctxUser 6).context.type = .USER_INITIATED ∧
    (createdEntry .TYPE_SEARCH ctxUser 1).retry.job_info.job_type = .TYPE_SEARCH := by
  decide

/-- C30 (amended): every entry point is `QueueJob` of the entry it creates
followed by `StartJobLoop`. The entry created by an entry point that takes no
`DriveClientContext` (all but `GetResourceEntry`, `DownloadFile`,
`UploadNewFile`, `UploadExistingFile`) has priority class `USER_INITIATED`;
those four store exactly the caller's context. So in every reachable state a
job that is queued, in flight or was ever dispatched with class `BACKGROUND`
or `PREFETCH` is of one of those four kinds, and a `Search` job is
`USER_INITIATED`. When a job is enqueued in the metadata queue, by a
submission or by a retry, every `Search` job waiting there stays ahead of
it. -/
theorem entry_points_fix_priority_class (u : Util) (s : DriveScheduler)
    (hs : Reachable u s) :
    (∀ (env : Env) (job_type : JobType) (context : DriveClientContext) (params : Nat),
      callEntryPoint env job_type context params s =
        StartJobLoop env (GetJobQueueType job_type)
          (QueueJob (createdEntry job_type context params) s) ∧
      (createdEntry job_type context params).job_info.job_type = job_type ∧
      (takesContext job_type = false →
        (createdEntry job_type context params).context.type = .USER_INITIATED) ∧
      (takesContext job_type = true →
        (createdEntry job_type context params).context = context)) ∧
    (∀ job_type : JobType, takesContext job_type = true ↔
      (job_type = .TYPE_GET_RESOURCE_ENTRY ∨ job_type = .TYPE_DOWNLOAD_FILE ∨
        job_type = .TYPE_UPLOAD_NEW_FILE ∨ job_type = .TYPE_UPLOAD_EXISTING_FILE)) ∧
    (∀ e : QueueEntry,
      ((∃ q, e ∈ s.queue_.get q) ∨ (∃ h, (h, e) ∈ s.in_flight) ∨ e ∈ s.dispatched) →
      e.context.type ≠ .USER_INITIATED →
      (e.job_info.job_type = .TYPE_GET_RESOURCE_ENTRY ∨
        e.job_info.job_type = .TYPE_DOWNLOAD_FILE ∨
        e.job_info.job_type = .TYPE_UPLOAD_NEW_FILE ∨
        e.job_info.job_type = .TYPE_UPLOAD_EXISTING_FILE)) ∧
    (∀ S J : QueueEntry, S ∈ s.queue_.get .METADATA_QUEUE →
      S.job_info.job_type = .TYPE_SEARCH →
      GetJobQueueType J.job_info.job_type = .METADATA_QUEUE →
      S.context.type = .USER_INITIATED ∧
      ∃ pre post, s.queue_.get .METADATA_QUEUE = pre ++ post ∧
        (QueueJob J s).queue_.get .METADATA_QUEUE = pre ++ J :: post ∧ S ∈ pre) := by
  have hinv := ContextInv_of_Reachable u s hs
  have hwf := WellFormed_of_Reachable u s hs
  have htc : ∀ job_type : JobType, takesContext job_type = true ↔
      (job_type = .TYPE_GET_RESOURCE_ENTRY ∨ job_type = .TYPE_DOWNLOAD_FILE ∨
        job_type = .TYPE_UPLOAD_NEW_FILE ∨ job_type = .TYPE_UPLOAD_EXISTING_FILE) := by
    intro job_type
    cases job_type <;> simp [takesContext]
  refine ⟨?_, htc, ?_, ?_⟩
  · intro env job_type context params
    refine ⟨callEntryPoint_eq env job_type context params s, rfl, ?_, ?_⟩
    · intro ht
      simp [createdEntry, ht]
    · intro ht
      simp [createdEntry, ht]
  · intro e hmem hne
    have hc : ContextFromEntryPoint e := by
      rcases hmem with ⟨q, hq⟩ | ⟨h, hh⟩ | hd
      · exact hinv.1 q e hq
      · exact hinv.2.1 (h, e) hh
      · exact hinv.2.2 e hd
    exact (htc _).mp (hc hne)
  · intro S J hS hty hJ
    have hSu : S.context.type = .USER_INITIATED := by
      by_contra hne
      have := hinv.1 _ S hS hne
      rw [hty] at this
      simp [takesContext] at this
    refine ⟨hSu, ?_⟩
    obtain ⟨pre, post, hsplit, hpre, hpost, hsort⟩ :=
      list_sort_append_singleton (s.queue_.get .METADATA_QUEUE) J (hwf .METADATA_QUEUE).1
    refine ⟨pre, post, hsplit, ?_, ?_⟩
    · show ((s.queue_.set _ _).get .METADATA_QUEUE) = _
      rw [hJ, QueueArray.get_set_same]
      exact hsort
    · rw [hsplit] at hS
      rcases List.mem_append.mp hS with h | h
      · exact h
      · have := hpost S h
        simp [QueueEntry.priority, hSu, ContextType.value] at this

/-- C30 (amended) on a concrete state: with two searches waiting, a
`USER_INITIATED` `GetResourceEntry` job is enqueued behind both. -/
theorem entry_points_fix_priority_class_witness :
    Reachable sampleUtil twoSearchesQueued ∧
    (QueueJob (createdEntry .TYPE_GET_RESOURCE_ENTRY ctxUser 3)
      twoSearchesQueued).queue_.get .METADATA_QUEUE =
      [createdEntry .TYPE_SEARCH ctxUser 1, createdEntry .TYPE_SEARCH ctxUser 2,
       createdEntry .TYPE_GET_RESOURCE_ENTRY ctxUser 3] ∧
    (createdEntry .TYPE_SEARCH ctxBackground 1).context.type = .USER_INITIATED ∧
    (createdEntry .TYPE_SEARCH ctxUser 2).context.type = .USER_INITIATED :=
  have h := entry_points_fix_priority_class sampleUtil twoSearchesQueued ⟨_, rfl⟩
  ⟨⟨_, rfl⟩, by decide,
   (h.1 envOnline .TYPE_SEARCH ctxBackground 1).2.2.1 rfl,
   (h.2.2.2 (createdEntry .TYPE_SEARCH ctxUser 2)
      (createdEntry .TYPE_GET_RESOURCE_ENTRY ctxUser 3) (by decide) rfl rfl).1⟩

end drive
